import Mathlib

/-!
Verification of the Battleship Tactics game-rules engine.

This file gives a shallow embedding, in Lean 4, of the core state-transition
logic of the game: grids and placement (`createEmptyGrid`, `canPlaceShip`,
`placeShip`, `findRandomValidPlacement`), shot resolution (`processShot`),
turn advancement (`advanceTurn`), the skill engine (`handleUseSkill` and the
two skill-arming helpers), and the AI decision engine
(`buildProbabilityMap`, `getAITacticalMove` and their helpers).

Modelling conventions, applied uniformly:
* grids are lists of rows; reading a cell out of bounds yields the default
  value (`EMPTY` for cell grids, `0` for count matrices), matching the
  source's uses of the `?? EMPTY` / `?? 0` defaulting operators; writing out
  of bounds is a no-op.  Theorems about in-bounds play are stated with
  explicit bounds hypotheses.
* JavaScript objects used as string-keyed maps (`shots`, `skillCooldowns`,
  `skillUses`, `hitLog`) are association lists; `lookupA` is property read
  (yielding `none` for an absent key) and `setA` is property write.
* in-place mutation of the deep-copied state is rendered as functional
  update; a mutation of the player object found by id becomes `updateFirst`
  on the player list, which rewrites the first matching element exactly as
  the source mutates the object returned by `Array.prototype.find`.
* sites where the source would throw on a broken state (a non-null
  assertion failing, an index into a missing row) return the input state
  unchanged; every theorem below either excludes such states by hypothesis
  or is unaffected by the convention.
* randomness (`Math.random`) is an oracle argument: random placement
  sampling takes the list of sampled candidate triples, and a uniformly
  random pick out of a list takes a natural number used modulo the list
  length.
-/

inductive CellState
  | EMPTY
  | SHIP
  | HIT
  | MISS
  | SUNK
  | DECOY
  | RADAR_CONTACT
deriving DecidableEq, Repr

inductive ShipType
  | Mothership
  | Radarship
  | Repairship
  | Commandship
  | Decoyship
  | Jamship
  | Classic (name : String)
deriving DecidableEq, Repr

/-- Classic-mode ships carry their name as their type (`type: s.name as any`
in the source); such a type is never equal to one of the six tactical
roles, which is all the engine ever tests. -/
instance : BEq ShipType := instBEqOfDecidableEq

inductive GamePhase
  | LOBBY
  | SETUP
  | PLAYING
  | GAME_OVER
  | TURN_TRANSITION
deriving DecidableEq, Repr

inductive GameMode
  | CLASSIC
  | TACTICAL
deriving DecidableEq, Repr

structure Pos where
  x : Nat
  y : Nat
deriving DecidableEq, Repr

structure Dims where
  rows : Nat
  cols : Nat
deriving DecidableEq, Repr

/-- Matrices of cells or of counters are lists of rows, indexed `m[y][x]`. -/
abbrev Mat (α : Type) : Type := List (List α)

/-- Reading `m[y]?.[x] ?? d`: out-of-bounds reads give the default. -/
def getM (m : Mat α) (x y : Nat) (d : α) : α :=
  (List.getD m y []).getD x d

/-- Writing `m[y][x] = v`; a write outside the allocated rows is a no-op
(the source never performs one on the states covered by the theorems). -/
def setM (m : Mat α) (x y : Nat) (v : α) : Mat α :=
  List.set m y ((List.getD m y []).set x v)

/-- Shape predicate: `m` has exactly `rows` rows of `cols` entries each. -/
def matWF (m : Mat α) (d : Dims) : Prop :=
  List.length m = d.rows ∧ ∀ r ∈ m, List.length r = d.cols

instance [DecidableEq α] (m : Mat α) (d : Dims) : Decidable (matWF m d) := by
  unfold matWF; infer_instance

abbrev Grid := Mat CellState

def getCell (g : Grid) (x y : Nat) : CellState := getM g x y CellState.EMPTY

def setCell (g : Grid) (x y : Nat) (c : CellState) : Grid := setM g x y c

structure Ship where
  name : String
  type : ShipType
  length : Nat
  positions : List Pos
  isSunk : Bool
  isDamaged : Bool
  hasBeenRepaired : Bool
  hasBeenRelocated : Bool
deriving DecidableEq, Repr

/-- Property read on an object used as a map: `o[k]`, `none` if absent. -/
def lookupA [DecidableEq κ] (l : List (κ × α)) (k : κ) : Option α :=
  (l.find? (fun e => decide (e.1 = k))).map (·.2)

/-- Defaulted property read: `o[k] ?? d`. -/
def lookupD [DecidableEq κ] (l : List (κ × α)) (k : κ) (d : α) : α :=
  (lookupA l k).getD d

/-- Property write `o[k] = v`: replaces the binding if present, else adds it. -/
def setA [DecidableEq κ] (l : List (κ × α)) (k : κ) (v : α) : List (κ × α) :=
  if l.any (fun e => decide (e.1 = k)) then
    l.map (fun e => if e.1 = k then (k, v) else e)
  else l ++ [(k, v)]

structure Player where
  id : Nat
  name : String
  isAI : Bool
  grid : Grid
  ships : List Ship
  shots : List (Nat × Grid)
  isReady : Bool
  isEliminated : Bool
  score : Int
  skillCooldowns : List (ShipType × Int)
  skillUses : List (ShipType × Int)
  decoyPositions : List Pos
  jammedPositions : List Pos
  jamTurnsRemaining : Int
  escapeSkillUnlocked : Bool
deriving DecidableEq, Repr

inductive LogResult
  | HIT
  | MISS
  | SUNK_SHIP
  | SHOT_FIRED
  | SKILL_USED
deriving DecidableEq, Repr

structure GameLogEntry where
  turn : Int
  playerId : Nat
  playerName : String
  targetId : Option Nat
  targetName : Option String
  coords : Option Pos
  result : LogResult
  sunkShipName : Option String
  hitShipName : Option String
  message : Option String
deriving DecidableEq, Repr

inductive ActionType
  | ATTACK
  | SKILL
deriving DecidableEq, Repr

inductive ActionStage
  | SELECT_SHIP
  | PLACE_SHIP
  | PLACE_DECOY
deriving DecidableEq, Repr

structure PosState where
  x : Nat
  y : Nat
  state : CellState
deriving DecidableEq, Repr

structure ActiveAction where
  playerId : Nat
  type : ActionType
  shipType : Option ShipType
  stage : Option ActionStage
  shipToMove : Option Ship
  isHorizontal : Option Bool
  originalPositions : List PosState
deriving DecidableEq, Repr

structure RadarScanResult where
  playerId : Nat
  results : List PosState
deriving DecidableEq, Repr

structure JammedArea where
  playerId : Nat
  coords : List Pos
deriving DecidableEq, Repr

structure GameState where
  phase : GamePhase
  players : List Player
  currentPlayerId : Option Nat
  winner : Option Nat
  turn : Int
  gridDimensions : Dims
  gameMode : GameMode
  log : List GameLogEntry
  hasActedThisTurn : Bool
  activeAction : Option ActiveAction
  radarScanResult : Option RadarScanResult
  jammedArea : Option JammedArea
  hitLog : List (Nat × List (Pos × Int))
deriving DecidableEq, Repr

/-- Rewrites the first element satisfying `p` by `f`; this is how mutating
the object returned by `Array.prototype.find` acts on the containing list. -/
def updateFirst (p : α → Bool) (f : α → α) : List α → List α
  | [] => []
  | a :: as => if p a then f a :: as else a :: updateFirst p f as

/-- Mutation of the player object with id `pid` inside the state. -/
def updPlayer (gs : GameState) (pid : Nat) (f : Player → Player) : GameState :=
  { gs with players := updateFirst (fun p => decide (p.id = pid)) f gs.players }

/-- The current player, `players.find(p => p.id === gameState.currentPlayerId)`. -/
def currentPlayer (gs : GameState) : Option Player :=
  gs.players.find? (fun p => gs.currentPlayerId == some p.id)

/-- Reads `hitLog?.[pid]?.[x,y] ?? 999`, the turn on which the cell was
last damaged (999 when never recorded). -/
def lookupHit (hl : List (Nat × List (Pos × Int))) (pid : Nat) (q : Pos) : Int :=
  match lookupA hl pid with
  | none => 999
  | some inner => lookupD inner q 999

/-- Records `hitLog[pid][x,y] = turn`, creating the inner object if needed. -/
def recordHit (hl : List (Nat × List (Pos × Int))) (pid : Nat) (q : Pos) (t : Int) :
    List (Nat × List (Pos × Int)) :=
  match lookupA hl pid with
  | none => setA hl pid [(q, t)]
  | some inner => setA hl pid (setA inner q t)

/-- Source: `createEmptyGrid(rows, cols)`. -/
def createEmptyGrid (rows cols : Nat) : Grid :=
  List.replicate rows (List.replicate cols CellState.EMPTY)

/-- Source: `canPlaceShip(grid, ship, x, y, isHorizontal, gridDimensions)`;
every occupied cell must be in bounds and `EMPTY`.  The source also checks
`pos.x < 0 || pos.y < 0`, which cannot occur for natural coordinates. -/
def canPlaceShip (grid : Grid) (len : Nat) (x y : Nat) (isHorizontal : Bool)
    (d : Dims) : Bool :=
  (List.range len).all (fun i =>
    let cx := x + (if isHorizontal then i else 0)
    let cy := y + (if isHorizontal then 0 else i)
    decide (cx < d.cols) && decide (cy < d.rows) &&
      (getCell grid cx cy == CellState.EMPTY))

/-- Source: `placeShip(grid, ship, x, y, isHorizontal)`. -/
def placeShip (grid : Grid) (ship : Ship) (x y : Nat) (isHorizontal : Bool) :
    Grid × Ship :=
  let newPositions := (List.range ship.length).map (fun i =>
    Pos.mk (x + (if isHorizontal then i else 0)) (y + (if isHorizontal then 0 else i)))
  let newGrid := newPositions.foldl (fun g pos => setCell g pos.x pos.y CellState.SHIP) grid
  (newGrid, { ship with positions := newPositions })

structure Placement where
  x : Nat
  y : Nat
  isHorizontal : Bool
deriving DecidableEq, Repr

/-- Source: `findRandomValidPlacement(player, ship, gridDimensions)`; the
random `(x, y, orientation)` samples are the oracle list `cands`, of which
at most 100 are tried. -/
def findRandomValidPlacement (player : Player) (ship : Ship) (d : Dims)
    (cands : List Placement) : Option Placement :=
  if player.grid.length = 0 ∨ (List.getD player.grid 0 []).length = 0 then none
  else
    let gridWithoutShip := ship.positions.foldl
      (fun g pos => setCell g pos.x pos.y CellState.EMPTY) player.grid
    (cands.take 100).find? (fun c =>
      canPlaceShip gridWithoutShip ship.length c.x c.y c.isHorizontal d)

section GridLemmas

theorem getM_setM_self {m : Mat α} {d : α} (hy : y < m.length)
    (hx : x < (List.getD m y []).length) :
    getM (setM m x y v) x y d = v := by
  simp only [getM, setM, List.getD_eq_getElem?_getD]
  rw [List.getElem?_set_self (by simpa using hy)]
  simp only [Option.getD_some]
  rw [List.getElem?_set_self (by simpa using hx)]
  rfl

theorem getM_setM_ne {m : Mat α} {d : α} (h : ¬(x = x' ∧ y = y')) :
    getM (setM m x y v) x' y' d = getM m x' y' d := by
  simp only [getM, setM, List.getD_eq_getElem?_getD]
  by_cases hy : y = y'
  · subst hy
    have hx : x ≠ x' := fun hc => h ⟨hc, rfl⟩
    by_cases hyl : y < m.length
    · rw [List.getElem?_set_self (by simpa using hyl)]
      simp only [Option.getD_some]
      rw [List.getElem?_set_ne (by simpa using hx)]
    · rw [List.set_eq_of_length_le (by omega)]
  · rw [List.getElem?_set_ne (by simpa using hy)]

theorem length_setM (m : Mat α) : (setM m x y v).length = m.length := by
  simp [setM]

theorem matWF_setM {m : Mat α} (h : matWF m d) : matWF (setM m x y v) d := by
  obtain ⟨h1, h2⟩ := h
  by_cases hy : y < m.length
  · refine ⟨by simpa [setM] using h1, ?_⟩
    intro r hr
    rcases List.mem_or_eq_of_mem_set hr with hmem | heq
    · exact h2 r hmem
    · subst heq
      have hmem : List.getD m y [] ∈ m := by
        rw [List.getD_eq_getElem?_getD, List.getElem?_eq_getElem (by simpa using hy)]
        simp [List.getElem_mem]
      have := h2 _ hmem
      simpa using this
  · have : setM m x y v = m := List.set_eq_of_length_le (by omega)
    rw [this]
    exact ⟨h1, h2⟩

theorem matWF_createEmptyGrid : matWF (createEmptyGrid rows cols) ⟨rows, cols⟩ := by
  constructor
  · simp [createEmptyGrid]
  · intro r hr
    simp [createEmptyGrid] at hr
    simp [hr]

end GridLemmas

/-! ## Shot resolution (`processShot`, src gameLogic) -/

/-- The fields shared by every log entry written by `processShot`. -/
def baseLogEntry (gs : GameState) (attacker : Player) (x y : Nat) : GameLogEntry :=
  { turn := gs.turn, playerId := attacker.id, playerName := attacker.name,
    targetId := none, targetName := none, coords := some ⟨x, y⟩,
    result := LogResult.MISS, sunkShipName := none, hitShipName := none,
    message := none }

/-- Marks every position of a ship (the `SUNK` rewrite loop and the
footprint-clearing loops of the skills). -/
def markCells (g : Grid) (ps : List Pos) (c : CellState) : Grid :=
  ps.foldl (fun g2 pos => setCell g2 pos.x pos.y c) g

/-- The classic-mode per-shot computation: the updated shot grid, target
grid and ship list, whether the turn ends (before the game-over override),
and the log entry. -/
def classicShotStep (base : GameLogEntry) (shots0 : Grid) (target : Player)
    (tid x y : Nat) : Grid × Grid × List Ship × Bool × GameLogEntry :=
  let targetCell := getCell target.grid x y
  let isHit := targetCell = CellState.SHIP ∨ targetCell = CellState.HIT ∨
    targetCell = CellState.SUNK
  let shipPred := fun (sh : Ship) =>
    sh.positions.any (fun pos => decide (pos.x = x ∧ pos.y = y))
  if isHit then
    let shots1 := setCell shots0 x y CellState.HIT
    let grid1 := setCell target.grid x y CellState.HIT
    match target.ships.find? shipPred with
    | none =>
      (shots1, grid1, target.ships, false,
        { base with
          result := LogResult.HIT,
          targetId := some tid, targetName := some target.name })
    | some hitShip =>
      let isSunkNow := hitShip.positions.all
        (fun pos => getCell grid1 pos.x pos.y == CellState.HIT)
      if isSunkNow then
        (markCells shots1 hitShip.positions CellState.SUNK,
         markCells grid1 hitShip.positions CellState.SUNK,
         updateFirst shipPred (fun sh => { sh with isSunk := true }) target.ships,
         false,
         { base with
           result := LogResult.SUNK_SHIP,
           hitShipName := some hitShip.name, sunkShipName := some hitShip.name,
           targetId := some tid, targetName := some target.name })
      else
        (shots1, grid1, target.ships, false,
          { base with
            result := LogResult.HIT, hitShipName := some hitShip.name,
            targetId := some tid, targetName := some target.name })
  else
    (setCell shots0 x y CellState.MISS, setCell target.grid x y CellState.MISS,
     target.ships, true,
     { base with
       result := LogResult.MISS,
       targetId := some tid, targetName := some target.name })

/-- Source: `processShot(gameState, targetPlayerId, x, y)`.  Resolves one
shot for either mode; see the file comment for the modelling conventions
(in particular, branches on which the source would throw on a broken state
return the input unchanged). -/
def processShot (gs : GameState) (targetPlayerId : Option Nat) (x y : Nat) : GameState :=
  match currentPlayer gs with
  | none => gs
  | some attacker =>
  let rows := gs.gridDimensions.rows
  let cols := gs.gridDimensions.cols
  let base := baseLogEntry gs attacker x y
  match targetPlayerId with
  | none => gs
  | some tid =>
  match gs.players.find? (fun p => decide (p.id = tid)) with
  | none => gs
  | some target =>
  if gs.gameMode = GameMode.TACTICAL then
    -- lazy allocation of the per-target shot grid, then the double-fire guard
    let shots0 := (lookupA attacker.shots tid).getD (createEmptyGrid rows cols)
    let cur := getCell shots0 x y
    if cur ≠ CellState.EMPTY ∧ cur ≠ CellState.RADAR_CONTACT then gs
    else if target.decoyPositions.any (fun p => decide (p.x = x ∧ p.y = y)) then
      -- decoy hit: report a HIT, remove the decoy, player acts again
      let shots1 := setCell shots0 x y CellState.HIT
      let decoys1 := target.decoyPositions.eraseP (fun p => decide (p.x = x ∧ p.y = y))
      let grid1 := if getCell target.grid x y = CellState.DECOY then
          setCell target.grid x y CellState.EMPTY else target.grid
      let entry := { base with
        result := LogResult.HIT,
        hitShipName := some "unidentified contact",
        targetId := some target.id, targetName := some target.name }
      let gs1 := updPlayer gs attacker.id
        (fun p => { p with shots := setA p.shots tid shots1 })
      let gs2 := updPlayer gs1 target.id
        (fun p => { p with decoyPositions := decoys1, grid := grid1 })
      { gs2 with log := entry :: gs2.log, hasActedThisTurn := false }
    else
      let targetCell := getCell target.grid x y
      if targetCell = CellState.SHIP then
        match target.ships.find? (fun sh =>
            sh.positions.any (fun pos => decide (pos.x = x ∧ pos.y = y))) with
        | none => gs -- the source's non-null assertion would throw here
        | some hitShip =>
          let shots1 := setCell shots0 x y CellState.HIT
          let grid1 := setCell target.grid x y CellState.HIT
          let hitLog1 := recordHit gs.hitLog tid ⟨x, y⟩ gs.turn
          let mothershipHit := hitShip.type = ShipType.Mothership
          -- HIT & GO AGAIN RULE: the turn ends only on a Mothership hit
          let hasActed1 := decide mothershipHit
          let escape1 := target.escapeSkillUnlocked ∨ mothershipHit
          let isSunkNow := hitShip.positions.all
            (fun pos => getCell grid1 pos.x pos.y == CellState.HIT)
          let shipPred := fun (sh : Ship) =>
            sh.positions.any (fun pos => decide (pos.x = x ∧ pos.y = y))
          if isSunkNow then
            let grid2 := markCells grid1 hitShip.positions CellState.SUNK
            let shots2 := markCells shots1 hitShip.positions CellState.SUNK
            let ships1 := updateFirst shipPred
              (fun sh => { sh with isDamaged := true, isSunk := true }) target.ships
            let mothershipSunk := mothershipHit
            let entry := { base with
              result := LogResult.SUNK_SHIP,
              sunkShipName := some hitShip.name,
              targetId := some target.id, targetName := some target.name }
            let gs1 := updPlayer gs attacker.id
              (fun p => { p with shots := setA p.shots tid shots2 })
            let gs2 := updPlayer gs1 target.id
              (fun p => { p with
                grid := grid2, ships := ships1,
                escapeSkillUnlocked := escape1,
                isEliminated := p.isEliminated ∨ mothershipSunk })
            { gs2 with
              log := entry :: gs2.log, hasActedThisTurn := hasActed1,
              hitLog := hitLog1,
              phase := if mothershipSunk then GamePhase.GAME_OVER else gs2.phase,
              winner := if mothershipSunk then some attacker.id else gs2.winner }
          else
            let ships1 := updateFirst shipPred
              (fun sh => { sh with isDamaged := true }) target.ships
            let entry := { base with
              result := LogResult.HIT,
              hitShipName := some hitShip.name,
              targetId := some target.id, targetName := some target.name }
            let gs1 := updPlayer gs attacker.id
              (fun p => { p with shots := setA p.shots tid shots1 })
            let gs2 := updPlayer gs1 target.id
              (fun p => { p with
                grid := grid1, ships := ships1,
                escapeSkillUnlocked := escape1 })
            { gs2 with
              log := entry :: gs2.log, hasActedThisTurn := hasActed1,
              hitLog := hitLog1 }
      else
        -- MISS: the turn ends; a decoy on the target grid is not overwritten
        let shots1 := setCell shots0 x y CellState.MISS
        let grid1 := if targetCell ≠ CellState.DECOY then
            setCell target.grid x y CellState.MISS else target.grid
        let entry := { base with
          result := LogResult.MISS,
          targetId := some target.id, targetName := some target.name }
        let gs1 := updPlayer gs attacker.id
          (fun p => { p with shots := setA p.shots tid shots1 })
        let gs2 := updPlayer gs1 target.id (fun p => { p with grid := grid1 })
        { gs2 with log := entry :: gs2.log, hasActedThisTurn := true }
  else
    -- CLASSIC MODE
    let shots0 := (lookupA attacker.shots tid).getD (createEmptyGrid rows cols)
    if getCell shots0 x y ≠ CellState.EMPTY then gs
    else
      let step := classicShotStep base shots0 target tid x y
      let shots1 := step.1
      let grid1 := step.2.1
      let ships1 := step.2.2.1
      let hasActed1 := step.2.2.2.1
      let entry := step.2.2.2.2
      let gs1 := updPlayer gs attacker.id
        (fun p => { p with shots := setA p.shots tid shots1 })
      let gs2 := updPlayer gs1 target.id
        (fun p => { p with
          grid := grid1, ships := ships1,
          isEliminated := p.isEliminated ∨ ships1.all (·.isSunk) })
      let active := gs2.players.filter (fun p => !p.isEliminated)
      let gameOver := active.length ≤ 1
      { gs2 with
        phase := if gameOver then GamePhase.GAME_OVER else gs2.phase,
        winner := if gameOver then
            (if active.length = 1 then (active.head?).map (·.id) else none)
          else gs2.winner,
        hasActedThisTurn := if gameOver then true else hasActed1,
        log := entry :: gs2.log }

/-! ## Turn advancement (`advanceTurn`, src gameLogic) -/

/-- The `while` loop that skips eliminated players; `ci` is the JavaScript
`findIndex` result (`-1` when the current player is absent), `ni` the index
being probed, and `fuel` bounds the iteration count (the source loop visits
at most `players.length` indices before hitting its `break`). -/
def skipEliminated (players : List Player) (ci : Int) : Nat → Int → Int
  | 0, ni => ni
  | fuel + 1, ni =>
    if (players.get? ni.toNat).map (·.isEliminated) = some true then
      let ni2 := (ni + 1) % (players.length : Int)
      if ni2 = ci then ni2 else skipEliminated players ci fuel ni2
    else ni

/-- The cooldown table after the end-of-turn decrement pass: every strictly
positive entry drops by one, the others are untouched. -/
def decrementCooldowns (cds : List (ShipType × Int)) : List (ShipType × Int) :=
  cds.map (fun (e : ShipType × Int) => (e.1, if e.2 > 0 then e.2 - 1 else e.2))

/-- The jam timer after the end-of-turn decrement. -/
def jamAfter (ctp : Player) : Int :=
  if ctp.jamTurnsRemaining > 0 then ctp.jamTurnsRemaining - 1 else ctp.jamTurnsRemaining

/-- True when the decrement clears the jam this turn. -/
def jamClears (ctp : Player) : Prop :=
  ctp.jamTurnsRemaining > 0 ∧ jamAfter ctp = 0

instance (ctp : Player) : Decidable (jamClears ctp) := by
  unfold jamClears; infer_instance

/-- The per-player bookkeeping `advanceTurn` performs on the player who is
ending the turn (cooldowns in tactical mode, the jam timer, and the jammed
cells once the jam expires). -/
def endTurnPlayerUpdate (gameMode : GameMode) (ctp : Player) (p : Player) : Player :=
  { p with
    skillCooldowns := if gameMode = GameMode.TACTICAL then
        decrementCooldowns ctp.skillCooldowns
      else ctp.skillCooldowns,
    jamTurnsRemaining := jamAfter ctp,
    jammedPositions := if jamClears ctp then [] else p.jammedPositions }

/-- Source: `advanceTurn(gameState)`.  Decrements the ending player's
cooldowns (tactical only) and jam timer, picks the next non-eliminated
player, flags a hot-seat hand-off, and resets the per-turn fields. -/
def advanceTurn (gs : GameState) : GameState :=
  let gs1 : GameState :=
    match currentPlayer gs with
    | none => gs
    | some ctp =>
      let gsA := updPlayer gs ctp.id (endTurnPlayerUpdate gs.gameMode ctp)
      if jamClears ctp ∧ (gs.jammedArea.map (·.playerId)) = some ctp.id then
        { gsA with jammedArea := none }
      else gsA
  let n : Nat := gs1.players.length
  let ci : Int := match gs1.players.findIdx? (fun (p : Player) => gs.currentPlayerId == some p.id) with
    | some i => (i : Int)
    | none => -1
  let start : Int := (ci + 1) % (n : Int)
  let ni : Int := skipEliminated gs1.players ci n start
  let nextPlayer : Option Player := gs1.players.get? ni.toNat
  let hasMultipleHumans := (gs1.players.filter (fun p => !p.isAI)).length > 1
  let phase1 := if (nextPlayer.map (·.isAI)) = some false ∧ hasMultipleHumans then
      GamePhase.TURN_TRANSITION else gs1.phase
  { gs1 with
    phase := phase1,
    turn := gs1.turn + 1,
    hasActedThisTurn := false,
    currentPlayerId := nextPlayer.map (·.id),
    activeAction := none,
    radarScanResult := none }

/-! ## Skill resolution (`handleUseSkill` and the arming helpers, src App) -/

/-- The payload of a skill invocation; the source passes a loosely-typed
`options` object of which each skill reads the fields it needs. -/
structure SkillOptions where
  x : Nat
  y : Nat
  isHorizontal : Bool
  targetShipType : Option ShipType
deriving DecidableEq, Repr

/-- Clears the opponents' shot markers over a list of cells: for every
player other than `aid`, each listed cell of their shot grid against `aid`
that is present (allocated and in range) is reset to `EMPTY`. -/
def clearShotMarkers (players : List Player) (aid : Nat) (ps : List Pos) : List Player :=
  players.map (fun pl =>
    if pl.id ≠ aid then
      match lookupA pl.shots aid with
      | none => pl
      | some g =>
        { pl with
          shots := setA pl.shots aid (ps.foldl (fun g2 pos =>
            if pos.y < g2.length ∧ pos.x < (List.getD g2 pos.y []).length then
              setCell g2 pos.x pos.y CellState.EMPTY
            else g2) g) }
    else pl)

/-- The 3x3 jam block centered on `(x, y)`, clipped to the board; cells are
produced in the source's loop order (row offset outer, column offset
inner), with Int arithmetic standing in for the possibly-negative
JavaScript intermediate coordinates. -/
def jamBlock (x y : Nat) (d : Dims) : List Pos :=
  ([-1, 0, 1] : List Int).flatMap (fun i =>
    ([-1, 0, 1] : List Int).filterMap (fun j =>
      let cx : Int := (x : Int) + j
      let cy : Int := (y : Int) + i
      if 0 ≤ cx ∧ cx < (d.cols : Int) ∧ 0 ≤ cy ∧ cy < (d.rows : Int) then
        some ⟨cx.toNat, cy.toNat⟩
      else none))

/-- The 2x2 radar scan anchored at `(x, y)`, clipped to the board: one
observation per not-yet-shot cell, `RADAR_CONTACT` over a ship or decoy
and `MISS` over anything else. -/
def radarScan (shotsG oppGrid : Grid) (x y : Nat) (d : Dims) : List PosState :=
  (List.range 2).flatMap (fun i =>
    (List.range 2).filterMap (fun j =>
      let cx := x + j
      let cy := y + i
      if cx < d.cols ∧ cy < d.rows then
        if getCell shotsG cx cy = CellState.EMPTY then
          some ⟨cx, cy,
            if getCell oppGrid cx cy = CellState.SHIP ∨
               getCell oppGrid cx cy = CellState.DECOY then
              CellState.RADAR_CONTACT else CellState.MISS⟩
        else none
      else none))

/-- Restores grid cells from a captured footprint snapshot (the failure
rollback of the human Mothership and Commandship branches). -/
def restoreCells (g : Grid) (ps : List PosState) : Grid :=
  ps.foldl (fun g2 p => setCell g2 p.x p.y p.state) g

/-- Source: `handleUseSkill(skillType, options, isAI, gameState)` from the
controller.  Returns `(success, newState)`; on failure the in-progress
action descriptor is cleared and no log entry is written, on success a log
entry is prepended, `hasActedThisTurn` is set and the action descriptor is
cleared.  The placement oracle `cands` feeds `findRandomValidPlacement`
for the AI Mothership and Commandship branches.  Log message texts are
abbreviated; their content is never load-bearing. -/
def handleUseSkill (skillType : ShipType) (options : SkillOptions) (isAI : Bool)
    (gs : GameState) (cands : List Placement) : Bool × GameState :=
  match currentPlayer gs with
  | none => (false, gs)
  | some attacker =>
  let d := gs.gridDimensions
  let entry0 : GameLogEntry :=
    { turn := gs.turn, playerId := attacker.id, playerName := attacker.name,
      targetId := none, targetName := none, coords := none,
      result := LogResult.SKILL_USED, sunkShipName := none, hitShipName := none,
      message := some "skill used" }
  -- each branch yields (actionTaken, state after the per-skill mutations, message)
  let outcome : Bool × GameState × String :=
    match skillType with
    | ShipType.Mothership =>
      if isAI then
        match attacker.ships.find? (fun s => s.type == ShipType.Mothership) with
        | none => (false, gs, "")
        | some mothership =>
          match findRandomValidPlacement attacker mothership d cands with
          | none => (false, gs, "")
          | some placement =>
            let gridWithoutOldShip := markCells attacker.grid mothership.positions CellState.EMPTY
            let players1 := clearShotMarkers gs.players attacker.id mothership.positions
            let pr := placeShip gridWithoutOldShip mothership placement.x placement.y
              placement.isHorizontal
            let gs1 := { gs with players := players1 }
            let gs2 := updPlayer gs1 attacker.id (fun p =>
              { p with
                ships := updateFirst (fun s => s.type == ShipType.Mothership)
                  (fun _ => { pr.2 with isDamaged := false }) p.ships,
                grid := pr.1,
                skillUses := setA p.skillUses ShipType.Mothership 0 })
            (true, gs2, "used Escape, the Mothership has been repaired and relocated")
      else
        match gs.activeAction with
        | none => (false, gs, "")
        | some act =>
          match act.shipToMove with
          | none => (false, gs, "")
          | some mothershipFromAction =>
            if canPlaceShip attacker.grid mothershipFromAction.length options.x options.y
                options.isHorizontal d then
              let players1 := clearShotMarkers gs.players attacker.id
                (act.originalPositions.map (fun p => ⟨p.x, p.y⟩))
              let pr := placeShip attacker.grid mothershipFromAction options.x options.y
                options.isHorizontal
              let gs1 := { gs with players := players1 }
              let gs2 := updPlayer gs1 attacker.id (fun p =>
                { p with
                  ships := updateFirst (fun s => s.type == ShipType.Mothership)
                    (fun s => { s with isDamaged := false, positions := pr.2.positions }) p.ships,
                  grid := pr.1,
                  skillUses := setA p.skillUses ShipType.Mothership 0 })
              (true, gs2, "used Escape, the Mothership has been repaired and relocated")
            else
              let gs1 := updPlayer gs attacker.id (fun p =>
                { p with
                  ships := updateFirst (fun s => s.type == ShipType.Mothership)
                    (fun s => { s with
                      positions := act.originalPositions.map (fun q => ⟨q.x, q.y⟩) }) p.ships,
                  grid := restoreCells p.grid act.originalPositions })
              (false, gs1, "")
    | ShipType.Radarship =>
      match gs.players.find? (fun p => decide (p.id ≠ attacker.id)) with
      | none => (false, gs, "")
      | some opponent =>
        let shotsG := (lookupA attacker.shots opponent.id).getD (createEmptyGrid d.rows d.cols)
        let results := radarScan shotsG opponent.grid options.x options.y d
        let gs1 := updPlayer gs attacker.id (fun p =>
          { p with skillCooldowns := setA p.skillCooldowns ShipType.Radarship 3 })
        (true, { gs1 with radarScanResult := some ⟨attacker.id, results⟩ },
         "Radar Scan used, cooldown set to 3 turns")
    | ShipType.Jamship =>
      match gs.players.find? (fun p => decide (p.id ≠ attacker.id)) with
      | none => (false, gs, "")
      | some opponent =>
        let jammedCoords := jamBlock options.x options.y d
        let gs1 := updPlayer gs opponent.id (fun p =>
          { p with jammedPositions := jammedCoords, jamTurnsRemaining := 1 })
        let gs2 := updPlayer gs1 attacker.id (fun p =>
          { p with skillCooldowns := setA p.skillCooldowns ShipType.Jamship 4 })
        (true, { gs2 with jammedArea := some ⟨opponent.id, jammedCoords⟩ },
         "used Jam, cooldown set to 4 turns")
    | ShipType.Repairship =>
      let repairedShip? := attacker.ships.find? (fun s =>
        s.positions.any (fun p => decide (p.x = options.x ∧ p.y = options.y)))
      if (repairedShip?.map (·.isSunk)) = some true ∨
         (repairedShip?.map (·.hasBeenRepaired)) = some true ∨
         getCell attacker.grid options.x options.y ≠ CellState.HIT ∨
         lookupHit gs.hitLog attacker.id ⟨options.x, options.y⟩ ≥ gs.turn then
        (false, gs, "")
      else
        let grid1 := setCell attacker.grid options.x options.y CellState.SHIP
        let players1 := gs.players.map (fun pl =>
          match lookupA pl.shots attacker.id with
          | none => pl
          | some g =>
            { pl with
              shots := setA pl.shots attacker.id
                (setCell g options.x options.y CellState.EMPTY) })
        let gs1 := { gs with players := players1 }
        let gs2 := updPlayer gs1 attacker.id (fun p =>
          { p with
            grid := grid1,
            skillCooldowns := setA p.skillCooldowns ShipType.Repairship 3,
            ships := updateFirst (fun s =>
                s.positions.any (fun q => decide (q.x = options.x ∧ q.y = options.y)))
              (fun s =>
                { s with
                  hasBeenRepaired := true,
                  isDamaged := s.positions.any
                    (fun q => getCell grid1 q.x q.y == CellState.HIT) }) p.ships })
        (true, gs2, "repaired a ship, cooldown 3 turns")
    | ShipType.Decoyship =>
      if getCell attacker.grid options.x options.y = CellState.EMPTY then
        let gs1 := updPlayer gs attacker.id (fun p =>
          { p with
            grid := setCell p.grid options.x options.y CellState.DECOY,
            decoyPositions := p.decoyPositions ++ [⟨options.x, options.y⟩],
            skillUses := setA p.skillUses ShipType.Decoyship
              (lookupD p.skillUses ShipType.Decoyship 0 - 1) })
        (true, gs1, "deployed a decoy beacon")
      else (false, gs, "")
    | ShipType.Commandship =>
      if isAI then
        match attacker.ships.find? (fun s => options.targetShipType == some s.type) with
        | none => (false, gs, "")
        | some shipToMove =>
          if shipToMove.isDamaged ∨ shipToMove.isSunk ∨ shipToMove.hasBeenRelocated then
            (false, gs, "")
          else
            match findRandomValidPlacement attacker shipToMove d cands with
            | none => (false, gs, "")
            | some placement =>
              let gridWithoutShip := markCells attacker.grid shipToMove.positions CellState.EMPTY
              let pr := placeShip gridWithoutShip shipToMove placement.x placement.y
                placement.isHorizontal
              let gs1 := updPlayer gs attacker.id (fun p =>
                { p with
                  ships := updateFirst (fun s => s.name == pr.2.name)
                    (fun _ => { pr.2 with hasBeenRelocated := true }) p.ships,
                  grid := pr.1,
                  skillCooldowns := setA p.skillCooldowns ShipType.Commandship 4 })
              (true, gs1, "relocated a ship")
      else
        match gs.activeAction with
        | none => (false, gs, "")
        | some act =>
          match act.shipToMove with
          | none => (false, gs, "")
          | some shipToMoveFromAction =>
            if canPlaceShip attacker.grid shipToMoveFromAction.length options.x options.y
                options.isHorizontal d then
              match attacker.ships.find? (fun s => s.name == shipToMoveFromAction.name) with
              | none => (false, gs, "")
              | some orig =>
                let pr := placeShip attacker.grid orig options.x options.y options.isHorizontal
                let gs1 := updPlayer gs attacker.id (fun p =>
                  { p with
                    ships := updateFirst (fun s => s.name == shipToMoveFromAction.name)
                      (fun _ => { pr.2 with hasBeenRelocated := true }) p.ships,
                    grid := pr.1,
                    skillCooldowns := setA p.skillCooldowns ShipType.Commandship 4 })
                (true, gs1, "relocated a ship")
            else
              let gs1 := updPlayer gs attacker.id (fun p =>
                { p with
                  ships := updateFirst (fun s => s.name == shipToMoveFromAction.name)
                    (fun s => { s with
                      positions := act.originalPositions.map (fun q => ⟨q.x, q.y⟩) }) p.ships,
                  grid := restoreCells p.grid act.originalPositions })
              (false, gs1, "")
    | _ => (true, gs, "skill used") -- a classic ship type matches no switch case; actionTaken stays true
  if outcome.1 then
    let gsS := outcome.2.1
    (true, { gsS with
      log := { entry0 with message := some outcome.2.2 } :: gsS.log,
      hasActedThisTurn := true,
      activeAction := none })
  else
    (false, { outcome.2.1 with activeAction := none })

/-- Source: `handleActivateMothershipEscape` (src App).  Arms the escape
skill: validates unlock and remaining charge, snapshots the footprint with
its cell states, clears the footprint from the grid and the ship, and
stores the in-progress action descriptor. -/
def handleActivateMothershipEscape (gs : GameState) : GameState :=
  match currentPlayer gs with
  | none => gs
  | some player =>
  match player.ships.find? (fun s => s.type == ShipType.Mothership) with
  | none => gs
  | some mothership =>
  if ¬player.escapeSkillUnlocked ∨ lookupD player.skillUses ShipType.Mothership 0 ≤ 0 then gs
  else
    let isHorizontal := match mothership.positions with
      | p0 :: p1 :: _ => p0.y == p1.y
      | _ => true
    let originalPositionsWithState := mothership.positions.map (fun pos =>
      PosState.mk pos.x pos.y (getCell player.grid pos.x pos.y))
    let gs1 := updPlayer gs player.id (fun p =>
      { p with
        grid := markCells p.grid mothership.positions CellState.EMPTY,
        ships := updateFirst (fun s => s.type == ShipType.Mothership)
          (fun s => { s with positions := [] }) p.ships })
    { gs1 with
      activeAction := some
        { playerId := player.id, type := ActionType.SKILL,
          shipType := some ShipType.Mothership, stage := some ActionStage.PLACE_SHIP,
          shipToMove := some { mothership with positions := [] },
          isHorizontal := some isHorizontal,
          originalPositions := originalPositionsWithState } }

/-- Source: `handleSelectShipForRelocation` (src App).  Arms the
Commandship relocation for the chosen ship, with the same
snapshot-and-clear protocol as the escape skill. -/
def handleSelectShipForRelocation (gs : GameState) (shipToRelocate : Ship) : GameState :=
  match currentPlayer gs with
  | none => gs
  | some player =>
  match player.ships.find? (fun s => s.name == shipToRelocate.name) with
  | none => gs
  | some ship =>
  if ship.isDamaged ∨ ship.hasBeenRelocated then gs
  else
    let isHorizontal := match ship.positions with
      | p0 :: p1 :: _ => p0.y == p1.y
      | _ => true
    let originalPositionsWithState := ship.positions.map (fun pos =>
      PosState.mk pos.x pos.y (getCell player.grid pos.x pos.y))
    let gs1 := updPlayer gs player.id (fun p =>
      { p with
        grid := markCells p.grid ship.positions CellState.EMPTY,
        ships := updateFirst (fun s => s.name == shipToRelocate.name)
          (fun s => { s with positions := [] }) p.ships })
    { gs1 with
      activeAction := some
        { playerId := player.id, type := ActionType.SKILL,
          shipType := some ShipType.Commandship, stage := some ActionStage.PLACE_SHIP,
          shipToMove := some { ship with positions := [] },
          isHorizontal := some isHorizontal,
          originalPositions := originalPositionsWithState } }

/-- Modelled from the spec: the ActionHub component, which renders the
skill buttons and is not present under src/ (only its import and call site
in GamePhase are), disables the skill of a ship any of whose positions is
currently jammed; per the spec, the opposing ships inside a jammed block
"have skills disabled for exactly one upcoming turn". -/
def shipSkillJamBlocked (player : Player) (ship : Ship) : Bool :=
  ship.positions.any (fun pos => player.jammedPositions.contains pos)

/-- The skill-selection gate of the UI layer: the visible conditions of
`handleActionSelect` (src GamePhase: the ship exists and is not sunk, its
cooldown `?? 0` is not positive, its remaining uses `?? 1` are positive),
conjoined with the jam lockout of the ActionHub buttons, which is modelled
from the spec (see `shipSkillJamBlocked`).  True exactly when selecting the
skill of `actionType` arms it. -/
def actionSelectGate (player : Player) (actionType : ShipType) : Bool :=
  match player.ships.find? (fun s => s.type == actionType) with
  | none => false
  | some ship =>
    !ship.isSunk &&
    !(lookupD player.skillCooldowns actionType 0 > 0 ∨
      lookupD player.skillUses actionType 1 ≤ 0) &&
    !shipSkillJamBlocked player ship

/-! ## AI decision engine (src geminiService) -/

abbrev PMap := Mat Nat

/-- Source: `canShipBePlaced(shotsGrid, ship, x, y, isHorizontal,
gridDimensions)`: the footprint stays on the board and crosses no known
`MISS` (unknown cells default to `EMPTY` via `?? EMPTY`). -/
def canShipBePlaced (shotsGrid : Grid) (len : Nat) (x y : Nat)
    (isHorizontal : Bool) (d : Dims) : Bool :=
  if isHorizontal then
    decide (x + len ≤ d.cols) &&
      (List.range len).all (fun i => !(getCell shotsGrid (x + i) y == CellState.MISS))
  else
    decide (y + len ≤ d.rows) &&
      (List.range len).all (fun i => !(getCell shotsGrid x (y + i) == CellState.MISS))

/-- All `HIT` cells of a shot grid, collected in the source's row-major
scan order. -/
def hitCellsOf (shotsGrid : Grid) (d : Dims) : List Pos :=
  (List.range d.rows).flatMap (fun y =>
    (List.range d.cols).filterMap (fun x =>
      if getCell shotsGrid x y = CellState.HIT then some ⟨x, y⟩ else none))

/-- One horizontal candidate placement of `buildProbabilityMap`: if the
ship fits and the hits it would cover agree with the known hits on that
stretch, each footprint cell's counter is incremented. -/
def applyCandidateH (shotsGrid : Grid) (hitCells : List Pos) (d : Dims) (len : Nat)
    (m : PMap) (x y : Nat) : PMap :=
  if canShipBePlaced shotsGrid len x y true d then
    let placementHits := (List.range len).filterMap (fun i =>
      if getCell shotsGrid (x + i) y = CellState.HIT then some (Pos.mk (x + i) y) else none)
    let relevantHits := hitCells.filter (fun h =>
      decide (h.y = y) && decide (x ≤ h.x) && decide (h.x < x + len))
    if placementHits.length = relevantHits.length then
      (List.range len).foldl (fun m2 i =>
        setM m2 (x + i) y (getM m2 (x + i) y 0 + 1)) m
    else m
  else m

/-- One vertical candidate placement, the mirror of `applyCandidateH`. -/
def applyCandidateV (shotsGrid : Grid) (hitCells : List Pos) (d : Dims) (len : Nat)
    (m : PMap) (x y : Nat) : PMap :=
  if canShipBePlaced shotsGrid len x y false d then
    let placementHits := (List.range len).filterMap (fun i =>
      if getCell shotsGrid x (y + i) = CellState.HIT then some (Pos.mk x (y + i)) else none)
    let relevantHits := hitCells.filter (fun h =>
      decide (h.x = x) && decide (y ≤ h.y) && decide (h.y < y + len))
    if placementHits.length = relevantHits.length then
      (List.range len).foldl (fun m2 i =>
        setM m2 x (y + i) (getM m2 x (y + i) 0 + 1)) m
    else m
  else m

/-- The raw accumulation pass of `buildProbabilityMap`: for every unsunk
opponent ship and every position, the horizontal then the vertical
candidate. -/
def rawProbabilityMap (opponent : Player) (shotsGrid : Grid) (d : Dims) : PMap :=
  let hitCells := hitCellsOf shotsGrid d
  (opponent.ships.filter (fun s => !s.isSunk)).foldl (fun m ship =>
    (List.range d.rows).foldl (fun m y =>
      (List.range d.cols).foldl (fun m x =>
        applyCandidateV shotsGrid hitCells d ship.length
          (applyCandidateH shotsGrid hitCells d ship.length m x y) x y) m) m)
    (List.replicate d.rows (List.replicate d.cols 0))

/-- The boost pass of `buildProbabilityMap` for one hit: each in-bounds,
still-unshot cell orthogonally adjacent to the hit has its counter
multiplied by 5. -/
def boostOne (shotsGrid : Grid) (d : Dims) (m : PMap) (hit : Pos) : PMap :=
  ([((hit.x : Int), (hit.y : Int) - 1), ((hit.x : Int), (hit.y : Int) + 1),
    ((hit.x : Int) - 1, (hit.y : Int)), ((hit.x : Int) + 1, (hit.y : Int))] :
      List (Int × Int)).foldl
    (fun m2 c =>
      if 0 ≤ c.1 ∧ c.1 < (d.cols : Int) ∧ 0 ≤ c.2 ∧ c.2 < (d.rows : Int) ∧
          getCell shotsGrid c.1.toNat c.2.toNat = CellState.EMPTY then
        setM m2 c.1.toNat c.2.toNat (getM m2 c.1.toNat c.2.toNat 0 * 5)
      else m2) m

/-- Source: `buildProbabilityMap(opponent, shotsGrid, gridDimensions)`:
raw placement counts, then (when any hit is known) the adjacency boost
applied once per hit cell. -/
def buildProbabilityMap (opponent : Player) (shotsGrid : Grid) (d : Dims) : PMap :=
  let raw := rawProbabilityMap opponent shotsGrid d
  let hitCells := hitCellsOf shotsGrid d
  if hitCells.length > 0 then hitCells.foldl (boostOne shotsGrid d) raw else raw

/-- Source: `findBestTargets(probabilityMap, shotsGrid)`: the targetable
cells (unshot or radar contact) of maximal probability, ties collected in
scan order. -/
def findBestTargets (m : PMap) (shotsGrid : Grid) : List Pos :=
  let step := fun (acc : Int × List Pos) (c : Pos) =>
    let s := getCell shotsGrid c.x c.y
    if s = CellState.EMPTY ∨ s = CellState.RADAR_CONTACT then
      if Int.ofNat (getM m c.x c.y 0) > acc.1 then (Int.ofNat (getM m c.x c.y 0), [c])
      else if Int.ofNat (getM m c.x c.y 0) = acc.1 then (acc.1, acc.2 ++ [c])
      else acc
    else acc
  ((List.range m.length).flatMap (fun y =>
    (List.range (List.getD m y []).length).map (fun x => Pos.mk x y))).foldl
    step (-1, []) |>.2

/-- Source: `findBestRadarSpot(probabilityMap, gridDimensions)`: the
top-left corner of the densest 2x2 block (first strict maximum in scan
order, `(0,0)` when the board is too small to scan). -/
def findBestRadarSpot (m : PMap) (d : Dims) : Pos :=
  ((List.range (d.rows - 1)).flatMap (fun y =>
    (List.range (d.cols - 1)).map (fun x => Pos.mk x y))).foldl
    (fun (acc : Int × Pos) c =>
      let density : Int := Int.ofNat (getM m c.x c.y 0 + getM m c.x (c.y + 1) 0 +
        getM m (c.x + 1) c.y 0 + getM m (c.x + 1) (c.y + 1) 0)
      if density > acc.1 then (density, c) else acc)
    (-1, ⟨0, 0⟩) |>.2

/-- Source: `findBestDecoySpot(probabilityMap, shotsGrid, gridDimensions)`:
a uniformly random pick (oracle `rnd`) among the unshot 2x2 anchors of
minimal density. -/
def findBestDecoySpot (m : PMap) (shotsGrid : Grid) (d : Dims) (rnd : Nat) : Option Pos :=
  let spots := ((List.range (d.rows - 1)).flatMap (fun y =>
    (List.range (d.cols - 1)).map (fun x => Pos.mk x y))).foldl
    (fun (acc : Option Int × List Pos) c =>
      if getCell shotsGrid c.x c.y = CellState.EMPTY then
        let density : Int := Int.ofNat (getM m c.x c.y 0 + getM m c.x (c.y + 1) 0 +
          getM m (c.x + 1) c.y 0 + getM m (c.x + 1) (c.y + 1) 0)
        match acc.1 with
        | none => (some density, [c])
        | some best =>
          if density < best then (some density, [c])
          else if density = best then (acc.1, acc.2 ++ [c])
          else acc
      else acc)
    (none, []) |>.2
  if spots.length > 0 then spots.get? (rnd % spots.length) else none

/-- A uniformly random element of a list: `l[Math.floor(Math.random() *
l.length)]`, with the draw supplied as the oracle `rnd`. -/
def chooseFrom (l : List α) (rnd : Nat) : Option α :=
  if l.length = 0 then none else l.get? (rnd % l.length)

/-- Source: `findShipToRelocate(aiPlayer, opponent, gridDimensions)`: the
first ship in priority order that is healthy, unrelocated and whose summed
exposure to the opponent's heatmap exceeds twice its length. -/
def findShipToRelocate (aiPlayer opponent : Player) (d : Dims) : Option Ship :=
  let opponentShotsGrid := (lookupA opponent.shots aiPlayer.id).getD
    (createEmptyGrid d.rows d.cols)
  let opm := buildProbabilityMap aiPlayer opponentShotsGrid d
  ([ShipType.Mothership, ShipType.Repairship, ShipType.Jamship, ShipType.Radarship,
    ShipType.Decoyship, ShipType.Commandship]).findSome? (fun shipType =>
    match aiPlayer.ships.find? (fun s =>
        s.type == shipType && !s.isDamaged && !s.isSunk && !s.hasBeenRelocated) with
    | none => none
    | some ship =>
      let shipThreat := ship.positions.foldl
        (fun sum pos => sum + getM opm pos.x pos.y 0) 0
      if shipThreat > ship.length * 2 then some ship else none)

inductive AIMove
  | attack (coords : Pos)
  | skillMove (shipType : ShipType) (coords : Option Pos) (targetShipType : Option ShipType)
deriving DecidableEq, Repr

/-- Source: `getAITacticalMove(aiPlayer, opponent, gameState)`: the
priority-ordered tactical decision tree.  Every `Math.random` draw is the
oracle `rnd`. -/
def getAITacticalMove (aiPlayer opponent : Player) (gs : GameState) (rnd : Nat) : AIMove :=
  let d := gs.gridDimensions
  let shotsGrid := (lookupA aiPlayer.shots opponent.id).getD (createEmptyGrid d.rows d.cols)
  let probabilityMap := buildProbabilityMap opponent shotsGrid d
  -- PRIORITY 1: urgent actions (win / survive)
  let urgent : Option AIMove :=
    match aiPlayer.ships.find? (fun s => s.type == ShipType.Mothership) with
    | none => none
    | some mothership =>
      if mothership.isDamaged ∧ aiPlayer.escapeSkillUnlocked ∧
          lookupD aiPlayer.skillUses ShipType.Mothership 0 > 0 then
        some (AIMove.skillMove ShipType.Mothership none none)
      else if mothership.isDamaged ∧ lookupD aiPlayer.skillCooldowns ShipType.Repairship 0 = 0 ∧
          ¬mothership.hasBeenRepaired then
        match mothership.positions.find? (fun pos =>
            getCell aiPlayer.grid pos.x pos.y == CellState.HIT &&
            decide (lookupHit gs.hitLog aiPlayer.id pos < gs.turn)) with
        | some repairableDamage =>
          some (AIMove.skillMove ShipType.Repairship (some repairableDamage) none)
        | none => none
      else none
  match urgent with
  | some mv => mv
  | none =>
  let lethal : Option AIMove :=
    match opponent.ships.find? (fun s => s.type == ShipType.Mothership) with
    | none => none
    | some om =>
      if om.isDamaged then
        let hitsOn := om.positions.filter (fun pos =>
          getCell shotsGrid pos.x pos.y == CellState.HIT)
        if (hitsOn.length : Int) = (om.length : Int) - 1 then
          match om.positions.find? (fun pos =>
              getCell shotsGrid pos.x pos.y == CellState.EMPTY) with
          | some winningShot => some (AIMove.attack winningShot)
          | none => none
        else none
      else none
  match lethal with
  | some mv => mv
  | none =>
  -- PRIORITY 2: offensive execution and strategic posturing
  let bestTargets := findBestTargets probabilityMap shotsGrid
  let bestTarget := chooseFrom bestTargets rnd
  match bestTarget, (match bestTarget with
    | some bt => decide (getM probabilityMap bt.x bt.y 0 > 10)
    | none => false) with
  | some bt, true => AIMove.attack bt
  | _, _ =>
  let opponentRepairShip := opponent.ships.find? (fun s => s.type == ShipType.Repairship)
  let hasDamagedOpponent := opponent.ships.any (·.isDamaged)
  let jam : Option AIMove :=
    if lookupD aiPlayer.skillCooldowns ShipType.Jamship 0 = 0 ∧ hasDamagedOpponent ∧
        (opponentRepairShip.map (fun s => !s.isSunk)) = some true ∧
        lookupD opponent.skillCooldowns ShipType.Repairship 0 = 0 then
      let hitCells := hitCellsOf shotsGrid d
      if hitCells.length > 0 then
        let sx := hitCells.foldl (fun a c => a + c.x) 0
        let sy := hitCells.foldl (fun a c => a + c.y) 0
        -- Math.round of the mean: floor((2 * sum + n) / (2 * n))
        let cx := (2 * sx + hitCells.length) / (2 * hitCells.length)
        let cy := (2 * sy + hitCells.length) / (2 * hitCells.length)
        some (AIMove.skillMove ShipType.Jamship (some ⟨cx, cy⟩) none)
      else none
    else none
  match jam with
  | some mv => mv
  | none =>
  let reloc : Option AIMove :=
    if lookupD aiPlayer.skillCooldowns ShipType.Commandship 0 = 0 then
      (findShipToRelocate aiPlayer opponent d).map (fun s =>
        AIMove.skillMove ShipType.Commandship none (some s.type))
    else none
  match reloc with
  | some mv => mv
  | none =>
  let proactiveRepair : Option AIMove :=
    if lookupD aiPlayer.skillCooldowns ShipType.Repairship 0 = 0 then
      let damagedShips := aiPlayer.ships.filter (fun s =>
        s.isDamaged && !s.isSunk && !s.hasBeenRepaired && !(s.type == ShipType.Mothership))
      match damagedShips with
      | [] => none
      | first :: rest =>
        -- sort((a, b) => b.length - a.length)[0]: the first ship of maximal length
        let shipToRepair := rest.foldl (fun best s =>
          if s.length > best.length then s else best) first
        match shipToRepair.positions.find? (fun pos =>
            getCell aiPlayer.grid pos.x pos.y == CellState.HIT &&
            decide (lookupHit gs.hitLog aiPlayer.id pos < gs.turn)) with
        | some repairableDamage =>
          some (AIMove.skillMove ShipType.Repairship (some repairableDamage) none)
        | none => none
    else none
  match proactiveRepair with
  | some mv => mv
  | none =>
  -- PRIORITY 3: intelligence gathering
  if lookupD aiPlayer.skillCooldowns ShipType.Radarship 0 = 0 then
    AIMove.skillMove ShipType.Radarship (some (findBestRadarSpot probabilityMap d)) none
  else
  match (if lookupD aiPlayer.skillUses ShipType.Decoyship 0 > 0 then
      (findBestDecoySpot probabilityMap shotsGrid d rnd).map (fun c =>
        AIMove.skillMove ShipType.Decoyship (some c) none)
    else none) with
  | some mv => mv
  | none =>
  -- PRIORITY 4: default attack
  match bestTarget with
  | some bt => AIMove.attack bt
  | none =>
  let emptyCells := (List.range d.rows).flatMap (fun y =>
    (List.range d.cols).filterMap (fun x =>
      if getCell shotsGrid x y = CellState.EMPTY then some (Pos.mk x y) else none))
  AIMove.attack ((chooseFrom emptyCells rnd).getD ⟨0, 0⟩)

/-! ## Generic lemmas about the modelling primitives -/

section PrimLemmas

theorem getM_irrel {m : Mat α} (hy : y < m.length)
    (hx : x < (List.getD m y []).length) (d d' : α) :
    getM m x y d = getM m x y d' := by
  simp only [getM, List.getD_eq_getElem?_getD]
  rw [List.getElem?_eq_getElem hy]
  simp only [Option.getD_some]
  have hrow : List.getD m y [] = m[y] := by
    simp [List.getD_eq_getElem?_getD, List.getElem?_eq_getElem hy]
  rw [hrow] at hx
  rw [List.getElem?_eq_getElem hx]
  rfl

theorem matWF_row {m : Mat α} (h : matWF m d) (hy : y < d.rows) :
    (List.getD m y []).length = d.cols := by
  obtain ⟨h1, h2⟩ := h
  have hy' : y < m.length := by omega
  have : List.getD m y [] ∈ m := by
    rw [List.getD_eq_getElem?_getD, List.getElem?_eq_getElem (by simpa using hy')]
    simp [List.getElem_mem]
  exact h2 _ this

theorem matExt {m m' : Mat α} (d : Dims) (dflt : α) (h : matWF m d) (h' : matWF m' d)
    (hcell : ∀ x < d.cols, ∀ y < d.rows, getM m x y dflt = getM m' x y dflt) :
    m = m' := by
  obtain ⟨h1, h2⟩ := h
  obtain ⟨h1', h2'⟩ := h'
  apply List.ext_getElem (by omega)
  intro y hy hy'
  apply List.ext_getElem
  · rw [h2 _ (List.getElem_mem hy), h2' _ (List.getElem_mem hy')]
  intro x hx hx'
  have hyr : y < d.rows := by omega
  have hxc : x < d.cols := by
    rw [h2 _ (List.getElem_mem hy)] at hx; exact hx
  have := hcell x hxc y hyr
  simp only [getM, List.getD_eq_getElem?_getD] at this
  rw [List.getElem?_eq_getElem hy, List.getElem?_eq_getElem hy'] at this
  simp only [Option.getD_some] at this
  rw [List.getElem?_eq_getElem hx, List.getElem?_eq_getElem hx'] at this
  simpa using this

theorem lookupA_map_replace [DecidableEq κ] {l : List (κ × α)} {k : κ} {v : α}
    (h : l.any (fun e => decide (e.1 = k)) = true) :
    lookupA (l.map (fun e => if e.1 = k then (k, v) else e)) k = some v := by
  induction l with
  | nil => simp at h
  | cons e t ih =>
    simp only [List.any_cons, Bool.or_eq_true, decide_eq_true_eq] at h
    by_cases he : e.1 = k
    · simp [lookupA, he]
    · simp only [List.map_cons, if_neg he]
      rw [lookupA, List.find?_cons_of_neg _ (by simpa using he)]
      have ht : t.any (fun e => decide (e.1 = k)) = true := by
        rcases h with h | h
        · exact absurd h he
        · exact h
      have := ih ht
      simpa [lookupA] using this

theorem lookupA_append_single [DecidableEq κ] {l : List (κ × α)} {k : κ} {v : α}
    (h : ¬l.any (fun e => decide (e.1 = k)) = true) :
    lookupA (l ++ [(k, v)]) k = some v := by
  unfold lookupA
  have hnone : l.find? (fun e => decide (e.1 = k)) = none := by
    rw [List.find?_eq_none]
    intro e he hc
    exact h (List.any_eq_true.mpr ⟨e, he, hc⟩)
  rw [List.find?_append, hnone]
  simp

theorem lookupA_setA_self [DecidableEq κ] (l : List (κ × α)) (k : κ) (v : α) :
    lookupA (setA l k v) k = some v := by
  unfold setA
  by_cases h : l.any (fun e => decide (e.1 = k)) = true
  · rw [if_pos h]; exact lookupA_map_replace h
  · rw [if_neg h]; exact lookupA_append_single h

theorem lookupA_setA_ne [DecidableEq κ] (l : List (κ × α)) {k k' : κ} (v : α)
    (h : k ≠ k') : lookupA (setA l k v) k' = lookupA l k' := by
  unfold setA
  by_cases hany : l.any (fun e => decide (e.1 = k)) = true
  · rw [if_pos hany]
    clear hany
    induction l with
    | nil => simp [lookupA]
    | cons e t ih =>
      by_cases he : e.1 = k
      · have he' : ¬(e.1 = k') := by rw [he]; exact h
        simp only [List.map_cons, if_pos he]
        rw [lookupA, List.find?_cons_of_neg _ (by simpa using h), lookupA,
          List.find?_cons_of_neg _ (by simpa using he')]
        exact ih
      · simp only [List.map_cons, if_neg he]
        by_cases he' : e.1 = k'
        · rw [lookupA, List.find?_cons_of_pos _ (by simpa using he'), lookupA,
            List.find?_cons_of_pos _ (by simpa using he')]
        · rw [lookupA, List.find?_cons_of_neg _ (by simpa using he'), lookupA,
            List.find?_cons_of_neg _ (by simpa using he')]
          exact ih
  · rw [if_neg hany]
    unfold lookupA
    rw [List.find?_append]
    have : List.find? (fun e => decide (e.1 = k')) [(k, v)] = none := by
      simp [List.find?_cons_of_neg, h]
    rw [this]
    simp

theorem updateFirst_of_find?_eq_none {p : α → Bool} {f : α → α} {l : List α}
    (h : l.find? p = none) : updateFirst p f l = l := by
  induction l with
  | nil => rfl
  | cons a t ih =>
    rw [List.find?_cons] at h
    split at h
    · exact absurd h (by simp)
    · unfold updateFirst
      rw [if_neg (by simp_all)]
      rw [ih h]

theorem find?_updateFirst_agree {p q : α → Bool} {f : α → α} {l : List α}
    (hpq : ∀ b, p b = q b) (hf : ∀ b, q (f b) = q b) :
    (updateFirst p f l).find? q = (l.find? q).map f := by
  induction l with
  | nil => rfl
  | cons a t ih =>
    unfold updateFirst
    by_cases ha : q a = true
    · rw [if_pos (by rw [hpq]; exact ha)]
      rw [List.find?_cons_of_pos _ (by rw [hf]; exact ha),
        List.find?_cons_of_pos _ ha]
      rfl
    · rw [if_neg (by rw [hpq]; simpa using ha)]
      rw [List.find?_cons_of_neg _ (by simpa using ha),
        List.find?_cons_of_neg _ (by simpa using ha)]
      exact ih

theorem find?_updateFirst_disagree {p q : α → Bool} {f : α → α} {l : List α}
    (hdis : ∀ b, p b = true → q b = false) (hf : ∀ b, q (f b) = q b) :
    (updateFirst p f l).find? q = l.find? q := by
  induction l with
  | nil => rfl
  | cons a t ih =>
    unfold updateFirst
    by_cases ha : p a = true
    · rw [if_pos ha]
      rw [List.find?_cons_of_neg _ (by rw [hf]; simp [hdis a ha]),
        List.find?_cons_of_neg _ (by simp [hdis a ha])]
    · rw [if_neg (by simpa using ha)]
      by_cases hq : q a = true
      · rw [List.find?_cons_of_pos _ hq, List.find?_cons_of_pos _ hq]
      · rw [List.find?_cons_of_neg _ (by simpa using hq),
          List.find?_cons_of_neg _ (by simpa using hq)]
        exact ih

end PrimLemmas

/-- Lookup of a player by id, the common `players.find(p => p.id === pid)`. -/
def findPlayer (gs : GameState) (pid : Nat) : Option Player :=
  gs.players.find? (fun p => decide (p.id = pid))

theorem find?_ext {p q : α → Bool} {l : List α} (h : ∀ a ∈ l, p a = q a) :
    l.find? p = l.find? q := by
  induction l with
  | nil => rfl
  | cons a t ih =>
    by_cases ha : p a = true
    · rw [List.find?_cons_of_pos _ ha, List.find?_cons_of_pos _ (by rw [← h a (by simp)]; exact ha)]
    · rw [List.find?_cons_of_neg _ (by simpa using ha),
        List.find?_cons_of_neg _ (by rw [← h a (by simp)]; simpa using ha)]
      exact ih (fun a ha => h a (by simp [ha]))

theorem currentPlayer_eq_some {gs : GameState} {ctp : Player}
    (h : currentPlayer gs = some ctp) :
    gs.currentPlayerId = some ctp.id ∧ findPlayer gs ctp.id = some ctp := by
  have hpred := List.find?_some h
  have hmem := List.mem_of_find?_eq_some h
  have hid : gs.currentPlayerId = some ctp.id := by
    cases hcur : gs.currentPlayerId with
    | none => rw [hcur] at hpred; simp at hpred
    | some cid => rw [hcur] at hpred; simp at hpred; rw [hpred]
  refine ⟨hid, ?_⟩
  rw [← h, currentPlayer, findPlayer]
  apply find?_ext
  intro a _
  rw [hid]
  by_cases ha : a.id = ctp.id
  · simp [ha]
  · have h1 : ¬(ctp.id = a.id) := fun hc => ha hc.symm
    simp [ha, h1]

/-- C7, part of the proof infrastructure: `advanceTurn` only ever touches a
player through `updPlayer` with an id-preserving function, so lookups by
id after the call land on the rewritten player. -/
theorem findPlayer_updPlayer_self {gs : GameState} {pid : Nat} {f : Player → Player}
    {pl : Player} (hf : ∀ b, (f b).id = b.id) (h : findPlayer gs pid = some pl) :
    findPlayer (updPlayer gs pid f) pid = some (f pl) := by
  unfold findPlayer updPlayer at *
  simp only
  rw [find?_updateFirst_agree (fun b => rfl) (fun b => by simp [hf b]), h]
  rfl

theorem findPlayer_updPlayer_ne {gs : GameState} {pid pid' : Nat} {f : Player → Player}
    (hf : ∀ b, (f b).id = b.id) (h : pid ≠ pid') :
    findPlayer (updPlayer gs pid f) pid' = findPlayer gs pid' := by
  unfold findPlayer updPlayer
  simp only
  apply find?_updateFirst_disagree
  · intro b hb
    simp only [decide_eq_true_eq] at hb
    simp [hb, h]
  · intro b
    simp [hf b]

theorem advanceTurn_players (gs : GameState) (ctp : Player)
    (hc : currentPlayer gs = some ctp) :
    (advanceTurn gs).players =
      updateFirst (fun p => decide (p.id = ctp.id))
        (endTurnPlayerUpdate gs.gameMode ctp) gs.players := by
  unfold advanceTurn
  rw [hc]
  simp only [updPlayer]
  split <;> rfl

/-- C7: `advanceTurn` increments the turn counter by one, resets
`hasActedThisTurn` to false, clears the in-progress action descriptor and
the radar scan result, and (tactical mode, where cooldowns live) rewrites
the ending player's cooldown table by decrementing exactly the strictly
positive entries: an entry that is 0 stays 0, and a nonnegative entry
never becomes negative. -/
theorem advanceTurn_spec (gs : GameState) (ctp : Player)
    (hc : currentPlayer gs = some ctp) :
    (advanceTurn gs).turn = gs.turn + 1 ∧
    (advanceTurn gs).hasActedThisTurn = false ∧
    (advanceTurn gs).activeAction = none ∧
    (advanceTurn gs).radarScanResult = none ∧
    (gs.gameMode = GameMode.TACTICAL →
      ((findPlayer (advanceTurn gs) ctp.id).map (·.skillCooldowns)) =
        some (decrementCooldowns ctp.skillCooldowns) ∧
      (∀ e ∈ ctp.skillCooldowns, ∃ e', e' ∈ decrementCooldowns ctp.skillCooldowns ∧
        e'.1 = e.1 ∧
        (0 < e.2 → e'.2 = e.2 - 1) ∧ (e.2 = 0 → e'.2 = 0) ∧ (0 ≤ e.2 → 0 ≤ e'.2))) := by
  obtain ⟨hid, hfind⟩ := currentPlayer_eq_some hc
  have hturn : (advanceTurn gs).turn = gs.turn + 1 := by
    unfold advanceTurn
    rw [hc]
    try simp only [updPlayer]
    try rfl
    try (split <;> rfl)
  have hacted : (advanceTurn gs).hasActedThisTurn = false := by
    unfold advanceTurn
    rw [hc]
    try simp only [updPlayer]
    try rfl
    try (split <;> rfl)
  have haction : (advanceTurn gs).activeAction = none := by
    unfold advanceTurn
    rw [hc]
    try simp only [updPlayer]
    try rfl
    try (split <;> rfl)
  have hradar : (advanceTurn gs).radarScanResult = none := by
    unfold advanceTurn
    rw [hc]
    try simp only [updPlayer]
    try rfl
    try (split <;> rfl)
  refine ⟨hturn, hacted, haction, hradar, ?_⟩
  intro hmode
  constructor
  · have hupd : findPlayer (updPlayer gs ctp.id (endTurnPlayerUpdate gs.gameMode ctp))
        ctp.id = some (endTurnPlayerUpdate gs.gameMode ctp ctp) :=
      findPlayer_updPlayer_self (fun b => rfl) hfind
    have : findPlayer (advanceTurn gs) ctp.id =
        some (endTurnPlayerUpdate gs.gameMode ctp ctp) := by
      unfold findPlayer
      rw [advanceTurn_players gs ctp hc]
      unfold findPlayer updPlayer at hupd
      exact hupd
    rw [this]
    simp [endTurnPlayerUpdate, hmode]
  · intro e he
    refine ⟨(e.1, if e.2 > 0 then e.2 - 1 else e.2),
      List.mem_map_of_mem _ he, rfl, ?_, ?_, ?_⟩
    · intro hpos; simp [hpos]
    · intro hz; simp [hz]
    · intro hnn
      by_cases hpos : e.2 > 0
      · simp only [if_pos hpos]; omega
      · simp only [if_neg hpos]; omega

/-! ## Concrete fixtures for witnesses and counterexamples -/

/-- A blank 2x2-board player used as the base of the small test states. -/
def basePlayer : Player :=
  { id := 0, name := "P1", isAI := false, grid := createEmptyGrid 2 2, ships := [],
    shots := [], isReady := true, isEliminated := false, score := 0,
    skillCooldowns := [], skillUses := [], decoyPositions := [],
    jammedPositions := [], jamTurnsRemaining := 0, escapeSkillUnlocked := false }

/-- A blank game state over a 2x2 board with two players. -/
def baseState (players : List Player) (mode : GameMode) : GameState :=
  { phase := GamePhase.PLAYING, players := players, currentPlayerId := some 0,
    winner := none, turn := 1, gridDimensions := ⟨2, 2⟩, gameMode := mode,
    log := [], hasActedThisTurn := false, activeAction := none,
    radarScanResult := none, jammedArea := none, hitLog := [] }

def c7Player : Player :=
  { basePlayer with
    skillCooldowns := [(ShipType.Repairship, 3), (ShipType.Radarship, 0)],
    jamTurnsRemaining := 0 }

def c7State : GameState :=
  baseState [c7Player, { basePlayer with id := 1, name := "P2" }] GameMode.TACTICAL

/-- Witness for C7: on a concrete tactical state, a cooldown of 3 drops to
2 and a cooldown of 0 stays 0, the turn counter moves from 1 to 2 and the
per-turn fields reset. -/
theorem advanceTurn_spec_witness :
    ((findPlayer (advanceTurn c7State) c7Player.id).map (·.skillCooldowns)) =
      some [(ShipType.Repairship, 2), (ShipType.Radarship, 0)] ∧
    (advanceTurn c7State).turn = 2 ∧
    (advanceTurn c7State).hasActedThisTurn = false := by
  have h := advanceTurn_spec c7State c7Player (by decide)
  refine ⟨?_, ?_, h.2.1⟩
  · rw [(h.2.2.2.2 (by decide)).1]
    decide
  · rw [h.1]
    decide

/-- C10: the core skill engine's Radarship branch performs no precondition
check at all: whenever the state has a current player, an opponent, and an
allocated shot grid for that opponent, `handleUseSkill('Radarship')`
returns success and sets the caster's Radarship cooldown to 3, whatever
the cooldown (or any use counter or jam state) was at call time; the
cooldown/uses/jam gates live only in the UI layer
(`actionSelectGate`). -/
theorem useSkill_radar_spec (gs : GameState) (attacker opp : Player) (sg : Grid)
    (opts : SkillOptions) (isAI : Bool) (cands : List Placement)
    (hc : currentPlayer gs = some attacker)
    (hopp : gs.players.find? (fun p => decide (p.id ≠ attacker.id)) = some opp)
    (hsg : lookupA attacker.shots opp.id = some sg) :
    (handleUseSkill ShipType.Radarship opts isAI gs cands).1 = true ∧
    ((findPlayer (handleUseSkill ShipType.Radarship opts isAI gs cands).2 attacker.id).map
      (fun p => lookupA p.skillCooldowns ShipType.Radarship)) = some (some 3) := by
  have hfp : findPlayer gs attacker.id = some attacker := (currentPlayer_eq_some hc).2
  unfold handleUseSkill
  rw [hc]
  dsimp only
  rw [hopp]
  dsimp only
  refine ⟨rfl, ?_⟩
  have hupd : findPlayer (updPlayer gs attacker.id
        (fun p => { p with skillCooldowns := setA p.skillCooldowns ShipType.Radarship 3 }))
        attacker.id
      = some { attacker with
          skillCooldowns := setA attacker.skillCooldowns ShipType.Radarship 3 } :=
    findPlayer_updPlayer_self (fun b => rfl) hfp
  unfold findPlayer updPlayer at hupd
  show ((List.find? (fun p => decide (p.id = attacker.id))
      (updateFirst (fun p => decide (p.id = attacker.id))
        (fun p => { p with skillCooldowns := setA p.skillCooldowns ShipType.Radarship 3 })
        gs.players)).map
      (fun p => lookupA p.skillCooldowns ShipType.Radarship)) = some (some 3)
  rw [hupd]
  simp [lookupA_setA_self]

def c10Attacker : Player :=
  { basePlayer with
    skillCooldowns := [(ShipType.Radarship, 2)],
    shots := [(1, createEmptyGrid 2 2)] }

def c10State : GameState :=
  baseState [c10Attacker, { basePlayer with id := 1, name := "P2" }] GameMode.TACTICAL

/-- Witness for C10: with the Radarship cooldown still at 2, the skill
engine nevertheless succeeds and resets the cooldown to 3. -/
theorem useSkill_radar_spec_witness :
    (handleUseSkill ShipType.Radarship ⟨0, 0, true, none⟩ false c10State []).1 = true ∧
    ((findPlayer (handleUseSkill ShipType.Radarship ⟨0, 0, true, none⟩ false c10State []).2
        c10Attacker.id).map
      (fun p => lookupA p.skillCooldowns ShipType.Radarship)) = some (some 3) :=
  useSkill_radar_spec c10State c10Attacker { basePlayer with id := 1, name := "P2" }
    (createEmptyGrid 2 2) ⟨0, 0, true, none⟩ false [] (by decide) (by decide) (by decide)

/-- C5: `useSkill('Repairship', {x,y})` fails whenever the damage-turn log
records the current turn for the target cell, regardless of every other
condition; and it succeeds exactly when the cell belongs to a non-sunk,
not-yet-repaired ship of the caster, currently reads `Hit` on the caster's
grid, and was damaged strictly before the current turn.  The hypothesis
`hown` (every `Hit` cell of the caster lies on one of their ships) holds
of every reachable state; on a state violating it the source would throw
inside the success path. -/
theorem useSkill_repair_spec (gs : GameState) (attacker : Player)
    (opts : SkillOptions) (isAI : Bool) (cands : List Placement)
    (hc : currentPlayer gs = some attacker)
    (hown : getCell attacker.grid opts.x opts.y = CellState.HIT →
      ∃ sh ∈ attacker.ships, sh.positions.any
        (fun p => decide (p.x = opts.x ∧ p.y = opts.y)) = true) :
    (lookupHit gs.hitLog attacker.id ⟨opts.x, opts.y⟩ = gs.turn →
      (handleUseSkill ShipType.Repairship opts isAI gs cands).1 = false) ∧
    ((handleUseSkill ShipType.Repairship opts isAI gs cands).1 = true ↔
      (∃ sh, attacker.ships.find? (fun s =>
          s.positions.any (fun p => decide (p.x = opts.x ∧ p.y = opts.y))) = some sh ∧
        sh.isSunk = false ∧ sh.hasBeenRepaired = false) ∧
      getCell attacker.grid opts.x opts.y = CellState.HIT ∧
      lookupHit gs.hitLog attacker.id ⟨opts.x, opts.y⟩ < gs.turn) := by
  unfold handleUseSkill
  rw [hc]
  dsimp only
  set ship? := attacker.ships.find? (fun s =>
    s.positions.any (fun p => decide (p.x = opts.x ∧ p.y = opts.y))) with hship
  by_cases hcond : (ship?.map (·.isSunk)) = some true ∨
      (ship?.map (·.hasBeenRepaired)) = some true ∨
      getCell attacker.grid opts.x opts.y ≠ CellState.HIT ∨
      lookupHit gs.hitLog attacker.id ⟨opts.x, opts.y⟩ ≥ gs.turn
  · rw [if_pos hcond]
    refine ⟨fun _ => rfl, ?_⟩
    constructor
    · intro hfalse; exact absurd hfalse (by simp)
    · rintro ⟨⟨sh, hsh, hsunk, hrep⟩, hhit, hlog⟩
      rcases hcond with h | h | h | h
      · rw [hsh] at h; simp [hsunk] at h
      · rw [hsh] at h; simp [hrep] at h
      · exact absurd hhit h
      · omega
  · rw [if_neg hcond]
    push_neg at hcond
    obtain ⟨hA, hB, hC, hD⟩ := hcond
    refine ⟨?_, ?_⟩
    · intro hlog
      exact absurd hlog (by omega)
    constructor
    · intro _
      obtain ⟨sh, hmem, hsh⟩ := hown hC
      have hsome : ship?.isSome := by
        rw [hship, List.find?_isSome]
        exact ⟨sh, hmem, hsh⟩
      obtain ⟨sh0, hsh0⟩ := Option.isSome_iff_exists.mp hsome
      refine ⟨⟨sh0, hsh0, ?_, ?_⟩, hC, by omega⟩
      · cases hb : sh0.isSunk
        · rfl
        · exact absurd (by rw [hsh0]; simp [hb]) hA
      · cases hb : sh0.hasBeenRepaired
        · rfl
        · exact absurd (by rw [hsh0]; simp [hb]) hB
    · intro _; rfl

def c5Ship : Ship :=
  { name := "Repairship", type := ShipType.Repairship, length := 2,
    positions := [⟨0, 0⟩, ⟨1, 0⟩], isSunk := false, isDamaged := true,
    hasBeenRepaired := false, hasBeenRelocated := false }

def c5Attacker : Player :=
  { basePlayer with
    ships := [c5Ship],
    grid := setCell (setCell (createEmptyGrid 2 2) 0 0 CellState.HIT) 1 0 CellState.SHIP }

def c5StateA : GameState :=
  { baseState [c5Attacker, { basePlayer with id := 1, name := "P2" }] GameMode.TACTICAL with
    turn := 2, hitLog := [(0, [(⟨0, 0⟩, 1)])] }

def c5StateB : GameState :=
  { baseState [c5Attacker, { basePlayer with id := 1, name := "P2" }] GameMode.TACTICAL with
    turn := 2, hitLog := [(0, [(⟨0, 0⟩, 2)])] }

/-- Witness for C5: repairing a cell damaged on an earlier turn succeeds;
the identical repair fails when the damage-turn log records the current
turn. -/
theorem useSkill_repair_spec_witness :
    (handleUseSkill ShipType.Repairship ⟨0, 0, true, none⟩ false c5StateA []).1 = true ∧
    (handleUseSkill ShipType.Repairship ⟨0, 0, true, none⟩ false c5StateB []).1 = false := by
  constructor
  · exact ((useSkill_repair_spec c5StateA c5Attacker ⟨0, 0, true, none⟩ false []
      (by decide) (by decide)).2).mpr
      ⟨⟨c5Ship, by decide, by decide, by decide⟩, by decide, by decide⟩
  · exact (useSkill_repair_spec c5StateB c5Attacker ⟨0, 0, true, none⟩ false []
      (by decide) (by decide)).1 (by decide)

theorem mem_jamBlock (x y : Nat) (d : Dims) (p : Pos) :
    p ∈ jamBlock x y d ↔
      (p.x < d.cols ∧ p.y < d.rows ∧
       (x : Int) - 1 ≤ (p.x : Int) ∧ (p.x : Int) ≤ (x : Int) + 1 ∧
       (y : Int) - 1 ≤ (p.y : Int) ∧ (p.y : Int) ≤ (y : Int) + 1) := by
  obtain ⟨px, py⟩ := p
  unfold jamBlock
  simp only [List.mem_flatMap, List.mem_filterMap]
  constructor
  · rintro ⟨i, hi, j, hj, hopt⟩
    split at hopt
    · next hb =>
      obtain ⟨h1, h2, h3, h4⟩ := hb
      have hx : px = ((x : Int) + j).toNat := by
        have := congrArg Pos.x (Option.some.inj hopt)
        simpa using this.symm
      have hy : py = ((y : Int) + i).toNat := by
        have := congrArg Pos.y (Option.some.inj hopt)
        simpa using this.symm
      have hibound : -1 ≤ i ∧ i ≤ 1 := by
        simp only [List.mem_cons, List.not_mem_nil, or_false] at hi
        rcases hi with h | h | h <;> omega
      have hjbound : -1 ≤ j ∧ j ≤ 1 := by
        simp only [List.mem_cons, List.not_mem_nil, or_false] at hj
        rcases hj with h | h | h <;> omega
      refine ⟨?_, ?_, ?_, ?_, ?_, ?_⟩ <;> omega
    · simp at hopt
  · rintro ⟨h1, h2, h3, h4, h5, h6⟩
    refine ⟨(py : Int) - (y : Int), ?_, (px : Int) - (x : Int), ?_, ?_⟩
    · simp only [List.mem_cons, List.not_mem_nil, or_false]
      omega
    · simp only [List.mem_cons, List.not_mem_nil, or_false]
      omega
    · have hcond : 0 ≤ (x : Int) + ((px : Int) - (x : Int)) ∧
          (x : Int) + ((px : Int) - (x : Int)) < (d.cols : Int) ∧
          0 ≤ (y : Int) + ((py : Int) - (y : Int)) ∧
          (y : Int) + ((py : Int) - (y : Int)) < (d.rows : Int) := by omega
      rw [if_pos hcond]
      simp only [Option.some.injEq, Pos.mk.injEq]
      constructor <;> omega

theorem advanceTurn_two_first (gs : GameState) (A B : Player)
    (h : gs.players = [A, B]) (hcur : gs.currentPlayerId = some A.id)
    (hne : B.id ≠ A.id) (hB : B.isEliminated = false) :
    (advanceTurn gs).players = [endTurnPlayerUpdate gs.gameMode A A, B] ∧
    (advanceTurn gs).currentPlayerId = some B.id := by
  have hcp : currentPlayer gs = some A := by
    unfold currentPlayer
    rw [h, hcur]
    simp [List.find?]
  have hplayers : (advanceTurn gs).players =
      updateFirst (fun p => decide (p.id = A.id))
        (endTurnPlayerUpdate gs.gameMode A) gs.players :=
    advanceTurn_players gs A hcp
  have hplayers2 : (advanceTurn gs).players = [endTurnPlayerUpdate gs.gameMode A A, B] := by
    rw [hplayers, h]
    unfold updateFirst
    simp
  refine ⟨hplayers2, ?_⟩
  have hgs1players : ∀ gs1 : GameState,
      gs1.players = [endTurnPlayerUpdate gs.gameMode A A, B] →
      gs1.currentPlayerId = gs.currentPlayerId → True := fun _ _ _ => trivial
  -- compute the next-player index on the updated two-player list
  unfold advanceTurn
  rw [hcp]
  dsimp only
  have hup : updPlayer gs A.id (endTurnPlayerUpdate gs.gameMode A) =
      { gs with players := [endTurnPlayerUpdate gs.gameMode A A, B] } := by
    unfold updPlayer
    rw [h]
    unfold updateFirst
    simp
  rw [hup]
  split
  · simp only
    rw [hcur]
    have hfi : List.findIdx? (fun (p : Player) => (some A.id == some p.id))
        [endTurnPlayerUpdate gs.gameMode A A, B] = some 0 := by
      rw [List.findIdx?_cons]
      simp [endTurnPlayerUpdate]
    rw [hfi]
    simp only [List.length_cons, List.length_nil]
    show (List.get? [endTurnPlayerUpdate gs.gameMode A A, B]
      (skipEliminated [endTurnPlayerUpdate gs.gameMode A A, B] 0 2 ((0 + 1) % 2)).toNat).map
        (·.id) = some B.id
    have : skipEliminated [endTurnPlayerUpdate gs.gameMode A A, B] 0 2 1 = 1 := by
      unfold skipEliminated
      simp [hB]
    norm_num
    rw [this]
    exact ⟨B, rfl, rfl⟩
  · simp only
    rw [hcur]
    have hfi : List.findIdx? (fun (p : Player) => (some A.id == some p.id))
        [endTurnPlayerUpdate gs.gameMode A A, B] = some 0 := by
      rw [List.findIdx?_cons]
      simp [endTurnPlayerUpdate]
    rw [hfi]
    simp only [List.length_cons, List.length_nil]
    show (List.get? [endTurnPlayerUpdate gs.gameMode A A, B]
      (skipEliminated [endTurnPlayerUpdate gs.gameMode A A, B] 0 2 ((0 + 1) % 2)).toNat).map
        (·.id) = some B.id
    have : skipEliminated [endTurnPlayerUpdate gs.gameMode A A, B] 0 2 1 = 1 := by
      unfold skipEliminated
      simp [hB]
    norm_num
    rw [this]
    exact ⟨B, rfl, rfl⟩

theorem advanceTurn_two_second (gs : GameState) (A B : Player)
    (h : gs.players = [A, B]) (hcur : gs.currentPlayerId = some B.id)
    (hne : B.id ≠ A.id) (hA : A.isEliminated = false) :
    (advanceTurn gs).players = [A, endTurnPlayerUpdate gs.gameMode B B] ∧
    (advanceTurn gs).currentPlayerId = some A.id := by
  have hcp : currentPlayer gs = some B := by
    unfold currentPlayer
    rw [h, hcur]
    rw [List.find?_cons_of_neg _ (by simp [Ne.symm, hne]),
      List.find?_cons_of_pos _ (by simp)]
  have hupl : updateFirst (fun p => decide (p.id = B.id))
      (endTurnPlayerUpdate gs.gameMode B) [A, B] = [A, endTurnPlayerUpdate gs.gameMode B B] := by
    unfold updateFirst updateFirst
    simp [Ne.symm hne]
  have hplayers2 : (advanceTurn gs).players = [A, endTurnPlayerUpdate gs.gameMode B B] := by
    rw [advanceTurn_players gs B hcp, h, hupl]
  refine ⟨hplayers2, ?_⟩
  unfold advanceTurn
  rw [hcp]
  dsimp only
  have hup : updPlayer gs B.id (endTurnPlayerUpdate gs.gameMode B) =
      { gs with players := [A, endTurnPlayerUpdate gs.gameMode B B] } := by
    unfold updPlayer
    rw [h, hupl]
  rw [hup]
  have hfi : List.findIdx? (fun (p : Player) => (some B.id == some p.id))
      [A, endTurnPlayerUpdate gs.gameMode B B] = some 1 := by
    rw [List.findIdx?_cons]
    simp [Ne.symm, hne, endTurnPlayerUpdate, List.findIdx?_cons]
  split
  · simp only
    rw [hcur, hfi]
    simp only [List.length_cons, List.length_nil]
    show (List.get? [A, endTurnPlayerUpdate gs.gameMode B B]
      (skipEliminated [A, endTurnPlayerUpdate gs.gameMode B B] 1 2 ((1 + 1) % 2)).toNat).map
        (·.id) = some A.id
    have hskip : skipEliminated [A, endTurnPlayerUpdate gs.gameMode B B] 1 2 0 = 0 := by
      unfold skipEliminated
      simp [hA]
    norm_num
    rw [hskip]
    exact ⟨A, rfl, rfl⟩
  · simp only
    rw [hcur, hfi]
    simp only [List.length_cons, List.length_nil]
    show (List.get? [A, endTurnPlayerUpdate gs.gameMode B B]
      (skipEliminated [A, endTurnPlayerUpdate gs.gameMode B B] 1 2 ((1 + 1) % 2)).toNat).map
        (·.id) = some A.id
    have hskip : skipEliminated [A, endTurnPlayerUpdate gs.gameMode B B] 1 2 0 = 0 := by
      unfold skipEliminated
      simp [hA]
    norm_num
    rw [hskip]
    exact ⟨A, rfl, rfl⟩

/-- The log entry the Jamship success path prepends. -/
def jamLogEntry (gs : GameState) (A : Player) : GameLogEntry :=
  { turn := gs.turn, playerId := A.id, playerName := A.name,
    targetId := none, targetName := none, coords := none,
    result := LogResult.SKILL_USED, sunkShipName := none, hitShipName := none,
    message := some "used Jam, cooldown set to 4 turns" }

/-- C6: a Jamship use always succeeds, records exactly the in-bounds cells
of the 3x3 block centered on the target on the opponent (with a one-turn
jam timer) and sets the caster's Jamship cooldown to 4; on the opponent's
next turn the skill-selection gate rejects every ship of theirs with a
position inside the block; and after that one turn ends the jam is cleared,
so the jam lockout no longer applies.  The cooldown/uses conditions and the
jam bookkeeping are the visible source; the jam lockout itself is the
spec-modelled ActionHub gate (see `shipSkillJamBlocked`). -/
theorem useSkill_jam_spec (gs : GameState) (A B : Player) (opts : SkillOptions)
    (isAI : Bool) (cands : List Placement)
    (h : gs.players = [A, B]) (hcur : gs.currentPlayerId = some A.id)
    (hne : B.id ≠ A.id)
    (hAelim : A.isEliminated = false) (hBelim : B.isEliminated = false) :
    (handleUseSkill ShipType.Jamship opts isAI gs cands).1 = true ∧
    ((findPlayer (handleUseSkill ShipType.Jamship opts isAI gs cands).2 B.id).map
      (·.jammedPositions)) = some (jamBlock opts.x opts.y gs.gridDimensions) ∧
    ((findPlayer (handleUseSkill ShipType.Jamship opts isAI gs cands).2 B.id).map
      (·.jamTurnsRemaining)) = some 1 ∧
    ((findPlayer (handleUseSkill ShipType.Jamship opts isAI gs cands).2 A.id).map
      (fun p => lookupA p.skillCooldowns ShipType.Jamship)) = some (some 4) ∧
    (∀ p : Pos, p ∈ jamBlock opts.x opts.y gs.gridDimensions ↔
      (p.x < gs.gridDimensions.cols ∧ p.y < gs.gridDimensions.rows ∧
       (opts.x : Int) - 1 ≤ (p.x : Int) ∧ (p.x : Int) ≤ (opts.x : Int) + 1 ∧
       (opts.y : Int) - 1 ≤ (p.y : Int) ∧ (p.y : Int) ≤ (opts.y : Int) + 1)) ∧
    (advanceTurn (handleUseSkill ShipType.Jamship opts isAI gs cands).2).currentPlayerId
      = some B.id ∧
    (∀ t sh, B.ships.find? (fun s => s.type == t) = some sh →
      sh.positions.any (fun q =>
        (jamBlock opts.x opts.y gs.gridDimensions).contains q) = true →
      ∃ pB, findPlayer
          (advanceTurn (handleUseSkill ShipType.Jamship opts isAI gs cands).2) B.id
          = some pB ∧
        actionSelectGate pB t = false) ∧
    ((findPlayer (advanceTurn (advanceTurn
        (handleUseSkill ShipType.Jamship opts isAI gs cands).2)) B.id).map
      (·.jammedPositions)) = some [] ∧
    (∀ pB sh, findPlayer (advanceTurn (advanceTurn
        (handleUseSkill ShipType.Jamship opts isAI gs cands).2)) B.id = some pB →
      shipSkillJamBlocked pB sh = false) := by
  have hcpA : currentPlayer gs = some A := by
    unfold currentPlayer
    rw [h, hcur]
    simp [List.find?]
  have hopp : gs.players.find? (fun p => decide (p.id ≠ A.id)) = some B := by
    rw [h, List.find?_cons_of_neg _ (by simp), List.find?_cons_of_pos _ (by simpa using hne)]
  set block := jamBlock opts.x opts.y gs.gridDimensions with hblock
  set A' : Player := { A with skillCooldowns := setA A.skillCooldowns ShipType.Jamship 4 }
    with hA'
  set B' : Player := { B with jammedPositions := block, jamTurnsRemaining := 1 } with hB'
  have hupdB : updPlayer gs B.id
      (fun p => { p with jammedPositions := block, jamTurnsRemaining := 1 }) =
      { gs with players := [A, B'] } := by
    unfold updPlayer
    rw [h]
    unfold updateFirst updateFirst
    simp [Ne.symm hne]
  have hupdA : updPlayer { gs with players := [A, B'] } A.id
      (fun p => { p with skillCooldowns := setA p.skillCooldowns ShipType.Jamship 4 }) =
      { gs with players := [A', B'] } := by
    unfold updPlayer
    unfold updateFirst
    simp
  have hr : handleUseSkill ShipType.Jamship opts isAI gs cands =
      (true, { gs with
        players := [A', B'],
        jammedArea := some ⟨B.id, block⟩,
        log := jamLogEntry gs A :: gs.log,
        hasActedThisTurn := true,
        activeAction := none }) := by
    unfold handleUseSkill
    rw [hcpA]
    dsimp only
    rw [hopp]
    dsimp only
    rw [hupdB, hupdA]
    rfl
  have hg1players : (handleUseSkill ShipType.Jamship opts isAI gs cands).2.players
      = [A', B'] := by rw [hr]
  have hg1cur : (handleUseSkill ShipType.Jamship opts isAI gs cands).2.currentPlayerId
      = some A.id := by rw [hr]; exact hcur
  have hfB : findPlayer (handleUseSkill ShipType.Jamship opts isAI gs cands).2 B.id
      = some B' := by
    unfold findPlayer
    rw [hg1players, List.find?_cons_of_neg _ (by simpa using Ne.symm hne),
      List.find?_cons_of_pos _ (by simp)]
  have hfA : findPlayer (handleUseSkill ShipType.Jamship opts isAI gs cands).2 A.id
      = some A' := by
    unfold findPlayer
    rw [hg1players, List.find?_cons_of_pos _ (by simp)]
  have hstep2 := advanceTurn_two_first
    (handleUseSkill ShipType.Jamship opts isAI gs cands).2 A' B'
    hg1players hg1cur hne hBelim
  have hfB2 : findPlayer
      (advanceTurn (handleUseSkill ShipType.Jamship opts isAI gs cands).2) B.id
      = some B' := by
    unfold findPlayer
    rw [hstep2.1, List.find?_cons_of_neg _ (by simpa [endTurnPlayerUpdate] using Ne.symm hne),
      List.find?_cons_of_pos _ (by simp)]
  have hstep3 := advanceTurn_two_second
    (advanceTurn (handleUseSkill ShipType.Jamship opts isAI gs cands).2)
    (endTurnPlayerUpdate (handleUseSkill ShipType.Jamship opts isAI gs cands).2.gameMode A' A')
    B' hstep2.1 hstep2.2 hne (by simpa [endTurnPlayerUpdate] using hAelim)
  have hjamB' : jamClears B' := by
    constructor
    · show (1 : Int) > 0; norm_num
    · show jamAfter B' = 0
      unfold jamAfter
      norm_num
  have hfB3 : findPlayer (advanceTurn (advanceTurn
      (handleUseSkill ShipType.Jamship opts isAI gs cands).2)) B.id
      = some (endTurnPlayerUpdate
        (advanceTurn (handleUseSkill ShipType.Jamship opts isAI gs cands).2).gameMode
        B' B') := by
    unfold findPlayer
    rw [hstep3.1, List.find?_cons_of_neg _ (by simpa [endTurnPlayerUpdate] using Ne.symm hne),
      List.find?_cons_of_pos _ (by simp [endTurnPlayerUpdate])]
  refine ⟨by rw [hr], ?_, ?_, ?_, ?_, hstep2.2, ?_, ?_, ?_⟩
  · rw [hfB]; rfl
  · rw [hfB]; rfl
  · rw [hfA]
    show some (lookupA A'.skillCooldowns ShipType.Jamship) = some (some 4)
    rw [show A'.skillCooldowns = setA A.skillCooldowns ShipType.Jamship 4 from rfl]
    rw [lookupA_setA_self]
  · intro p
    exact mem_jamBlock opts.x opts.y gs.gridDimensions p
  · intro t sh hfind hin
    refine ⟨B', hfB2, ?_⟩
    unfold actionSelectGate
    rw [show B'.ships.find? (fun s => s.type == t) = some sh from hfind]
    dsimp only
    have hblocked : shipSkillJamBlocked B' sh = true := hin
    rw [hblocked]
    simp
  · rw [hfB3]
    simp [endTurnPlayerUpdate, hjamB']
  · intro pB sh hpB
    rw [hfB3] at hpB
    have : pB.jammedPositions = [] := by
      rw [← Option.some.inj hpB]
      simp [endTurnPlayerUpdate, hjamB']
    unfold shipSkillJamBlocked
    rw [this]
    simp

def c6Ship : Ship :=
  { name := "Radarship", type := ShipType.Radarship, length := 1,
    positions := [⟨0, 0⟩], isSunk := false, isDamaged := false,
    hasBeenRepaired := false, hasBeenRelocated := false }

def c6A : Player :=
  { basePlayer with
    grid := createEmptyGrid 3 3,
    skillCooldowns := [(ShipType.Jamship, 0)] }

def c6B : Player :=
  { basePlayer with
    id := 1, name := "P2", grid := createEmptyGrid 3 3,
    ships := [c6Ship], skillCooldowns := [(ShipType.Radarship, 0)] }

def c6State : GameState :=
  { baseState [c6A, c6B] GameMode.TACTICAL with gridDimensions := ⟨3, 3⟩ }

/-- Witness for C6: jamming the center of a 3x3 board marks all nine
cells, the jammed opponent's Radarship skill is rejected by the gate on
their next turn, and the jam is cleared once that turn ends. -/
theorem useSkill_jam_spec_witness :
    (handleUseSkill ShipType.Jamship ⟨1, 1, true, none⟩ false c6State []).1 = true ∧
    ((findPlayer (handleUseSkill ShipType.Jamship ⟨1, 1, true, none⟩ false c6State []).2
        1).map (·.jammedPositions)) = some (jamBlock 1 1 ⟨3, 3⟩) ∧
    (∃ pB, findPlayer (advanceTurn
        (handleUseSkill ShipType.Jamship ⟨1, 1, true, none⟩ false c6State []).2) 1
        = some pB ∧ actionSelectGate pB ShipType.Radarship = false) ∧
    ((findPlayer (advanceTurn (advanceTurn
        (handleUseSkill ShipType.Jamship ⟨1, 1, true, none⟩ false c6State []).2)) 1).map
      (·.jammedPositions)) = some [] := by
  have h := useSkill_jam_spec c6State c6A c6B ⟨1, 1, true, none⟩ false []
    (by decide) (by decide) (by decide) (by decide) (by decide)
  exact ⟨h.1, h.2.1,
    h.2.2.2.2.2.2.1 ShipType.Radarship c6Ship (by decide) (by decide),
    h.2.2.2.2.2.2.2.1⟩

theorem classicShotStep_acted_hit (base : GameLogEntry) (shots0 : Grid)
    (target : Player) (tid x y : Nat)
    (h : getCell target.grid x y = CellState.SHIP ∨
      getCell target.grid x y = CellState.HIT ∨
      getCell target.grid x y = CellState.SUNK) :
    (classicShotStep base shots0 target tid x y).2.2.2.1 = false := by
  unfold classicShotStep
  rw [if_pos h]
  dsimp only
  split
  · rfl
  · split <;> rfl

theorem classicShotStep_acted_miss (base : GameLogEntry) (shots0 : Grid)
    (target : Player) (tid x y : Nat)
    (h : ¬(getCell target.grid x y = CellState.SHIP ∨
      getCell target.grid x y = CellState.HIT ∨
      getCell target.grid x y = CellState.SUNK)) :
    (classicShotStep base shots0 target tid x y).2.2.2.1 = true := by
  unfold classicShotStep
  rw [if_neg h]

/-- C2 (amended): turn continuation after a fresh in-bounds shot.  In
tactical mode a decoy hit or a non-Mothership ship hit leaves
`hasActedThisTurn = false`, while a Mothership hit or a miss sets it true.
In classic mode a miss always sets it true, and a hit leaves it false
except when the shot ends the game (at most one non-eliminated player
remains afterwards), in which case the source forces it true. -/
theorem processShot_turn_spec (gs : GameState) (A T : Player) (tid x y : Nat)
    (hc : currentPlayer gs = some A)
    (ht : gs.players.find? (fun p => decide (p.id = tid)) = some T) :
    (gs.gameMode = GameMode.TACTICAL →
      (getCell ((lookupA A.shots tid).getD
          (createEmptyGrid gs.gridDimensions.rows gs.gridDimensions.cols)) x y
          = CellState.EMPTY ∨
       getCell ((lookupA A.shots tid).getD
          (createEmptyGrid gs.gridDimensions.rows gs.gridDimensions.cols)) x y
          = CellState.RADAR_CONTACT) →
      ((T.decoyPositions.any (fun p => decide (p.x = x ∧ p.y = y)) = true →
        (processShot gs (some tid) x y).hasActedThisTurn = false) ∧
       (T.decoyPositions.any (fun p => decide (p.x = x ∧ p.y = y)) = false →
        getCell T.grid x y = CellState.SHIP →
        ∀ hs, T.ships.find? (fun sh =>
            sh.positions.any (fun pos => decide (pos.x = x ∧ pos.y = y))) = some hs →
          (processShot gs (some tid) x y).hasActedThisTurn
            = decide (hs.type = ShipType.Mothership)) ∧
       (T.decoyPositions.any (fun p => decide (p.x = x ∧ p.y = y)) = false →
        getCell T.grid x y ≠ CellState.SHIP →
        (processShot gs (some tid) x y).hasActedThisTurn = true))) ∧
    (gs.gameMode = GameMode.CLASSIC →
      getCell ((lookupA A.shots tid).getD
          (createEmptyGrid gs.gridDimensions.rows gs.gridDimensions.cols)) x y
          = CellState.EMPTY →
      ((¬(getCell T.grid x y = CellState.SHIP ∨ getCell T.grid x y = CellState.HIT ∨
          getCell T.grid x y = CellState.SUNK) →
        (processShot gs (some tid) x y).hasActedThisTurn = true) ∧
       ((getCell T.grid x y = CellState.SHIP ∨ getCell T.grid x y = CellState.HIT ∨
          getCell T.grid x y = CellState.SUNK) →
        ((processShot gs (some tid) x y).hasActedThisTurn = true ↔
          ((processShot gs (some tid) x y).players.filter
            (fun p => !p.isEliminated)).length ≤ 1)))) := by
  constructor
  · intro hmode hguard
    have hmode' : (gs.gameMode = GameMode.TACTICAL) := hmode
    refine ⟨?_, ?_, ?_⟩
    · intro hdecoy
      unfold processShot
      rw [hc]
      dsimp only
      rw [ht]
      dsimp only
      rw [if_pos hmode']
      rw [if_neg (by rcases hguard with hg | hg <;> simp [hg])]
      rw [if_pos hdecoy]
    · intro hnodecoy hship hs hfind
      unfold processShot
      rw [hc]
      dsimp only
      rw [ht]
      dsimp only
      rw [if_pos hmode']
      rw [if_neg (by rcases hguard with hg | hg <;> simp [hg])]
      rw [if_neg (by rw [hnodecoy]; simp)]
      rw [hship, if_pos rfl, hfind]
      dsimp only
      split <;> rfl
    · intro hnodecoy hnoship
      unfold processShot
      rw [hc]
      dsimp only
      rw [ht]
      dsimp only
      rw [if_pos hmode']
      rw [if_neg (by rcases hguard with hg | hg <;> simp [hg])]
      rw [if_neg (by rw [hnodecoy]; simp)]
      rw [if_neg hnoship]
  · intro hmode hguard
    have hmode' : ¬(gs.gameMode = GameMode.TACTICAL) := by rw [hmode]; simp
    refine ⟨?_, ?_⟩
    · intro hmiss
      have hstep := classicShotStep_acted_miss (baseLogEntry gs A x y)
        ((lookupA A.shots tid).getD
          (createEmptyGrid gs.gridDimensions.rows gs.gridDimensions.cols))
        T tid x y hmiss
      unfold processShot
      rw [hc]
      dsimp only
      rw [ht]
      dsimp only
      rw [if_neg hmode']
      rw [if_neg (by simp [hguard])]
      try dsimp only
      rw [hstep]
      split
      · rfl
      · rfl
    · intro hhit
      have hstep := classicShotStep_acted_hit (baseLogEntry gs A x y)
        ((lookupA A.shots tid).getD
          (createEmptyGrid gs.gridDimensions.rows gs.gridDimensions.cols))
        T tid x y hhit
      unfold processShot
      rw [hc]
      dsimp only
      rw [ht]
      dsimp only
      rw [if_neg hmode']
      rw [if_neg (by simp [hguard])]
      try dsimp only
      rw [hstep]
      split
      · next hgo => exact ⟨fun _ => hgo, fun _ => rfl⟩
      · next hgo =>
        exact ⟨fun hcon => absurd hcon (by simp), fun hcon => absurd hcon hgo⟩

def c2Ship : Ship :=
  { name := "Sloop", type := ShipType.Classic "Sloop", length := 1,
    positions := [⟨0, 0⟩], isSunk := false, isDamaged := false,
    hasBeenRepaired := false, hasBeenRelocated := false }

def c2T : Player :=
  { basePlayer with
    id := 1, name := "P2", ships := [c2Ship],
    grid := setCell (createEmptyGrid 2 2) 0 0 CellState.SHIP }

def c2State : GameState := baseState [basePlayer, c2T] GameMode.CLASSIC

/-- Counterexample for C2 as stated: a classic-mode hit at a fresh
in-bounds cell that sinks the last ship ends the game, and the source then
forces `hasActedThisTurn = true` even though the shot hit. -/
theorem processShot_turn_counterexample :
    c2State.gameMode = GameMode.CLASSIC ∧
    getCell c2T.grid 0 0 = CellState.SHIP ∧
    getCell ((lookupA basePlayer.shots 1).getD (createEmptyGrid 2 2)) 0 0
      = CellState.EMPTY ∧
    (processShot c2State (some 1) 0 0).hasActedThisTurn = true := by decide

def c2TacShip : Ship :=
  { name := "Radarship", type := ShipType.Radarship, length := 1,
    positions := [⟨0, 0⟩], isSunk := false, isDamaged := false,
    hasBeenRepaired := false, hasBeenRelocated := false }

def c2TacMother : Ship :=
  { name := "Mothership", type := ShipType.Mothership, length := 1,
    positions := [⟨1, 1⟩], isSunk := false, isDamaged := false,
    hasBeenRepaired := false, hasBeenRelocated := false }

def c2TacT : Player :=
  { basePlayer with
    id := 1, name := "P2", ships := [c2TacShip, c2TacMother],
    grid := setCell (setCell (createEmptyGrid 2 2) 0 0 CellState.SHIP)
      1 1 CellState.SHIP }

def c2TacState : GameState := baseState [basePlayer, c2TacT] GameMode.TACTICAL

/-- Witness for C2: concrete tactical shots, a non-Mothership hit leaves
the flag false, a Mothership hit and a miss set it true. -/
theorem processShot_turn_spec_witness :
    (processShot c2TacState (some 1) 0 0).hasActedThisTurn = false ∧
    (processShot c2TacState (some 1) 1 1).hasActedThisTurn = true ∧
    (processShot c2TacState (some 1) 1 0).hasActedThisTurn = true := by
  refine ⟨?_, ?_, ?_⟩
  · have h := processShot_turn_spec c2TacState basePlayer c2TacT 1 0 0
      (by decide) (by decide)
    have := (h.1 (by decide) (by decide)).2.1 (by decide) (by decide)
      c2TacShip (by decide)
    rw [this]; decide
  · have h := processShot_turn_spec c2TacState basePlayer c2TacT 1 1 1
      (by decide) (by decide)
    have := (h.1 (by decide) (by decide)).2.1 (by decide) (by decide)
      c2TacMother (by decide)
    rw [this]; decide
  · have h := processShot_turn_spec c2TacState basePlayer c2TacT 1 1 0
      (by decide) (by decide)
    exact (h.1 (by decide) (by decide)).2.2 (by decide) (by decide)

/-! ## Idempotence of `processShot` (C3) -/

theorem getCell_setCell_self {g : Grid} (d : Dims) (hg : matWF g d)
    (hx : x < d.cols) (hy : y < d.rows) :
    getCell (setCell g x y c) x y = c := by
  apply getM_setM_self
  · rw [hg.1]; exact hy
  · rw [matWF_row hg hy]; exact hx

theorem matWF_markCells {g : Grid} (hg : matWF g d) (ps : List Pos) (c : CellState) :
    matWF (markCells g ps c) d := by
  induction ps generalizing g with
  | nil => exact hg
  | cons p t ih => exact ih (matWF_setM hg)

theorem getCell_markCells {g : Grid} (d : Dims) (hg : matWF g d)
    (hx : x < d.cols) (hy : y < d.rows) (ps : List Pos) (c : CellState) :
    getCell (markCells g ps c) x y = c ∨ getCell (markCells g ps c) x y = getCell g x y := by
  induction ps generalizing g with
  | nil => right; rfl
  | cons p t ih =>
    have hWF' : matWF (setCell g p.x p.y c) d := matWF_setM hg
    rcases ih hWF' with h | h
    · left; exact h
    · by_cases hpq : p.x = x ∧ p.y = y
      · left
        rw [markCells] at h ⊢
        simp only [List.foldl_cons] at *
        rw [h, hpq.1, hpq.2]
        exact getCell_setCell_self d hg hx hy
      · right
        rw [markCells] at h ⊢
        simp only [List.foldl_cons] at *
        rw [h]
        exact getM_setM_ne (by
          intro hcon
          exact hpq ⟨hcon.1, hcon.2⟩)

theorem currentPlayer_after_updates (gs : GameState) (A : Player) (tid : Nat)
    (f g : Player → Player)
    (hc : currentPlayer gs = some A)
    (hfid : ∀ b, (f b).id = b.id) (hgid : ∀ b, (g b).id = b.id)
    (hgshots : ∀ b, (g b).shots = b.shots) :
    ∃ A1, (updateFirst (fun p => decide (p.id = tid)) g
        (updateFirst (fun p => decide (p.id = A.id)) f gs.players)).find?
      (fun p => gs.currentPlayerId == some p.id) = some A1 ∧
      A1.shots = (f A).shots := by
  obtain ⟨hid, hfp⟩ := currentPlayer_eq_some hc
  have hq : ∀ b : Player, (gs.currentPlayerId == some b.id) = decide (b.id = A.id) := by
    intro b
    rw [hid]
    by_cases hb : b.id = A.id
    · simp [hb]
    · have hb' : ¬(A.id = b.id) := fun hcc => hb hcc.symm
      simp [hb, hb']
  have hinner : (updateFirst (fun p => decide (p.id = A.id)) f gs.players).find?
      (fun p => decide (p.id = A.id)) = some (f A) := by
    rw [find?_updateFirst_agree (fun b => rfl) (fun b => by simp [hfid b])]
    rw [show gs.players.find? (fun p => decide (p.id = A.id)) = some A from hfp]
    rfl
  rw [find?_ext (fun a _ => hq a)]
  by_cases htid : tid = A.id
  · subst htid
    rw [find?_updateFirst_agree (fun b => rfl) (fun b => by simp [hgid b]), hinner]
    exact ⟨g (f A), rfl, by rw [hgshots]⟩
  · rw [find?_updateFirst_disagree ?dis (fun b => by simp [hgid b]), hinner]
    · exact ⟨f A, rfl, rfl⟩
    case dis =>
      intro b hb
      simp only [decide_eq_true_eq] at hb
      simp [hb, htid]

theorem findTid_after_updates (gs : GameState) (A T : Player) (tid : Nat)
    (f g : Player → Player)
    (ht : gs.players.find? (fun p => decide (p.id = tid)) = some T)
    (hfid : ∀ b, (f b).id = b.id) (hgid : ∀ b, (g b).id = b.id) :
    ∃ T1, (updateFirst (fun p => decide (p.id = tid)) g
        (updateFirst (fun p => decide (p.id = A.id)) f gs.players)).find?
      (fun p => decide (p.id = tid)) = some T1 := by
  by_cases htid : tid = A.id
  · subst htid
    rw [find?_updateFirst_agree (fun b => rfl) (fun b => by simp [hgid b])]
    rw [find?_updateFirst_agree (fun b => rfl) (fun b => by simp [hfid b])]
    rw [ht]
    exact ⟨g (f T), rfl⟩
  · rw [find?_updateFirst_agree (fun b => rfl) (fun b => by simp [hgid b])]
    rw [find?_updateFirst_disagree ?dis (fun b => by simp [hfid b])]
    · rw [ht]
      exact ⟨g T, rfl⟩
    case dis =>
      intro b hb
      simp only [decide_eq_true_eq] at hb
      have : ¬(b.id = tid) := by rw [hb]; exact fun hcc => htid hcc.symm
      simp [this]

/-- When `processShot` fires at a cell it has already resolved, it returns
the state unchanged (the double-firing guard of both modes). -/
theorem processShot_of_guard (s : GameState) (tid x y : Nat) (A1 T1 : Player)
    (shots1 : Grid)
    (h1 : currentPlayer s = some A1)
    (h2 : s.players.find? (fun p => decide (p.id = tid)) = some T1)
    (h3 : lookupA A1.shots tid = some shots1)
    (h4 : getCell shots1 x y ≠ CellState.EMPTY)
    (h5 : getCell shots1 x y ≠ CellState.RADAR_CONTACT) :
    processShot s (some tid) x y = s := by
  unfold processShot
  rw [h1]
  dsimp only
  rw [h2]
  dsimp only
  by_cases hmode : s.gameMode = GameMode.TACTICAL
  · rw [if_pos hmode, h3]
    simp only [Option.getD_some]
    rw [if_pos ⟨h4, h5⟩]
  · rw [if_neg hmode, h3]
    simp only [Option.getD_some]
    rw [if_pos h4]

theorem classicShotStep_shot_value (base : GameLogEntry) (shots0 : Grid)
    (target : Player) (tid x y : Nat) (d : Dims)
    (hWF : matWF shots0 d) (hx : x < d.cols) (hy : y < d.rows) :
    getCell (classicShotStep base shots0 target tid x y).1 x y ≠ CellState.EMPTY ∧
    getCell (classicShotStep base shots0 target tid x y).1 x y ≠ CellState.RADAR_CONTACT := by
  have hhit : getCell (setCell shots0 x y CellState.HIT) x y = CellState.HIT :=
    getCell_setCell_self d hWF hx hy
  have hmiss : getCell (setCell shots0 x y CellState.MISS) x y = CellState.MISS :=
    getCell_setCell_self d hWF hx hy
  unfold classicShotStep
  dsimp only
  split
  · split
    · next => simp [hhit]
    · next hitShip _ =>
      split
      · have hWF1 : matWF (setCell shots0 x y CellState.HIT) d := matWF_setM hWF
        rcases getCell_markCells d hWF1 hx hy hitShip.positions
            CellState.SUNK with h | h
        · simp only [h]; exact ⟨by simp, by simp⟩
        · simp only [h, hhit]; exact ⟨by simp, by simp⟩
      · simp [hhit]
  · simp [hmiss]

theorem processShot_fresh_post_tactical (gs : GameState) (A T : Player) (tid x y : Nat)
    (hc : currentPlayer gs = some A)
    (ht : gs.players.find? (fun p => decide (p.id = tid)) = some T)
    (hx : x < gs.gridDimensions.cols) (hy : y < gs.gridDimensions.rows)
    (hWF : lookupA A.shots tid = none ∨
      ∃ g0, lookupA A.shots tid = some g0 ∧ matWF g0 gs.gridDimensions)
    (hmode : gs.gameMode = GameMode.TACTICAL)
    (hguard : getCell ((lookupA A.shots tid).getD
        (createEmptyGrid gs.gridDimensions.rows gs.gridDimensions.cols)) x y
        = CellState.EMPTY ∨
      getCell ((lookupA A.shots tid).getD
        (createEmptyGrid gs.gridDimensions.rows gs.gridDimensions.cols)) x y
        = CellState.RADAR_CONTACT) :
    processShot gs (some tid) x y = gs ∨
    ∃ A1 T1 shots1,
      currentPlayer (processShot gs (some tid) x y) = some A1 ∧
      (processShot gs (some tid) x y).players.find?
        (fun p => decide (p.id = tid)) = some T1 ∧
      lookupA A1.shots tid = some shots1 ∧
      getCell shots1 x y ≠ CellState.EMPTY ∧
      getCell shots1 x y ≠ CellState.RADAR_CONTACT := by
  have hWFs : matWF ((lookupA A.shots tid).getD
      (createEmptyGrid gs.gridDimensions.rows gs.gridDimensions.cols))
      gs.gridDimensions := by
    rcases hWF with h | ⟨g0, hg0, hwf⟩
    · rw [h]; exact matWF_createEmptyGrid
    · rw [hg0]; exact hwf
  set shots0 := (lookupA A.shots tid).getD
    (createEmptyGrid gs.gridDimensions.rows gs.gridDimensions.cols) with hshots0
  have hhitv : getCell (setCell shots0 x y CellState.HIT) x y = CellState.HIT :=
    getCell_setCell_self gs.gridDimensions hWFs hx hy
  have hmissv : getCell (setCell shots0 x y CellState.MISS) x y = CellState.MISS :=
    getCell_setCell_self gs.gridDimensions hWFs hx hy
  have hWFs1 : matWF (setCell shots0 x y CellState.HIT) gs.gridDimensions :=
    matWF_setM hWFs
  have hTid : T.id = tid := by
    have h := List.find?_some ht
    simpa using h
  subst hTid
  unfold processShot
  rw [hc]
  dsimp only
  rw [ht]
  dsimp only
  rw [if_pos hmode]
  rw [← hshots0]
  rw [if_neg (by rcases hguard with hg | hg <;> simp [hg])]
  by_cases hdecoy : T.decoyPositions.any (fun p => decide (p.x = x ∧ p.y = y)) = true
  · rw [if_pos hdecoy]
    right
    obtain ⟨A1, hA1, hA1shots⟩ := currentPlayer_after_updates gs A T.id
      (fun p => { p with shots := setA p.shots T.id (setCell shots0 x y CellState.HIT) })
      (fun p => { p with
        decoyPositions := T.decoyPositions.eraseP (fun q => decide (q.x = x ∧ q.y = y)),
        grid := if getCell T.grid x y = CellState.DECOY then
          setCell T.grid x y CellState.EMPTY else T.grid })
      hc (fun b => rfl) (fun b => rfl) (fun b => rfl)
    obtain ⟨T1, hT1⟩ := findTid_after_updates gs A T T.id
      (fun p => { p with shots := setA p.shots T.id (setCell shots0 x y CellState.HIT) })
      (fun p => { p with
        decoyPositions := T.decoyPositions.eraseP (fun q => decide (q.x = x ∧ q.y = y)),
        grid := if getCell T.grid x y = CellState.DECOY then
          setCell T.grid x y CellState.EMPTY else T.grid })
      ht (fun b => rfl) (fun b => rfl)
    refine ⟨A1, T1, setCell shots0 x y CellState.HIT, hA1, hT1, ?_, ?_, ?_⟩
    · rw [hA1shots]
      exact lookupA_setA_self _ _ _
    · simp [hhitv]
    · simp [hhitv]
  · rw [if_neg hdecoy]
    by_cases hship : getCell T.grid x y = CellState.SHIP
    · rw [hship, if_pos rfl]
      rcases hfind : T.ships.find? (fun sh =>
          sh.positions.any (fun pos => decide (pos.x = x ∧ pos.y = y))) with _ | hs
      · left
        rw [hfind]
      · right
        rw [hfind]
        dsimp only
        by_cases hsunk : (hs.positions.all
            (fun pos => getCell (setCell T.grid x y CellState.HIT) pos.x pos.y
              == CellState.HIT)) = true
        · rw [if_pos hsunk]
          obtain ⟨A1, hA1, hA1shots⟩ := currentPlayer_after_updates gs A T.id
            (fun p => { p with shots := setA p.shots T.id
                                  (markCells (setCell shots0 x y CellState.HIT)
                                    hs.positions CellState.SUNK) })
            (fun p => { p with
              grid := markCells (setCell T.grid x y CellState.HIT) hs.positions
                CellState.SUNK,
              ships := updateFirst (fun sh =>
                  sh.positions.any (fun pos => decide (pos.x = x ∧ pos.y = y)))
                (fun sh => { sh with isDamaged := true, isSunk := true }) T.ships,
              escapeSkillUnlocked := T.escapeSkillUnlocked ∨ hs.type = ShipType.Mothership,
              isEliminated := p.isEliminated ∨ hs.type = ShipType.Mothership })
            hc (fun b => rfl) (fun b => rfl) (fun b => rfl)
          obtain ⟨T1, hT1⟩ := findTid_after_updates gs A T T.id
            (fun p => { p with shots := setA p.shots T.id
                                  (markCells (setCell shots0 x y CellState.HIT)
                                    hs.positions CellState.SUNK) })
            (fun p => { p with
              grid := markCells (setCell T.grid x y CellState.HIT) hs.positions
                CellState.SUNK,
              ships := updateFirst (fun sh =>
                  sh.positions.any (fun pos => decide (pos.x = x ∧ pos.y = y)))
                (fun sh => { sh with isDamaged := true, isSunk := true }) T.ships,
              escapeSkillUnlocked := T.escapeSkillUnlocked ∨ hs.type = ShipType.Mothership,
              isEliminated := p.isEliminated ∨ hs.type = ShipType.Mothership })
            ht (fun b => rfl) (fun b => rfl)
          refine ⟨A1, T1,
            markCells (setCell shots0 x y CellState.HIT) hs.positions CellState.SUNK,
            hA1, hT1, ?_, ?_, ?_⟩
          · rw [hA1shots]
            exact lookupA_setA_self _ _ _
          · rcases getCell_markCells gs.gridDimensions hWFs1 hx hy
                hs.positions CellState.SUNK with h | h
            · simp [h]
            · simp [h, hhitv]
          · rcases getCell_markCells gs.gridDimensions hWFs1 hx hy
                hs.positions CellState.SUNK with h | h
            · simp [h]
            · simp [h, hhitv]
        · rw [if_neg hsunk]
          obtain ⟨A1, hA1, hA1shots⟩ := currentPlayer_after_updates gs A T.id
            (fun p => { p with shots := setA p.shots T.id (setCell shots0 x y CellState.HIT) })
            (fun p => { p with
              grid := setCell T.grid x y CellState.HIT,
              ships := updateFirst (fun sh =>
                  sh.positions.any (fun pos => decide (pos.x = x ∧ pos.y = y)))
                (fun sh => { sh with isDamaged := true }) T.ships,
              escapeSkillUnlocked := T.escapeSkillUnlocked ∨ hs.type = ShipType.Mothership })
            hc (fun b => rfl) (fun b => rfl) (fun b => rfl)
          obtain ⟨T1, hT1⟩ := findTid_after_updates gs A T T.id
            (fun p => { p with shots := setA p.shots T.id (setCell shots0 x y CellState.HIT) })
            (fun p => { p with
              grid := setCell T.grid x y CellState.HIT,
              ships := updateFirst (fun sh =>
                  sh.positions.any (fun pos => decide (pos.x = x ∧ pos.y = y)))
                (fun sh => { sh with isDamaged := true }) T.ships,
              escapeSkillUnlocked := T.escapeSkillUnlocked ∨ hs.type = ShipType.Mothership })
            ht (fun b => rfl) (fun b => rfl)
          refine ⟨A1, T1, setCell shots0 x y CellState.HIT, hA1, hT1, ?_, ?_, ?_⟩
          · rw [hA1shots]
            exact lookupA_setA_self _ _ _
          · simp [hhitv]
          · simp [hhitv]
    · rw [if_neg hship]
      right
      obtain ⟨A1, hA1, hA1shots⟩ := currentPlayer_after_updates gs A T.id
        (fun p => { p with shots := setA p.shots T.id (setCell shots0 x y CellState.MISS) })
        (fun p => { p with
          grid := if getCell T.grid x y ≠ CellState.DECOY then
            setCell T.grid x y CellState.MISS else T.grid })
        hc (fun b => rfl) (fun b => rfl) (fun b => rfl)
      obtain ⟨T1, hT1⟩ := findTid_after_updates gs A T T.id
        (fun p => { p with shots := setA p.shots T.id (setCell shots0 x y CellState.MISS) })
        (fun p => { p with
          grid := if getCell T.grid x y ≠ CellState.DECOY then
            setCell T.grid x y CellState.MISS else T.grid })
        ht (fun b => rfl) (fun b => rfl)
      refine ⟨A1, T1, setCell shots0 x y CellState.MISS, hA1, hT1, ?_, ?_, ?_⟩
      · rw [hA1shots]
        exact lookupA_setA_self _ _ _
      · simp [hmissv]
      · simp [hmissv]

theorem processShot_fresh_post_classic (gs : GameState) (A T : Player) (tid x y : Nat)
    (hc : currentPlayer gs = some A)
    (ht : gs.players.find? (fun p => decide (p.id = tid)) = some T)
    (hx : x < gs.gridDimensions.cols) (hy : y < gs.gridDimensions.rows)
    (hWF : lookupA A.shots tid = none ∨
      ∃ g0, lookupA A.shots tid = some g0 ∧ matWF g0 gs.gridDimensions)
    (hmode : ¬ gs.gameMode = GameMode.TACTICAL)
    (hguard : getCell ((lookupA A.shots tid).getD
        (createEmptyGrid gs.gridDimensions.rows gs.gridDimensions.cols)) x y
        = CellState.EMPTY) :
    ∃ A1 T1 shots1,
      currentPlayer (processShot gs (some tid) x y) = some A1 ∧
      (processShot gs (some tid) x y).players.find?
        (fun p => decide (p.id = tid)) = some T1 ∧
      lookupA A1.shots tid = some shots1 ∧
      getCell shots1 x y ≠ CellState.EMPTY ∧
      getCell shots1 x y ≠ CellState.RADAR_CONTACT := by
  have hWFs : matWF ((lookupA A.shots tid).getD
      (createEmptyGrid gs.gridDimensions.rows gs.gridDimensions.cols))
      gs.gridDimensions := by
    rcases hWF with h | ⟨g0, hg0, hwf⟩
    · rw [h]; exact matWF_createEmptyGrid
    · rw [hg0]; exact hwf
  set shots0 := (lookupA A.shots tid).getD
    (createEmptyGrid gs.gridDimensions.rows gs.gridDimensions.cols) with hshots0
  have hTid : T.id = tid := by
    have h := List.find?_some ht
    simpa using h
  subst hTid
  obtain ⟨hv1, hv2⟩ := classicShotStep_shot_value (baseLogEntry gs A x y) shots0 T
    T.id x y gs.gridDimensions hWFs hx hy
  unfold processShot
  rw [hc]
  dsimp only
  rw [ht]
  dsimp only
  rw [if_neg hmode]
  rw [← hshots0]
  rw [if_neg (by simp [hguard])]
  obtain ⟨A1, hA1, hA1shots⟩ := currentPlayer_after_updates gs A T.id
    (fun p => { p with
      shots := setA p.shots T.id
        (classicShotStep (baseLogEntry gs A x y) shots0 T T.id x y).1 })
    (fun p => { p with
      grid := (classicShotStep (baseLogEntry gs A x y) shots0 T T.id x y).2.1,
      ships := (classicShotStep (baseLogEntry gs A x y) shots0 T T.id x y).2.2.1,
      isEliminated := p.isEliminated ∨
        ((classicShotStep (baseLogEntry gs A x y) shots0 T T.id x y).2.2.1.all
          (fun sh => sh.isSunk)) })
    hc (fun b => rfl) (fun b => rfl) (fun b => rfl)
  obtain ⟨T1, hT1⟩ := findTid_after_updates gs A T T.id
    (fun p => { p with
      shots := setA p.shots T.id
        (classicShotStep (baseLogEntry gs A x y) shots0 T T.id x y).1 })
    (fun p => { p with
      grid := (classicShotStep (baseLogEntry gs A x y) shots0 T T.id x y).2.1,
      ships := (classicShotStep (baseLogEntry gs A x y) shots0 T T.id x y).2.2.1,
      isEliminated := p.isEliminated ∨
        ((classicShotStep (baseLogEntry gs A x y) shots0 T T.id x y).2.2.1.all
          (fun sh => sh.isSunk)) })
    ht (fun b => rfl) (fun b => rfl)
  refine ⟨A1, T1, (classicShotStep (baseLogEntry gs A x y) shots0 T T.id x y).1,
    hA1, hT1, ?_, hv1, hv2⟩
  rw [hA1shots]
  exact lookupA_setA_self _ _ _

theorem getCell_createEmptyGrid (r c x y : Nat) :
    getCell (createEmptyGrid r c) x y = CellState.EMPTY := by
  simp only [getCell, getM, createEmptyGrid, List.getD_eq_getElem?_getD,
    List.getElem?_replicate]
  by_cases h : y < r <;> by_cases h2 : x < c <;> simp [h, h2]

theorem processShot_classic_guard (s : GameState) (tid x y : Nat) (A1 T1 : Player)
    (shots1 : Grid)
    (h1 : currentPlayer s = some A1)
    (h2 : s.players.find? (fun p => decide (p.id = tid)) = some T1)
    (hm : ¬ s.gameMode = GameMode.TACTICAL)
    (h3 : lookupA A1.shots tid = some shots1)
    (h4 : getCell shots1 x y ≠ CellState.EMPTY) :
    processShot s (some tid) x y = s := by
  unfold processShot
  rw [h1]
  dsimp only
  rw [h2]
  dsimp only
  rw [if_neg hm, h3]
  simp only [Option.getD_some]
  rw [if_pos h4]

/-- C3: `processShot` is idempotent in both modes: firing a second shot at
the same target player and the same coordinates leaves the state produced
by the first shot unchanged, because the first shot resolves the cell in
the attacker's shot grid and the double-firing guard then returns early.
The well-formedness hypothesis says the attacker's tracking grid for the
target, when it exists, has the state's dimensions. -/
theorem processShot_idem (gs : GameState) (tid x y : Nat)
    (hx : x < gs.gridDimensions.cols) (hy : y < gs.gridDimensions.rows)
    (hWF : ∀ A, currentPlayer gs = some A →
      lookupA A.shots tid = none ∨
      ∃ g0, lookupA A.shots tid = some g0 ∧ matWF g0 gs.gridDimensions) :
    processShot (processShot gs (some tid) x y) (some tid) x y
      = processShot gs (some tid) x y := by
  rcases hcur : currentPlayer gs with _ | A
  · have h1 : processShot gs (some tid) x y = gs := by
      unfold processShot
      rw [hcur]
    rw [h1]
    exact h1
  · rcases hfind : gs.players.find? (fun p => decide (p.id = tid)) with _ | T
    · have h1 : processShot gs (some tid) x y = gs := by
        unfold processShot
        rw [hcur]
        dsimp only
        rw [hfind]
      rw [h1]
      exact h1
    · by_cases hmode : gs.gameMode = GameMode.TACTICAL
      · rcases hlk : lookupA A.shots tid with _ | g0
        · have hguard : getCell ((lookupA A.shots tid).getD
              (createEmptyGrid gs.gridDimensions.rows gs.gridDimensions.cols)) x y
              = CellState.EMPTY ∨
            getCell ((lookupA A.shots tid).getD
              (createEmptyGrid gs.gridDimensions.rows gs.gridDimensions.cols)) x y
              = CellState.RADAR_CONTACT := by
            left
            rw [hlk]
            exact getCell_createEmptyGrid _ _ _ _
          rcases processShot_fresh_post_tactical gs A T tid x y hcur hfind hx hy
              (Or.inl hlk) hmode hguard with heq | ⟨A1, T1, s1, p1, p2, p3, p4, p5⟩
          · rw [heq]
            exact heq
          · exact processShot_of_guard _ tid x y A1 T1 s1 p1 p2 p3 p4 p5
        · obtain ⟨g0', hg0', hwf0⟩ : ∃ g, lookupA A.shots tid = some g ∧
              matWF g gs.gridDimensions := by
            rcases hWF A hcur with h | h
            · rw [hlk] at h; cases h
            · exact h
          rw [hlk] at hg0'
          cases hg0'
          by_cases hcell : getCell g0 x y = CellState.EMPTY ∨
              getCell g0 x y = CellState.RADAR_CONTACT
          · have hguard : getCell ((lookupA A.shots tid).getD
                (createEmptyGrid gs.gridDimensions.rows gs.gridDimensions.cols)) x y
                = CellState.EMPTY ∨
              getCell ((lookupA A.shots tid).getD
                (createEmptyGrid gs.gridDimensions.rows gs.gridDimensions.cols)) x y
                = CellState.RADAR_CONTACT := by
              rw [hlk]
              simpa using hcell
            rcases processShot_fresh_post_tactical gs A T tid x y hcur hfind hx hy
                (Or.inr ⟨g0, hlk, hwf0⟩) hmode hguard with
              heq | ⟨A1, T1, s1, p1, p2, p3, p4, p5⟩
            · rw [heq]
              exact heq
            · exact processShot_of_guard _ tid x y A1 T1 s1 p1 p2 p3 p4 p5
          · push_neg at hcell
            have h1 : processShot gs (some tid) x y = gs :=
              processShot_of_guard gs tid x y A T g0 hcur hfind hlk hcell.1 hcell.2
            rw [h1]
            exact h1
      · rcases hlk : lookupA A.shots tid with _ | g0
        · have hguard : getCell ((lookupA A.shots tid).getD
              (createEmptyGrid gs.gridDimensions.rows gs.gridDimensions.cols)) x y
              = CellState.EMPTY := by
            rw [hlk]
            exact getCell_createEmptyGrid _ _ _ _
          obtain ⟨A1, T1, s1, p1, p2, p3, p4, p5⟩ :=
            processShot_fresh_post_classic gs A T tid x y hcur hfind hx hy
              (Or.inl hlk) hmode hguard
          exact processShot_of_guard _ tid x y A1 T1 s1 p1 p2 p3 p4 p5
        · obtain ⟨g0', hg0', hwf0⟩ : ∃ g, lookupA A.shots tid = some g ∧
              matWF g gs.gridDimensions := by
            rcases hWF A hcur with h | h
            · rw [hlk] at h; cases h
            · exact h
          rw [hlk] at hg0'
          cases hg0'
          by_cases hcell : getCell g0 x y = CellState.EMPTY
          · have hguard : getCell ((lookupA A.shots tid).getD
                (createEmptyGrid gs.gridDimensions.rows gs.gridDimensions.cols)) x y
                = CellState.EMPTY := by
              rw [hlk]
              simpa using hcell
            obtain ⟨A1, T1, s1, p1, p2, p3, p4, p5⟩ :=
              processShot_fresh_post_classic gs A T tid x y hcur hfind hx hy
                (Or.inr ⟨g0, hlk, hwf0⟩) hmode hguard
            exact processShot_of_guard _ tid x y A1 T1 s1 p1 p2 p3 p4 p5
          · have h1 : processShot gs (some tid) x y = gs :=
              processShot_classic_guard gs tid x y A T g0 hcur hfind hmode hlk hcell
            rw [h1]
            exact h1

def c3State : GameState :=
  baseState [basePlayer, { basePlayer with id := 1, name := "P2" }] GameMode.TACTICAL

/-- Witness for C3: a concrete double shot at (0,0) on a fresh 2x2
tactical state equals the single shot. -/
theorem processShot_idem_witness :
    0 < c3State.gridDimensions.cols ∧ 0 < c3State.gridDimensions.rows ∧
    processShot (processShot c3State (some 1) 0 0) (some 1) 0 0
      = processShot c3State (some 1) 0 0 := by
  refine ⟨by decide, by decide, processShot_idem c3State 1 0 0 (by decide) (by decide)
    (fun A hA => ?_)⟩
  have hA2 : some basePlayer = some A := hA
  cases hA2
  exact Or.inl rfl

theorem matWF_restoreCells {g : Grid} (hg : matWF g d) (qs : List PosState) :
    matWF (restoreCells g qs) d := by
  induction qs generalizing g with
  | nil => exact hg
  | cons q t ih => exact ih (matWF_setM hg)

theorem getCell_markCells_mem (g : Grid) (ps : List Pos) (c : CellState) (a b : Nat) :
    getCell (markCells g ps c) a b = getCell g a b ∨ (Pos.mk a b) ∈ ps := by
  induction ps generalizing g with
  | nil => exact Or.inl rfl
  | cons p t ih =>
    rcases ih (setCell g p.x p.y c) with h | h
    · by_cases hpa : a = p.x ∧ b = p.y
      · right
        obtain ⟨h1, h2⟩ := hpa
        subst h1
        subst h2
        exact List.mem_cons_self _ _
      · left
        rw [show markCells g (p :: t) c = markCells (setCell g p.x p.y c) t c from rfl, h]
        exact getM_setM_ne (fun hcc => hpa ⟨hcc.1.symm, hcc.2.symm⟩)
    · exact Or.inr (List.mem_cons_of_mem _ h)

theorem restoreCells_snapshot (d : Dims) (g : Grid) (hg : matWF g d) :
    ∀ (ps : List Pos) (h : Grid), matWF h d →
    (∀ a b, a < d.cols → b < d.rows →
      getCell h a b = getCell g a b ∨ (Pos.mk a b) ∈ ps) →
    ∀ a b, a < d.cols → b < d.rows →
      getCell (restoreCells h (ps.map (fun p => PosState.mk p.x p.y (getCell g p.x p.y)))) a b
        = getCell g a b := by
  intro ps
  induction ps with
  | nil =>
    intro h _ hpt a b ha hb
    rcases hpt a b ha hb with heq | hmem
    · exact heq
    · cases hmem
  | cons p t ih =>
    intro h hWFh hpt a b ha hb
    rw [show restoreCells h ((p :: t).map (fun q => PosState.mk q.x q.y (getCell g q.x q.y)))
        = restoreCells (setCell h p.x p.y (getCell g p.x p.y))
            (t.map (fun q => PosState.mk q.x q.y (getCell g q.x q.y))) from rfl]
    refine ih (setCell h p.x p.y (getCell g p.x p.y)) (matWF_setM hWFh) ?_ a b ha hb
    intro a' b' ha' hb'
    by_cases hpa : a' = p.x ∧ b' = p.y
    · left
      obtain ⟨h1, h2⟩ := hpa
      subst h1
      subst h2
      exact getM_setM_self (by rw [hWFh.1]; exact hb') (by rw [matWF_row hWFh hb']; exact ha')
    · rw [show getCell (setCell h p.x p.y (getCell g p.x p.y)) a' b'
          = getCell h a' b' from
        getM_setM_ne (fun hcc => hpa ⟨hcc.1.symm, hcc.2.symm⟩)]
      rcases hpt a' b' ha' hb' with heq | hmem
      · exact Or.inl heq
      · rcases List.mem_cons.mp hmem with hh | ht
        · exfalso
          exact hpa ⟨congrArg Pos.x hh, congrArg Pos.y hh⟩
        · exact Or.inr ht

theorem restoreCells_markCells (d : Dims) (g : Grid) (hg : matWF g d) (ps : List Pos) :
    restoreCells (markCells g ps CellState.EMPTY)
      (ps.map (fun p => PosState.mk p.x p.y (getCell g p.x p.y))) = g := by
  apply matExt d CellState.EMPTY
    (matWF_restoreCells (matWF_markCells hg ps CellState.EMPTY) _) hg
  intro a ha b hb
  exact restoreCells_snapshot d g hg ps (markCells g ps CellState.EMPTY)
    (matWF_markCells hg ps CellState.EMPTY)
    (fun a' b' _ _ => getCell_markCells_mem g ps CellState.EMPTY a' b') a b ha hb

theorem updateFirst_comp (p : α → Bool) (f g : α → α) (l : List α)
    (hg : ∀ b, p (g b) = p b) :
    updateFirst p f (updateFirst p g l) = updateFirst p (fun b => f (g b)) l := by
  induction l with
  | nil => rfl
  | cons a t ih =>
    by_cases ha : p a = true
    · rw [show updateFirst p g (a :: t) = g a :: t from by simp [updateFirst, ha]]
      simp [updateFirst, hg a, ha]
    · rw [show updateFirst p g (a :: t) = a :: updateFirst p g t from by
        simp [updateFirst, ha]]
      simp [updateFirst, ha, ih]

theorem updateFirst_find?_self {p : α → Bool} {f : α → α} {l : List α} {a : α}
    (hf : l.find? p = some a) (hfix : f a = a) : updateFirst p f l = l := by
  induction l with
  | nil => cases hf
  | cons b t ih =>
    by_cases hb : p b = true
    · rw [List.find?_cons_of_pos _ hb] at hf
      cases hf
      simp [updateFirst, hb, hfix]
    · rw [List.find?_cons_of_neg _ (by simpa using hb)] at hf
      simp [updateFirst, hb, ih hf]

theorem map_pos_eta (l : List Pos) : l.map (fun q => Pos.mk q.x q.y) = l := by
  induction l with
  | nil => rfl
  | cons q t ih => simp [ih]

theorem setActiveAction_none_eq (gs : GameState) (h : gs.activeAction = none) :
    { gs with activeAction := none } = gs := by
  rw [← h]

theorem currentPlayer_updPlayer_act (gs : GameState) (A : Player) (f : Player → Player)
    (aa : Option ActiveAction)
    (hc : currentPlayer gs = some A) (hfid : ∀ b, (f b).id = b.id) :
    currentPlayer { updPlayer gs A.id f with activeAction := aa } = some (f A) := by
  obtain ⟨hid, hfp⟩ := currentPlayer_eq_some hc
  show (updateFirst (fun p => decide (p.id = A.id)) f gs.players).find?
    (fun p => gs.currentPlayerId == some p.id) = some (f A)
  have hq : ∀ b : Player, (gs.currentPlayerId == some b.id) = decide (b.id = A.id) := by
    intro b
    rw [hid]
    by_cases hb : b.id = A.id
    · simp [hb]
    · have hb' : ¬(A.id = b.id) := fun hcc => hb hcc.symm
      simp [hb, hb']
  have hfp2 : gs.players.find? (fun p => decide (p.id = A.id)) = some A := hfp
  rw [find?_ext (fun a _ => hq a)]
  rw [find?_updateFirst_agree (fun b => rfl) (fun b => by simp [hfid b]), hfp2]
  rfl

/-- The arming mutation shared by the escape and relocation handlers: the
footprint is cleared from the grid and the armed ship's positions are
emptied. -/
def armShipUpd (pred : Ship → Bool) (ps : List Pos) : Player → Player := fun p =>
  { p with
    grid := markCells p.grid ps CellState.EMPTY,
    ships := updateFirst pred (fun s => { s with positions := [] }) p.ships }

/-- The footprint snapshot stored in the action descriptor. -/
def snapPositions (g : Grid) (ps : List Pos) : List PosState :=
  ps.map (fun pos => PosState.mk pos.x pos.y (getCell g pos.x pos.y))

/-- The failure rollback of the human Mothership and Commandship branches:
positions and grid cells are restored from the snapshot. -/
def rollbackUpd (pred : Ship → Bool) (orig : List PosState) : Player → Player := fun p =>
  { p with
    ships := updateFirst pred
      (fun s => { s with positions := orig.map (fun q => Pos.mk q.x q.y) }) p.ships,
    grid := restoreCells p.grid orig }

theorem rollback_arm_cancel (pred : Ship → Bool) (player : Player) (sh : Ship)
    (d : Dims) (hWFg : matWF player.grid d)
    (hfind : player.ships.find? pred = some sh)
    (hpred : ∀ (s : Ship) (ps : List Pos), pred { s with positions := ps } = pred s) :
    rollbackUpd pred (snapPositions player.grid sh.positions)
      (armShipUpd pred sh.positions player) = player := by
  unfold rollbackUpd armShipUpd snapPositions
  dsimp only
  have hsnapmap : ((sh.positions.map
        (fun pos => PosState.mk pos.x pos.y (getCell player.grid pos.x pos.y))).map
      (fun q => Pos.mk q.x q.y)) = sh.positions := by
    rw [List.map_map]
    exact map_pos_eta sh.positions
  rw [hsnapmap]
  have hships : updateFirst pred (fun s => { s with positions := sh.positions })
      (updateFirst pred (fun s => { s with positions := ([] : List Pos) }) player.ships)
      = player.ships := by
    rw [updateFirst_comp pred (fun s => { s with positions := sh.positions })
      (fun s => { s with positions := ([] : List Pos) }) player.ships
      (fun b => hpred b [])]
    exact updateFirst_find?_self hfind rfl
  rw [hships]
  rw [restoreCells_markCells d player.grid hWFg sh.positions]

theorem updPlayer_act_collapse (gs : GameState) (pid : Nat) (f g : Player → Player)
    (aa : Option ActiveAction)
    (h : updateFirst (fun p => decide (p.id = pid)) g
      (updateFirst (fun p => decide (p.id = pid)) f gs.players) = gs.players) :
    ({ updPlayer ({ updPlayer gs pid f with activeAction := aa }) pid g with
      activeAction := none } : GameState) = { gs with activeAction := none } := by
  unfold updPlayer
  dsimp only
  rw [h]

theorem useSkill_fail_direct (gs : GameState) (opts : SkillOptions)
    (cands : List Placement) (A : Player) (skillType : ShipType) (isAI : Bool)
    (hA : currentPlayer gs = some A)
    (hhuman : (skillType = ShipType.Mothership ∨ skillType = ShipType.Commandship) →
      isAI = true)
    (hfail : (handleUseSkill skillType opts isAI gs cands).1 = false) :
    (handleUseSkill skillType opts isAI gs cands).2
      = { gs with activeAction := none } := by
  unfold handleUseSkill at hfail ⊢
  rw [hA] at hfail ⊢
  dsimp only at hfail ⊢
  cases skillType with
  | Mothership =>
    have hai : isAI = true := hhuman (Or.inl rfl)
    subst hai
    dsimp only at hfail ⊢
    rw [if_pos rfl] at hfail ⊢
    rcases hm : A.ships.find? (fun s => s.type == ShipType.Mothership) with _ | ms
    · try rw [hm] at hfail
      try rw [hm]
      rfl
    · try rw [hm] at hfail
      try rw [hm]
      dsimp only at hfail ⊢
      rcases hp : findRandomValidPlacement A ms gs.gridDimensions cands with _ | pl
      · try rw [hp] at hfail
        try rw [hp]
        rfl
      · try rw [hp] at hfail
        exact Bool.noConfusion hfail
  | Commandship =>
    have hai : isAI = true := hhuman (Or.inr rfl)
    subst hai
    dsimp only at hfail ⊢
    rw [if_pos rfl] at hfail ⊢
    rcases hm : A.ships.find? (fun s => opts.targetShipType == some s.type) with _ | sm
    · try rw [hm] at hfail
      try rw [hm]
      rfl
    · try rw [hm] at hfail
      try rw [hm]
      dsimp only at hfail ⊢
      by_cases hd : sm.isDamaged ∨ sm.isSunk ∨ sm.hasBeenRelocated
      · rw [if_pos hd] at hfail ⊢
        rfl
      · rw [if_neg hd] at hfail ⊢
        rcases hp : findRandomValidPlacement A sm gs.gridDimensions cands with _ | pl
        · try rw [hp] at hfail
          try rw [hp]
          rfl
        · try rw [hp] at hfail
          exact Bool.noConfusion hfail
  | Radarship =>
    dsimp only at hfail ⊢
    rcases hop : gs.players.find? (fun p => decide (p.id ≠ A.id)) with _ | opp
    · try rw [hop] at hfail
      try rw [hop]
      rfl
    · try rw [hop] at hfail
      try rw [hop]
      simp at hfail
  | Jamship =>
    dsimp only at hfail ⊢
    rcases hop : gs.players.find? (fun p => decide (p.id ≠ A.id)) with _ | opp
    · try rw [hop] at hfail
      try rw [hop]
      rfl
    · try rw [hop] at hfail
      try rw [hop]
      simp at hfail
  | Repairship =>
    dsimp only at hfail ⊢
    by_cases hcond : ((A.ships.find? (fun s =>
          s.positions.any (fun p => decide (p.x = opts.x ∧ p.y = opts.y)))).map
            (·.isSunk)) = some true ∨
        ((A.ships.find? (fun s =>
          s.positions.any (fun p => decide (p.x = opts.x ∧ p.y = opts.y)))).map
            (·.hasBeenRepaired)) = some true ∨
        getCell A.grid opts.x opts.y ≠ CellState.HIT ∨
        lookupHit gs.hitLog A.id ⟨opts.x, opts.y⟩ ≥ gs.turn
    · rw [if_pos hcond] at hfail ⊢
      rfl
    · rw [if_neg hcond] at hfail ⊢
      simp at hfail
  | Decoyship =>
    dsimp only at hfail ⊢
    by_cases hc2 : getCell A.grid opts.x opts.y = CellState.EMPTY
    · rw [if_pos hc2] at hfail ⊢
      simp at hfail
    · rw [if_neg hc2] at hfail ⊢
      rfl
  | Classic name =>
    simp at hfail

theorem useSkill_mothership_rollback (gs0 : GameState) (opts : SkillOptions)
    (cands : List Placement)
    (hact : gs0.activeAction = none)
    (hWF : ∀ B, currentPlayer gs0 = some B → matWF B.grid gs0.gridDimensions)
    (hfail : (handleUseSkill ShipType.Mothership opts false
        (handleActivateMothershipEscape gs0) cands).1 = false) :
    (handleUseSkill ShipType.Mothership opts false
        (handleActivateMothershipEscape gs0) cands).2
      = { gs0 with activeAction := none } := by
  rcases hcur : currentPlayer gs0 with _ | player
  · have harm : handleActivateMothershipEscape gs0 = gs0 := by
      unfold handleActivateMothershipEscape
      rw [hcur]
    rw [harm] at hfail ⊢
    unfold handleUseSkill at hfail ⊢
    rw [hcur] at hfail ⊢
    exact (setActiveAction_none_eq gs0 hact).symm
  · rcases hfm : player.ships.find? (fun s => s.type == ShipType.Mothership) with _ | ms
    · have harm : handleActivateMothershipEscape gs0 = gs0 := by
        unfold handleActivateMothershipEscape
        rw [hcur]
        dsimp only
        rw [hfm]
      rw [harm] at hfail ⊢
      unfold handleUseSkill at hfail ⊢
      rw [hcur] at hfail ⊢
      dsimp only at hfail ⊢
      rw [hact] at hfail ⊢
      rfl
    · by_cases hun : ¬player.escapeSkillUnlocked ∨
          lookupD player.skillUses ShipType.Mothership 0 ≤ 0
      · have harm : handleActivateMothershipEscape gs0 = gs0 := by
          unfold handleActivateMothershipEscape
          rw [hcur]
          dsimp only
          rw [hfm]
          dsimp only
          rw [if_pos hun]
        rw [harm] at hfail ⊢
        unfold handleUseSkill at hfail ⊢
        rw [hcur] at hfail ⊢
        dsimp only at hfail ⊢
        rw [hact] at hfail ⊢
        rfl
      · have harm : handleActivateMothershipEscape gs0
            = { updPlayer gs0 player.id
                  (armShipUpd (fun s => s.type == ShipType.Mothership) ms.positions) with
                activeAction := some
                  { playerId := player.id, type := ActionType.SKILL,
                    shipType := some ShipType.Mothership,
                    stage := some ActionStage.PLACE_SHIP,
                    shipToMove := some { ms with positions := [] },
                    isHorizontal := some (match ms.positions with
                      | p0 :: p1 :: _ => p0.y == p1.y
                      | _ => true),
                    originalPositions := snapPositions player.grid ms.positions } } := by
          unfold handleActivateMothershipEscape
          rw [hcur]
          dsimp only
          rw [hfm]
          dsimp only
          rw [if_neg hun]
          rfl
        rw [harm] at hfail ⊢
        have hcur2 := currentPlayer_updPlayer_act gs0 player
          (armShipUpd (fun s => s.type == ShipType.Mothership) ms.positions)
          (some { playerId := player.id, type := ActionType.SKILL,
                  shipType := some ShipType.Mothership,
                  stage := some ActionStage.PLACE_SHIP,
                  shipToMove := some { ms with positions := [] },
                  isHorizontal := some (match ms.positions with
                    | p0 :: p1 :: _ => p0.y == p1.y
                    | _ => true),
                  originalPositions := snapPositions player.grid ms.positions })
          hcur (fun b => rfl)
        unfold handleUseSkill at hfail ⊢
        rw [hcur2] at hfail ⊢
        dsimp only [updPlayer, armShipUpd] at hfail ⊢
        by_cases hcp : canPlaceShip (markCells player.grid ms.positions CellState.EMPTY)
            ms.length opts.x opts.y opts.isHorizontal gs0.gridDimensions
        · rw [if_pos hcp] at hfail
          exact Bool.noConfusion hfail
        · rw [if_neg hcp] at hfail ⊢
          have hfp2 : gs0.players.find? (fun p => decide (p.id = player.id)) = some player :=
            (currentPlayer_eq_some hcur).2
          have hcancel := rollback_arm_cancel (fun s => s.type == ShipType.Mothership)
            player ms gs0.gridDimensions (hWF player hcur) hfm (fun s ps => rfl)
          have hplayers : updateFirst (fun p => decide (p.id = player.id))
              (rollbackUpd (fun s => s.type == ShipType.Mothership)
                (snapPositions player.grid ms.positions))
              (updateFirst (fun p => decide (p.id = player.id))
                (armShipUpd (fun s => s.type == ShipType.Mothership) ms.positions)
                gs0.players) = gs0.players := by
            rw [updateFirst_comp (fun (p : Player) => decide (p.id = player.id))
              (rollbackUpd (fun s => s.type == ShipType.Mothership)
                (snapPositions player.grid ms.positions))
              (armShipUpd (fun s => s.type == ShipType.Mothership) ms.positions)
              gs0.players (fun b => rfl)]
            exact updateFirst_find?_self hfp2 hcancel
          exact updPlayer_act_collapse gs0 player.id
            (armShipUpd (fun s => s.type == ShipType.Mothership) ms.positions)
            (rollbackUpd (fun s => s.type == ShipType.Mothership)
              (snapPositions player.grid ms.positions))
            (some { playerId := player.id, type := ActionType.SKILL,
                    shipType := some ShipType.Mothership,
                    stage := some ActionStage.PLACE_SHIP,
                    shipToMove := some { ms with positions := [] },
                    isHorizontal := some (match ms.positions with
                      | p0 :: p1 :: _ => p0.y == p1.y
                      | _ => true),
                    originalPositions := snapPositions player.grid ms.positions })
            hplayers

theorem useSkill_commandship_rollback (gs0 : GameState) (shipToRelocate : Ship)
    (opts : SkillOptions) (cands : List Placement)
    (hact : gs0.activeAction = none)
    (hWF : ∀ B, currentPlayer gs0 = some B → matWF B.grid gs0.gridDimensions)
    (hfail : (handleUseSkill ShipType.Commandship opts false
        (handleSelectShipForRelocation gs0 shipToRelocate) cands).1 = false) :
    (handleUseSkill ShipType.Commandship opts false
        (handleSelectShipForRelocation gs0 shipToRelocate) cands).2
      = { gs0 with activeAction := none } := by
  rcases hcur : currentPlayer gs0 with _ | player
  · have harm : handleSelectShipForRelocation gs0 shipToRelocate = gs0 := by
      unfold handleSelectShipForRelocation
      rw [hcur]
    rw [harm] at hfail ⊢
    unfold handleUseSkill at hfail ⊢
    rw [hcur] at hfail ⊢
    exact (setActiveAction_none_eq gs0 hact).symm
  · rcases hfs : player.ships.find? (fun s => s.name == shipToRelocate.name) with _ | ship
    · have harm : handleSelectShipForRelocation gs0 shipToRelocate = gs0 := by
        unfold handleSelectShipForRelocation
        rw [hcur]
        dsimp only
        rw [hfs]
      rw [harm] at hfail ⊢
      unfold handleUseSkill at hfail ⊢
      rw [hcur] at hfail ⊢
      dsimp only at hfail ⊢
      rw [hact] at hfail ⊢
      rfl
    · have hname : ship.name = shipToRelocate.name := by
        have h := List.find?_some hfs
        simpa using h
      by_cases hdm : ship.isDamaged ∨ ship.hasBeenRelocated
      · have harm : handleSelectShipForRelocation gs0 shipToRelocate = gs0 := by
          unfold handleSelectShipForRelocation
          rw [hcur]
          dsimp only
          rw [hfs]
          dsimp only
          rw [if_pos hdm]
        rw [harm] at hfail ⊢
        unfold handleUseSkill at hfail ⊢
        rw [hcur] at hfail ⊢
        dsimp only at hfail ⊢
        rw [hact] at hfail ⊢
        rfl
      · have harm : handleSelectShipForRelocation gs0 shipToRelocate
            = { updPlayer gs0 player.id
                  (armShipUpd (fun s => s.name == shipToRelocate.name) ship.positions) with
                activeAction := some
                  { playerId := player.id, type := ActionType.SKILL,
                    shipType := some ShipType.Commandship,
                    stage := some ActionStage.PLACE_SHIP,
                    shipToMove := some { ship with positions := [] },
                    isHorizontal := some (match ship.positions with
                      | p0 :: p1 :: _ => p0.y == p1.y
                      | _ => true),
                    originalPositions := snapPositions player.grid ship.positions } } := by
          unfold handleSelectShipForRelocation
          rw [hcur]
          dsimp only
          rw [hfs]
          dsimp only
          rw [if_neg hdm]
          rfl
        rw [harm] at hfail ⊢
        have hcur2 := currentPlayer_updPlayer_act gs0 player
          (armShipUpd (fun s => s.name == shipToRelocate.name) ship.positions)
          (some { playerId := player.id, type := ActionType.SKILL,
                  shipType := some ShipType.Commandship,
                  stage := some ActionStage.PLACE_SHIP,
                  shipToMove := some { ship with positions := [] },
                  isHorizontal := some (match ship.positions with
                    | p0 :: p1 :: _ => p0.y == p1.y
                    | _ => true),
                  originalPositions := snapPositions player.grid ship.positions })
          hcur (fun b => rfl)
        unfold handleUseSkill at hfail ⊢
        rw [hcur2] at hfail ⊢
        dsimp only [updPlayer, armShipUpd] at hfail ⊢
        rw [hname] at hfail ⊢
        by_cases hcp : canPlaceShip (markCells player.grid ship.positions CellState.EMPTY)
            ship.length opts.x opts.y opts.isHorizontal gs0.gridDimensions
        · rw [if_pos hcp] at hfail
          have hagree : (updateFirst (fun s => s.name == shipToRelocate.name)
              (fun s => { s with positions := ([] : List Pos) }) player.ships).find?
              (fun s => s.name == shipToRelocate.name)
              = (player.ships.find? (fun s => s.name == shipToRelocate.name)).map
                (fun s => { s with positions := ([] : List Pos) }) :=
            find?_updateFirst_agree (fun b => rfl) (fun b => rfl)
          have hfind2 : (updateFirst (fun s => s.name == shipToRelocate.name)
              (fun s => { s with positions := ([] : List Pos) }) player.ships).find?
              (fun s => s.name == shipToRelocate.name)
              = some { ship with positions := ([] : List Pos) } := by
            rw [hagree, hfs]
            rfl
          rw [hfind2] at hfail
          exact Bool.noConfusion hfail
        · rw [if_neg hcp] at hfail ⊢
          have hfp2 : gs0.players.find? (fun p => decide (p.id = player.id)) = some player :=
            (currentPlayer_eq_some hcur).2
          have hcancel := rollback_arm_cancel (fun s => s.name == shipToRelocate.name)
            player ship gs0.gridDimensions (hWF player hcur) hfs (fun s ps => rfl)
          have hplayers : updateFirst (fun (p : Player) => decide (p.id = player.id))
              (rollbackUpd (fun s => s.name == shipToRelocate.name)
                (snapPositions player.grid ship.positions))
              (updateFirst (fun (p : Player) => decide (p.id = player.id))
                (armShipUpd (fun s => s.name == shipToRelocate.name) ship.positions)
                gs0.players) = gs0.players := by
            rw [updateFirst_comp (fun (p : Player) => decide (p.id = player.id))
              (rollbackUpd (fun s => s.name == shipToRelocate.name)
                (snapPositions player.grid ship.positions))
              (armShipUpd (fun s => s.name == shipToRelocate.name) ship.positions)
              gs0.players (fun b => rfl)]
            exact updateFirst_find?_self hfp2 hcancel
          exact updPlayer_act_collapse gs0 player.id
            (armShipUpd (fun s => s.name == shipToRelocate.name) ship.positions)
            (rollbackUpd (fun s => s.name == shipToRelocate.name)
              (snapPositions player.grid ship.positions))
            (some { playerId := player.id, type := ActionType.SKILL,
                    shipType := some ShipType.Commandship,
                    stage := some ActionStage.PLACE_SHIP,
                    shipToMove := some { ship with positions := [] },
                    isHorizontal := some (match ship.positions with
                      | p0 :: p1 :: _ => p0.y == p1.y
                      | _ => true),
                    originalPositions := snapPositions player.grid ship.positions })
            hplayers

def c4State : GameState :=
  baseState [basePlayer, { basePlayer with id := 1, name := "P2" }] GameMode.TACTICAL

def c4Ship : Ship :=
  { name := "S", type := ShipType.Radarship, length := 2, positions := [],
    isSunk := false, isDamaged := false, hasBeenRepaired := false,
    hasBeenRelocated := false }

/-- C4: a failing `handleUseSkill` invocation returns `success = false`
paired with the input state in which only the in-progress action
descriptor is cleared: no log entry, no change to `hasActedThisTurn`, and
every partial per-skill mutation rolled back.  The first clause covers the
skills whose failure paths never mutate (with the AI variants of the two
relocation skills); the remaining clauses cover the human Mothership and
Commandship flows, where the arming handler clears the footprint first and
a failing placement must restore it, landing back on the pre-arming state
`gs0` with its descriptor cleared. -/
theorem useSkill_failure_spec (gs gs0 : GameState) (opts : SkillOptions)
    (cands : List Placement) (A : Player) (shipToRelocate : Ship)
    (hA : currentPlayer gs = some A)
    (hact : gs0.activeAction = none)
    (hWF : ∀ B, currentPlayer gs0 = some B → matWF B.grid gs0.gridDimensions) :
    (∀ skillType isAI,
      ((skillType = ShipType.Mothership ∨ skillType = ShipType.Commandship) →
        isAI = true) →
      (handleUseSkill skillType opts isAI gs cands).1 = false →
      (handleUseSkill skillType opts isAI gs cands).2
        = { gs with activeAction := none }) ∧
    ((handleUseSkill ShipType.Mothership opts false
        (handleActivateMothershipEscape gs0) cands).1 = false →
      (handleUseSkill ShipType.Mothership opts false
        (handleActivateMothershipEscape gs0) cands).2
        = { gs0 with activeAction := none }) ∧
    ((handleUseSkill ShipType.Commandship opts false
        (handleSelectShipForRelocation gs0 shipToRelocate) cands).1 = false →
      (handleUseSkill ShipType.Commandship opts false
        (handleSelectShipForRelocation gs0 shipToRelocate) cands).2
        = { gs0 with activeAction := none }) :=
  ⟨fun skillType isAI hh hf => useSkill_fail_direct gs opts cands A skillType isAI hA hh hf,
   fun hf => useSkill_mothership_rollback gs0 opts cands hact hWF hf,
   fun hf => useSkill_commandship_rollback gs0 shipToRelocate opts cands hact hWF hf⟩

/-- Witness for C4: a Repairship use on a fresh state (no HIT at the
target) fails and returns exactly the input state with the action
descriptor cleared. -/
theorem useSkill_failure_spec_witness :
    (handleUseSkill ShipType.Repairship ⟨0, 0, true, none⟩ false c4State []).1 = false ∧
    (handleUseSkill ShipType.Repairship ⟨0, 0, true, none⟩ false c4State []).2
      = { c4State with activeAction := none } := by
  have hfail : (handleUseSkill ShipType.Repairship ⟨0, 0, true, none⟩ false
      c4State []).1 = false := by decide
  refine ⟨hfail, ?_⟩
  refine (useSkill_failure_spec c4State c4State ⟨0, 0, true, none⟩ [] basePlayer c4Ship
    (by decide) rfl ?_).1 ShipType.Repairship false (fun hc => absurd hc (by decide)) hfail
  intro B hB
  have hB2 : some basePlayer = some B := hB
  cases hB2
  decide

/-! ## Counting lemmas for the probability map -/

theorem matWF_foldl {f : Mat α → β → Mat α} {d : Dims}
    (hf : ∀ m b, matWF m d → matWF (f m b) d) (l : List β) {m : Mat α}
    (hm : matWF m d) : matWF (l.foldl f m) d := by
  induction l generalizing m with
  | nil => exact hm
  | cons b t ih => exact ih (hf m b hm)

theorem length_filterMap_ite {p : α → Prop} [DecidablePred p] (g : α → β) (l : List α) :
    (l.filterMap (fun a => if p a then some (g a) else none)).length
      = l.countP (fun a => decide (p a)) := by
  induction l with
  | nil => rfl
  | cons a t ih =>
    by_cases ha : p a
    · simp [List.filterMap_cons, ha, List.countP_cons, ih]
    · simp [List.filterMap_cons, ha, List.countP_cons, ih]

theorem length_filter_flatMap (f : α → List β) (p : β → Bool) (l : List α) :
    ((l.flatMap f).filter p).length
      = (l.map (fun a => ((f a).filter p).length)).sum := by
  induction l with
  | nil => rfl
  | cons a t ih =>
    simp [List.flatMap_cons, List.filter_append, ih]

theorem length_filter_filterMap {p : α → Prop} [DecidablePred p] (g : α → β)
    (q : β → Bool) (l : List α) :
    ((l.filterMap (fun a => if p a then some (g a) else none)).filter q).length
      = l.countP (fun a => decide (p a) && q (g a)) := by
  induction l with
  | nil => rfl
  | cons a t ih =>
    by_cases ha : p a
    · by_cases hq : q (g a) = true
      · simp [List.filterMap_cons, ha, hq, List.countP_cons, ih]
      · simp [List.filterMap_cons, ha, hq, List.countP_cons, ih]
    · simp [List.filterMap_cons, ha, List.countP_cons, ih]

theorem sum_map_single {g : Nat → Nat} (n y : Nat) (hy : y < n)
    (hz : ∀ t, t ≠ y → g t = 0) : ((List.range n).map g).sum = g y := by
  induction n with
  | zero => omega
  | succ k ih =>
    rw [List.range_succ, List.map_append, List.sum_append]
    rcases Nat.lt_or_ge y k with h | h
    · rw [ih h]
      simp [hz k (by omega)]
    · have hyk : y = k := by omega
      subst hyk
      have : ((List.range y).map g).sum = 0 := by
        apply List.sum_eq_zero
        intro a ha
        rcases List.mem_map.mp ha with ⟨t, ht, rfl⟩
        exact hz t (by simpa using Nat.ne_of_lt (List.mem_range.mp ht))
      rw [this]
      simp

theorem countP_range_shift (q : Nat → Bool) (s len : Nat) :
    (List.range' s len).countP q = (List.range len).countP (fun i => q (s + i)) := by
  rw [List.range'_eq_map_range]
  rw [List.countP_map]
  rfl

theorem countP_range_window (q : Nat → Bool) (s len n : Nat) (h : s + len ≤ n) :
    (List.range n).countP (fun t => decide (s ≤ t) && decide (t < s + len) && q t)
      = (List.range len).countP (fun i => q (s + i)) := by
  rw [List.range_eq_range']
  have hsplit : List.range' 0 s ++ List.range' s len ++
      List.range' (s + len) (n - s - len) = List.range' 0 n := by
    rw [List.append_assoc, List.range'_append_1,
      show List.range' s (n - s - len + len) = List.range' (0 + s) (n - s - len + len)
        from by rw [Nat.zero_add],
      List.range'_append_1,
      show n - s - len + len + s = n from by omega]
  rw [← hsplit, List.countP_append, List.countP_append]
  have h1 : (List.range' 0 s).countP
      (fun t => decide (s ≤ t) && decide (t < s + len) && q t) = 0 := by
    rw [List.countP_eq_zero]
    intro a ha
    have : a < s := by
      have := List.mem_range'_1.mp ha
      omega
    simp [Nat.not_le.mpr this]
  have h2 : (List.range' (s + len) (n - s - len)).countP
      (fun t => decide (s ≤ t) && decide (t < s + len) && q t) = 0 := by
    rw [List.countP_eq_zero]
    intro a ha
    have : s + len ≤ a := (List.mem_range'_1.mp ha).1
    simp [Nat.not_lt.mpr this]
  have h3 : (List.range' s len).countP
      (fun t => decide (s ≤ t) && decide (t < s + len) && q t)
      = (List.range' s len).countP q := by
    apply List.countP_congr
    intro a ha
    have := List.mem_range'_1.mp ha
    simp [this.1, this.2]
  rw [h1, h2, h3, countP_range_shift]
  omega

theorem sum_map_ite_one (p : α → Bool) (l : List α) :
    (l.map (fun a => if p a = true then 1 else 0)).sum = l.countP p := by
  induction l with
  | nil => rfl
  | cons a t ih =>
    by_cases ha : p a = true
    · simp [ha, List.countP_cons, ih, Nat.add_comm]
    · simp [ha, List.countP_cons, ih]

theorem countP_range_single (q : Nat → Bool) (x n : Nat) (hx : x < n) :
    (List.range n).countP (fun t => q t && decide (t = x)) = if q x then 1 else 0 := by
  induction n with
  | zero => omega
  | succ k ih =>
    rw [List.range_succ, List.countP_append]
    rcases Nat.lt_or_ge x k with h | h
    · rw [ih h]
      have : ([k].countP (fun t => q t && decide (t = x))) = 0 := by
        simp [Nat.ne_of_gt h]
      rw [this]
      simp
    · have hxk : x = k := by omega
      subst hxk
      have h0 : ((List.range x).countP (fun t => q t && decide (t = x))) = 0 := by
        rw [List.countP_eq_zero]
        intro a ha
        simp [Nat.ne_of_lt (List.mem_range.mp ha)]
      rw [h0]
      by_cases hq : q x = true <;> simp [hq]

theorem placement_consistency_H (shots : Grid) (d : Dims) (len x y : Nat)
    (hx : x + len ≤ d.cols) (hy : y < d.rows) :
    ((List.range len).filterMap (fun i =>
      if getCell shots (x + i) y = CellState.HIT then some (Pos.mk (x + i) y)
      else none)).length
    = ((hitCellsOf shots d).filter (fun h =>
        decide (h.y = y) && decide (x ≤ h.x) && decide (h.x < x + len))).length := by
  rw [length_filterMap_ite]
  unfold hitCellsOf
  rw [length_filter_flatMap]
  have hrow : ∀ y', (((List.range d.cols).filterMap (fun x' =>
      if getCell shots x' y' = CellState.HIT then some (Pos.mk x' y') else none)).filter
        (fun h => decide (h.y = y) && decide (x ≤ h.x) && decide (h.x < x + len))).length
      = (List.range d.cols).countP (fun x' =>
          decide (getCell shots x' y' = CellState.HIT) &&
          (decide (y' = y) && decide (x ≤ x') && decide (x' < x + len))) := by
    intro y'
    rw [length_filter_filterMap]
  have hsum : ((List.range d.rows).map (fun y' =>
      (((List.range d.cols).filterMap (fun x' =>
        if getCell shots x' y' = CellState.HIT then some (Pos.mk x' y') else none)).filter
          (fun h => decide (h.y = y) && decide (x ≤ h.x) && decide (h.x < x + len))).length)).sum
      = (List.range d.cols).countP (fun x' =>
          decide (getCell shots x' y = CellState.HIT) &&
          (decide (y = y) && decide (x ≤ x') && decide (x' < x + len))) := by
    rw [show ((List.range d.rows).map (fun y' =>
        (((List.range d.cols).filterMap (fun x' =>
          if getCell shots x' y' = CellState.HIT then some (Pos.mk x' y') else none)).filter
            (fun h => decide (h.y = y) && decide (x ≤ h.x) && decide (h.x < x + len))).length))
        = ((List.range d.rows).map (fun y' => (List.range d.cols).countP (fun x' =>
            decide (getCell shots x' y' = CellState.HIT) &&
            (decide (y' = y) && decide (x ≤ x') && decide (x' < x + len)))))
      from List.map_congr_left (fun y' _ => hrow y')]
    exact sum_map_single d.rows y hy (fun t ht => by
      rw [List.countP_eq_zero]
      intro a _
      simp [ht])
  rw [hsum]
  rw [show (List.range d.cols).countP (fun x' =>
        decide (getCell shots x' y = CellState.HIT) &&
        (decide (y = y) && decide (x ≤ x') && decide (x' < x + len)))
      = (List.range d.cols).countP (fun t =>
        decide (x ≤ t) && decide (t < x + len) &&
        decide (getCell shots t y = CellState.HIT))
    from List.countP_congr (fun t _ => by
      constructor <;> intro h <;> simp_all)]
  rw [countP_range_window _ x len d.cols hx]

theorem placement_consistency_V (shots : Grid) (d : Dims) (len x y : Nat)
    (hy : y + len ≤ d.rows) (hx : x < d.cols) :
    ((List.range len).filterMap (fun i =>
      if getCell shots x (y + i) = CellState.HIT then some (Pos.mk x (y + i))
      else none)).length
    = ((hitCellsOf shots d).filter (fun h =>
        decide (h.x = x) && decide (y ≤ h.y) && decide (h.y < y + len))).length := by
  rw [length_filterMap_ite]
  unfold hitCellsOf
  rw [length_filter_flatMap]
  have hrow : ∀ y', (((List.range d.cols).filterMap (fun x' =>
      if getCell shots x' y' = CellState.HIT then some (Pos.mk x' y') else none)).filter
        (fun h => decide (h.x = x) && decide (y ≤ h.y) && decide (h.y < y + len))).length
      = if (decide (y ≤ y') && decide (y' < y + len) &&
          decide (getCell shots x y' = CellState.HIT)) = true then 1 else 0 := by
    intro y'
    rw [length_filter_filterMap]
    by_cases hwin : y ≤ y' ∧ y' < y + len
    · rw [show (List.range d.cols).countP (fun x' =>
            decide (getCell shots x' y' = CellState.HIT) &&
            (decide (x' = x) && decide (y ≤ y') && decide (y' < y + len)))
          = (List.range d.cols).countP (fun x' =>
            decide (getCell shots x' y' = CellState.HIT) && decide (x' = x))
        from List.countP_congr (fun t _ => by
          constructor
          · intro h
            simp only [Bool.and_eq_true, decide_eq_true_eq] at h ⊢
            exact ⟨h.1, h.2.1.1⟩
          · intro h
            simp only [Bool.and_eq_true, decide_eq_true_eq] at h ⊢
            exact ⟨h.1, ⟨h.2, hwin.1⟩, hwin.2⟩)]
      rw [countP_range_single _ x d.cols hx]
      by_cases hh : getCell shots x y' = CellState.HIT <;>
        simp [hh, hwin.1, hwin.2]
    · rw [show ((List.range d.cols).countP (fun x' =>
            decide (getCell shots x' y' = CellState.HIT) &&
            (decide (x' = x) && decide (y ≤ y') && decide (y' < y + len)))) = 0
        from List.countP_eq_zero.mpr (fun a _ => by
          intro hcon
          simp only [Bool.and_eq_true, decide_eq_true_eq] at hcon
          exact hwin ⟨hcon.2.1.2, hcon.2.2⟩)]
      by_cases hh1 : y ≤ y'
      · have hh2 : ¬ y' < y + len := fun hc => hwin ⟨hh1, hc⟩
        simp [hh1, hh2]
      · simp [hh1]
  rw [show ((List.range d.rows).map (fun y' =>
      (((List.range d.cols).filterMap (fun x' =>
        if getCell shots x' y' = CellState.HIT then some (Pos.mk x' y') else none)).filter
          (fun h => decide (h.x = x) && decide (y ≤ h.y) && decide (h.y < y + len))).length))
      = ((List.range d.rows).map (fun y' =>
        if (decide (y ≤ y') && decide (y' < y + len) &&
          decide (getCell shots x y' = CellState.HIT)) = true then 1 else 0))
    from List.map_congr_left (fun y' _ => hrow y')]
  rw [sum_map_ite_one]
  rw [countP_range_window (fun t => decide (getCell shots x t = CellState.HIT)) y len
    d.rows hy]

theorem getM_incrFold_H (d : Dims) (x y len a b : Nat) (m : PMap)
    (hWFm : matWF m d) (hy : y < d.rows) (ha : a < d.cols) (hb : b < d.rows) :
    getM ((List.range len).foldl
        (fun m2 i => setM m2 (x + i) y (getM m2 (x + i) y 0 + 1)) m) a b 0
      = getM m a b 0 + (if b = y ∧ x ≤ a ∧ a < x + len then 1 else 0) := by
  induction len with
  | zero =>
    rw [if_neg (fun hc => by omega)]
    rfl
  | succ k ih =>
    rw [List.range_succ, List.foldl_append]
    have hWFF : matWF ((List.range k).foldl
        (fun m2 i => setM m2 (x + i) y (getM m2 (x + i) y 0 + 1)) m) d :=
      matWF_foldl (fun m2 i h => matWF_setM h) _ hWFm
    rw [show ([k].foldl (fun m2 i => setM m2 (x + i) y (getM m2 (x + i) y 0 + 1))
        ((List.range k).foldl (fun m2 i => setM m2 (x + i) y (getM m2 (x + i) y 0 + 1)) m))
        = setM ((List.range k).foldl
            (fun m2 i => setM m2 (x + i) y (getM m2 (x + i) y 0 + 1)) m) (x + k) y
          (getM ((List.range k).foldl
            (fun m2 i => setM m2 (x + i) y (getM m2 (x + i) y 0 + 1)) m) (x + k) y 0 + 1)
      from rfl]
    by_cases hab : a = x + k ∧ b = y
    · obtain ⟨ha1, hb1⟩ := hab
      subst ha1
      subst hb1
      rw [getM_setM_self (by rw [hWFF.1]; exact hb) (by rw [matWF_row hWFF hb]; exact ha)]
      rw [ih]
      rw [if_neg (fun hc => by omega), if_pos ⟨rfl, by omega, by omega⟩]
    · rw [getM_setM_ne (fun hc => hab ⟨hc.1.symm, hc.2.symm⟩)]
      rw [ih]
      by_cases hc : b = y ∧ x ≤ a ∧ a < x + k
      · rw [if_pos hc, if_pos ⟨hc.1, hc.2.1, by omega⟩]
      · rw [if_neg hc, if_neg (fun hc2 => by
          apply hc
          refine ⟨hc2.1, hc2.2.1, ?_⟩
          rcases Nat.lt_or_ge a (x + k) with hlt | hge
          · exact hlt
          · exact absurd ⟨by omega, hc2.1⟩ hab)]

theorem getM_incrFold_V (d : Dims) (x y len a b : Nat) (m : PMap)
    (hWFm : matWF m d) (hx : x < d.cols) (ha : a < d.cols) (hb : b < d.rows) :
    getM ((List.range len).foldl
        (fun m2 i => setM m2 x (y + i) (getM m2 x (y + i) 0 + 1)) m) a b 0
      = getM m a b 0 + (if a = x ∧ y ≤ b ∧ b < y + len then 1 else 0) := by
  induction len with
  | zero =>
    rw [if_neg (fun hc => by omega)]
    rfl
  | succ k ih =>
    rw [List.range_succ, List.foldl_append]
    have hWFF : matWF ((List.range k).foldl
        (fun m2 i => setM m2 x (y + i) (getM m2 x (y + i) 0 + 1)) m) d :=
      matWF_foldl (fun m2 i h => matWF_setM h) _ hWFm
    rw [show ([k].foldl (fun m2 i => setM m2 x (y + i) (getM m2 x (y + i) 0 + 1))
        ((List.range k).foldl (fun m2 i => setM m2 x (y + i) (getM m2 x (y + i) 0 + 1)) m))
        = setM ((List.range k).foldl
            (fun m2 i => setM m2 x (y + i) (getM m2 x (y + i) 0 + 1)) m) x (y + k)
          (getM ((List.range k).foldl
            (fun m2 i => setM m2 x (y + i) (getM m2 x (y + i) 0 + 1)) m) x (y + k) 0 + 1)
      from rfl]
    by_cases hab : a = x ∧ b = y + k
    · obtain ⟨ha1, hb1⟩ := hab
      subst ha1
      subst hb1
      rw [getM_setM_self (by rw [hWFF.1]; exact hb) (by rw [matWF_row hWFF hb]; exact ha)]
      rw [ih]
      rw [if_neg (fun hc => by omega), if_pos ⟨rfl, by omega, by omega⟩]
    · rw [getM_setM_ne (fun hc => hab ⟨hc.1.symm, hc.2.symm⟩)]
      rw [ih]
      by_cases hc : a = x ∧ y ≤ b ∧ b < y + k
      · rw [if_pos hc, if_pos ⟨hc.1, hc.2.1, by omega⟩]
      · rw [if_neg hc, if_neg (fun hc2 => by
          apply hc
          refine ⟨hc2.1, hc2.2.1, ?_⟩
          rcases Nat.lt_or_ge b (y + k) with hlt | hge
          · exact hlt
          · exact absurd ⟨hc2.1, by omega⟩ hab)]

theorem matWF_applyCandidateH {m : PMap} {d : Dims} (hm : matWF m d)
    (shots : Grid) (hits : List Pos) (len x y : Nat) :
    matWF (applyCandidateH shots hits d len m x y) d := by
  unfold applyCandidateH
  split
  · dsimp only
    split
    · exact matWF_foldl (fun m2 i h => matWF_setM h) _ hm
    · exact hm
  · exact hm

theorem matWF_applyCandidateV {m : PMap} {d : Dims} (hm : matWF m d)
    (shots : Grid) (hits : List Pos) (len x y : Nat) :
    matWF (applyCandidateV shots hits d len m x y) d := by
  unfold applyCandidateV
  split
  · dsimp only
    split
    · exact matWF_foldl (fun m2 i h => matWF_setM h) _ hm
    · exact hm
  · exact hm

theorem getM_applyCandidateH (shots : Grid) (d : Dims) (len : Nat) (m : PMap)
    (x y a b : Nat) (hWFm : matWF m d) (hy : y < d.rows)
    (ha : a < d.cols) (hb : b < d.rows) :
    getM (applyCandidateH shots (hitCellsOf shots d) d len m x y) a b 0
      = getM m a b 0 +
        (if canShipBePlaced shots len x y true d = true ∧ b = y ∧ x ≤ a ∧ a < x + len
         then 1 else 0) := by
  by_cases hcps : canShipBePlaced shots len x y true d = true
  · have hxb : x + len ≤ d.cols := by
      have hcps2 := hcps
      unfold canShipBePlaced at hcps2
      rw [if_pos rfl] at hcps2
      simp only [Bool.and_eq_true, decide_eq_true_eq] at hcps2
      exact hcps2.1
    unfold applyCandidateH
    rw [if_pos hcps]
    dsimp only
    rw [if_pos (placement_consistency_H shots d len x y hxb hy)]
    rw [getM_incrFold_H d x y len a b m hWFm hy ha hb]
    by_cases hrest : b = y ∧ x ≤ a ∧ a < x + len
    · rw [if_pos hrest, if_pos ⟨hcps, hrest⟩]
    · rw [if_neg hrest, if_neg (fun hc => hrest hc.2)]
  · unfold applyCandidateH
    rw [if_neg hcps]
    rw [if_neg (fun hc => hcps hc.1)]
    omega

theorem getM_applyCandidateV (shots : Grid) (d : Dims) (len : Nat) (m : PMap)
    (x y a b : Nat) (hWFm : matWF m d) (hx : x < d.cols)
    (ha : a < d.cols) (hb : b < d.rows) :
    getM (applyCandidateV shots (hitCellsOf shots d) d len m x y) a b 0
      = getM m a b 0 +
        (if canShipBePlaced shots len x y false d = true ∧ a = x ∧ y ≤ b ∧ b < y + len
         then 1 else 0) := by
  by_cases hcps : canShipBePlaced shots len x y false d = true
  · have hyb : y + len ≤ d.rows := by
      have hcps2 := hcps
      unfold canShipBePlaced at hcps2
      rw [if_neg (by simp)] at hcps2
      simp only [Bool.and_eq_true, decide_eq_true_eq] at hcps2
      exact hcps2.1
    unfold applyCandidateV
    rw [if_pos hcps]
    dsimp only
    rw [if_pos (placement_consistency_V shots d len x y hyb hx)]
    rw [getM_incrFold_V d x y len a b m hWFm hx ha hb]
    by_cases hrest : a = x ∧ y ≤ b ∧ b < y + len
    · rw [if_pos hrest, if_pos ⟨hcps, hrest⟩]
    · rw [if_neg hrest, if_neg (fun hc => hrest hc.2)]
  · unfold applyCandidateV
    rw [if_neg hcps]
    rw [if_neg (fun hc => hcps hc.1)]
    omega

/-- 4-directional adjacency of the cell `(a, b)` to the hit `h`, the form
the boost pass's Int arithmetic takes on natural coordinates. -/
def adjacentCell (h : Pos) (a b : Nat) : Prop :=
  (a = h.x ∧ b + 1 = h.y) ∨ (a = h.x ∧ b = h.y + 1) ∨
  (a + 1 = h.x ∧ b = h.y) ∨ (a = h.x + 1 ∧ b = h.y)

instance (h : Pos) (a b : Nat) : Decidable (adjacentCell h a b) := by
  unfold adjacentCell
  infer_instance

/-- One conditional write of the boost pass. -/
def boostStep (g : Grid) (d : Dims) (m : PMap) (u v : Int) : PMap :=
  if 0 ≤ u ∧ u < (d.cols : Int) ∧ 0 ≤ v ∧ v < (d.rows : Int) ∧
      getCell g u.toNat v.toNat = CellState.EMPTY then
    setM m u.toNat v.toNat (getM m u.toNat v.toNat 0 * 5)
  else m

theorem matWF_boostStep {m : PMap} {d : Dims} (hm : matWF m d) (g : Grid) (u v : Int) :
    matWF (boostStep g d m u v) d := by
  unfold boostStep
  split
  · exact matWF_setM hm
  · exact hm

theorem getM_boostStep (g : Grid) (d : Dims) (m : PMap) (u v : Int) (a b : Nat)
    (w : matWF m d) (ha : a < d.cols) (hb : b < d.rows) :
    getM (boostStep g d m u v) a b 0
      = if u = (a : Int) ∧ v = (b : Int) ∧ getCell g a b = CellState.EMPTY
        then getM m a b 0 * 5 else getM m a b 0 := by
  unfold boostStep
  by_cases hcond : 0 ≤ u ∧ u < (d.cols : Int) ∧ 0 ≤ v ∧ v < (d.rows : Int) ∧
      getCell g u.toNat v.toNat = CellState.EMPTY
  · rw [if_pos hcond]
    by_cases htgt : u = (a : Int) ∧ v = (b : Int)
    · have hta : u.toNat = a := by omega
      have htb : v.toNat = b := by omega
      have hE : getCell g a b = CellState.EMPTY := by
        rw [← hta, ← htb]
        exact hcond.2.2.2.2
      rw [hta, htb]
      rw [getM_setM_self (by rw [w.1]; exact hb) (by rw [matWF_row w hb]; exact ha)]
      rw [if_pos ⟨htgt.1, htgt.2, hE⟩]
    · have hne : ¬(u.toNat = a ∧ v.toNat = b) := by
        intro hc
        apply htgt
        constructor <;> omega
      rw [getM_setM_ne hne]
      rw [if_neg (fun hc => htgt ⟨hc.1, hc.2.1⟩)]
  · rw [if_neg hcond]
    rw [if_neg (fun hc => by
      apply hcond
      refine ⟨by omega, by omega, by omega, by omega, ?_⟩
      rw [show u.toNat = a from by omega, show v.toNat = b from by omega]
      exact hc.2.2)]

theorem matWF_boostOne {m : PMap} {d : Dims} (hm : matWF m d) (g : Grid) (h : Pos) :
    matWF (boostOne g d m h) d := by
  unfold boostOne
  exact matWF_foldl (fun m2 c hwf => by
    split
    · exact matWF_setM hwf
    · exact hwf) _ hm

theorem getM_boostOne (g : Grid) (d : Dims) (m : PMap) (h : Pos) (a b : Nat)
    (w : matWF m d) (ha : a < d.cols) (hb : b < d.rows) :
    getM (boostOne g d m h) a b 0
      = if adjacentCell h a b ∧ getCell g a b = CellState.EMPTY
        then getM m a b 0 * 5 else getM m a b 0 := by
  have hrep : boostOne g d m h
      = boostStep g d (boostStep g d (boostStep g d (boostStep g d m
          (h.x : Int) ((h.y : Int) - 1)) (h.x : Int) ((h.y : Int) + 1))
          ((h.x : Int) - 1) (h.y : Int)) ((h.x : Int) + 1) (h.y : Int) := rfl
  rw [hrep]
  have w1 : matWF (boostStep g d m (h.x : Int) ((h.y : Int) - 1)) d :=
    matWF_boostStep w g _ _
  have w2 : matWF (boostStep g d (boostStep g d m (h.x : Int) ((h.y : Int) - 1))
      (h.x : Int) ((h.y : Int) + 1)) d := matWF_boostStep w1 g _ _
  have w3 : matWF (boostStep g d (boostStep g d (boostStep g d m
      (h.x : Int) ((h.y : Int) - 1)) (h.x : Int) ((h.y : Int) + 1))
      ((h.x : Int) - 1) (h.y : Int)) d := matWF_boostStep w2 g _ _
  rw [getM_boostStep g d _ _ _ a b w3 ha hb]
  rw [getM_boostStep g d _ _ _ a b w2 ha hb]
  rw [getM_boostStep g d _ _ _ a b w1 ha hb]
  rw [getM_boostStep g d _ _ _ a b w ha hb]
  by_cases hE : getCell g a b = CellState.EMPTY
  · by_cases q1 : ((h.x : Int) = (a : Int) ∧ ((h.y : Int) - 1) = (b : Int))
    · obtain ⟨q1a, q1b⟩ := q1
      rw [if_neg (fun hc => by obtain ⟨e1, e2, _⟩ := hc; omega),
        if_neg (fun hc => by obtain ⟨e1, e2, _⟩ := hc; omega),
        if_neg (fun hc => by obtain ⟨e1, e2, _⟩ := hc; omega),
        if_pos ⟨q1a, q1b, hE⟩,
        if_pos ⟨Or.inl ⟨by omega, by omega⟩, hE⟩]
    · by_cases q2 : ((h.x : Int) = (a : Int) ∧ ((h.y : Int) + 1) = (b : Int))
      · obtain ⟨q2a, q2b⟩ := q2
        rw [if_neg (fun hc => by obtain ⟨e1, e2, _⟩ := hc; omega),
          if_neg (fun hc => by obtain ⟨e1, e2, _⟩ := hc; omega),
          if_pos ⟨q2a, q2b, hE⟩,
          if_neg (fun hc => by obtain ⟨e1, e2, _⟩ := hc; omega),
          if_pos ⟨Or.inr (Or.inl ⟨by omega, by omega⟩), hE⟩]
      · by_cases q3 : (((h.x : Int) - 1) = (a : Int) ∧ (h.y : Int) = (b : Int))
        · obtain ⟨q3a, q3b⟩ := q3
          rw [if_neg (fun hc => by obtain ⟨e1, e2, _⟩ := hc; omega),
            if_pos ⟨q3a, q3b, hE⟩,
            if_neg (fun hc => q2 ⟨hc.1, hc.2.1⟩),
            if_neg (fun hc => q1 ⟨hc.1, hc.2.1⟩),
            if_pos ⟨Or.inr (Or.inr (Or.inl ⟨by omega, by omega⟩)), hE⟩]
        · by_cases q4 : (((h.x : Int) + 1) = (a : Int) ∧ (h.y : Int) = (b : Int))
          · obtain ⟨q4a, q4b⟩ := q4
            rw [if_pos ⟨q4a, q4b, hE⟩,
              if_neg (fun hc => q3 ⟨hc.1, hc.2.1⟩),
              if_neg (fun hc => q2 ⟨hc.1, hc.2.1⟩),
              if_neg (fun hc => q1 ⟨hc.1, hc.2.1⟩),
              if_pos ⟨Or.inr (Or.inr (Or.inr ⟨by omega, by omega⟩)), hE⟩]
          · rw [if_neg (fun hc => q4 ⟨hc.1, hc.2.1⟩),
              if_neg (fun hc => q3 ⟨hc.1, hc.2.1⟩),
              if_neg (fun hc => q2 ⟨hc.1, hc.2.1⟩),
              if_neg (fun hc => q1 ⟨hc.1, hc.2.1⟩),
              if_neg (fun hc => by
                rcases hc.1 with hd | hd | hd | hd
                · exact q1 ⟨by omega, by omega⟩
                · exact q2 ⟨by omega, by omega⟩
                · exact q3 ⟨by omega, by omega⟩
                · exact q4 ⟨by omega, by omega⟩)]
  · rw [if_neg (fun hc => hE hc.2.2), if_neg (fun hc => hE hc.2.2),
      if_neg (fun hc => hE hc.2.2), if_neg (fun hc => hE hc.2.2),
      if_neg (fun hc => hE hc.2)]

theorem getM_boostFold (g : Grid) (d : Dims) (hits : List Pos) (m : PMap) (a b : Nat)
    (w : matWF m d) (ha : a < d.cols) (hb : b < d.rows) :
    getM (hits.foldl (boostOne g d) m) a b 0
      = if getCell g a b = CellState.EMPTY
        then getM m a b 0 * 5 ^ (hits.countP (fun h => decide (adjacentCell h a b)))
        else getM m a b 0 := by
  induction hits generalizing m with
  | nil =>
    split <;> simp
  | cons h t ih =>
    rw [List.foldl_cons]
    rw [ih (boostOne g d m h) (matWF_boostOne w g h)]
    rw [getM_boostOne g d m h a b w ha hb]
    by_cases hE : getCell g a b = CellState.EMPTY
    · rw [if_pos hE, if_pos hE]
      by_cases hadj : adjacentCell h a b
      · rw [if_pos ⟨hadj, hE⟩]
        rw [List.countP_cons_of_pos _ _ (by simpa using hadj)]
        ring
      · rw [if_neg (fun hc => hadj hc.1)]
        rw [List.countP_cons_of_neg _ _ (by simpa using hadj)]
    · rw [if_neg hE, if_neg hE, if_neg (fun hc => hE hc.2)]

theorem matWF_replicate (d : Dims) (z : α) :
    matWF (List.replicate d.rows (List.replicate d.cols z)) d := by
  refine ⟨by simp, ?_⟩
  intro r hr
  rw [List.eq_of_mem_replicate hr]
  simp

theorem matWF_rawProbabilityMap (opp : Player) (g : Grid) (d : Dims) :
    matWF (rawProbabilityMap opp g d) d := by
  unfold rawProbabilityMap
  exact matWF_foldl (fun m ship hm =>
    matWF_foldl (fun m2 y hm2 =>
      matWF_foldl (fun m3 x hm3 =>
        matWF_applyCandidateV (matWF_applyCandidateH hm3 g _ ship.length x y) g _
          ship.length x y) _ hm2) _ hm) _ (matWF_replicate d 0)

theorem getM_buildProbabilityMap (opp : Player) (g : Grid) (d : Dims) (a b : Nat)
    (ha : a < d.cols) (hb : b < d.rows) :
    getM (buildProbabilityMap opp g d) a b 0
      = if getCell g a b = CellState.EMPTY
        then getM (rawProbabilityMap opp g d) a b 0 *
          5 ^ ((hitCellsOf g d).countP (fun h => decide (adjacentCell h a b)))
        else getM (rawProbabilityMap opp g d) a b 0 := by
  unfold buildProbabilityMap
  dsimp only
  by_cases hlen : (hitCellsOf g d).length > 0
  · rw [if_pos hlen]
    exact getM_boostFold g d _ _ a b (matWF_rawProbabilityMap opp g d) ha hb
  · rw [if_neg hlen]
    have hnil : hitCellsOf g d = [] := List.length_eq_zero.mp (by omega)
    rw [hnil]
    split <;> simp

/-- C8 (amended): a candidate placement of an unsunk opponent ship
contributes one count to each of its footprint cells exactly when
`canShipBePlaced` holds (footprint in bounds and through no `MISS`); the
hit-consistency comparison the source also performs is provably always
true for the hit list `buildProbabilityMap` passes, so it never blocks a
candidate.  After accumulation, an unshot cell's raw count is multiplied
by 5 once per 4-adjacent `HIT` cell, i.e. by `5 ^ k`, not by a single
factor of 5; shot cells keep their raw count. -/
theorem buildProbabilityMap_spec (shots : Grid) (opp : Player) (d : Dims)
    (len x y a b : Nat) (m : PMap) (hWFm : matWF m d)
    (hy : y < d.rows) (hx : x < d.cols) (ha : a < d.cols) (hb : b < d.rows) :
    (getM (applyCandidateH shots (hitCellsOf shots d) d len m x y) a b 0
      = getM m a b 0 +
        (if canShipBePlaced shots len x y true d = true ∧ b = y ∧ x ≤ a ∧ a < x + len
         then 1 else 0)) ∧
    (getM (applyCandidateV shots (hitCellsOf shots d) d len m x y) a b 0
      = getM m a b 0 +
        (if canShipBePlaced shots len x y false d = true ∧ a = x ∧ y ≤ b ∧ b < y + len
         then 1 else 0)) ∧
    (getM (buildProbabilityMap opp shots d) a b 0
      = if getCell shots a b = CellState.EMPTY
        then getM (rawProbabilityMap opp shots d) a b 0 *
          5 ^ ((hitCellsOf shots d).countP (fun h => decide (adjacentCell h a b)))
        else getM (rawProbabilityMap opp shots d) a b 0) :=
  ⟨getM_applyCandidateH shots d len m x y a b hWFm hy ha hb,
   getM_applyCandidateV shots d len m x y a b hWFm hx ha hb,
   getM_buildProbabilityMap opp shots d a b ha hb⟩

def c8Ship : Ship :=
  { name := "L2", type := ShipType.Classic "L2", length := 2, positions := [],
    isSunk := false, isDamaged := false, hasBeenRepaired := false,
    hasBeenRelocated := false }

def c8Opp : Player :=
  { basePlayer with id := 1, name := "O", ships := [c8Ship] }

def c8Shots : Grid :=
  setCell (setCell (createEmptyGrid 4 4) 0 1 CellState.HIT) 2 1 CellState.HIT

/-- Counterexample for C8's boost clause: on a 4x4 board with hits at
(0,1) and (2,1), the unshot cell (1,1) is adjacent to two hits; its raw
count 4 is boosted to 4 * 25 = 100, not 4 * 5. -/
theorem buildProbabilityMap_counterexample :
    getCell c8Shots 1 1 = CellState.EMPTY ∧
    getM (rawProbabilityMap c8Opp c8Shots ⟨4, 4⟩) 1 1 0 = 4 ∧
    getM (buildProbabilityMap c8Opp c8Shots ⟨4, 4⟩) 1 1 0 = 100 ∧
    getM (buildProbabilityMap c8Opp c8Shots ⟨4, 4⟩) 1 1 0
      ≠ getM (rawProbabilityMap c8Opp c8Shots ⟨4, 4⟩) 1 1 0 * 5 := by
  decide

/-- Witness for C8 at a concrete 2x2 instance: a 1-cell candidate at the
origin of an empty board contributes exactly one count there. -/
theorem buildProbabilityMap_spec_witness :
    matWF (List.replicate 2 (List.replicate 2 0) : PMap) ⟨2, 2⟩ ∧
    getM (applyCandidateH (createEmptyGrid 2 2)
        (hitCellsOf (createEmptyGrid 2 2) ⟨2, 2⟩) ⟨2, 2⟩ 1
        (List.replicate 2 (List.replicate 2 0)) 0 0) 0 0 0
      = getM (List.replicate 2 (List.replicate 2 0) : PMap) 0 0 0 +
        (if canShipBePlaced (createEmptyGrid 2 2) 1 0 0 true ⟨2, 2⟩ = true ∧
            (0 : Nat) = 0 ∧ 0 ≤ (0 : Nat) ∧ (0 : Nat) < 0 + 1 then 1 else 0) :=
  ⟨by decide,
   (buildProbabilityMap_spec (createEmptyGrid 2 2) basePlayer ⟨2, 2⟩ 1 0 0 0 0
    (List.replicate 2 (List.replicate 2 0)) (by decide) (by decide) (by decide)
    (by decide) (by decide)).1⟩

/-- The number of candidate placements of a ship of length `len` whose
footprint covers the cell `(a, b)`, in either orientation, over the full
position scan of `buildProbabilityMap`. -/
def shipPlacementCount (shots : Grid) (d : Dims) (len a b : Nat) : Nat :=
  ((List.range d.rows).map (fun y =>
    (List.range d.cols).countP (fun x =>
      canShipBePlaced shots len x y true d && decide (b = y ∧ x ≤ a ∧ a < x + len))
    + (List.range d.cols).countP (fun x =>
      canShipBePlaced shots len x y false d && decide (a = x ∧ y ≤ b ∧ b < y + len)))).sum

theorem getM_cellPassRow (shots : Grid) (d : Dims) (len y a b : Nat) (n : Nat)
    (hn : n ≤ d.cols) (hy : y < d.rows) (ha : a < d.cols) (hb : b < d.rows) :
    ∀ (m : PMap), matWF m d →
    getM ((List.range n).foldl (fun m2 x =>
        applyCandidateV shots (hitCellsOf shots d) d len
          (applyCandidateH shots (hitCellsOf shots d) d len m2 x y) x y) m) a b 0
      = getM m a b 0
        + (List.range n).countP (fun x =>
            canShipBePlaced shots len x y true d && decide (b = y ∧ x ≤ a ∧ a < x + len))
        + (List.range n).countP (fun x =>
            canShipBePlaced shots len x y false d && decide (a = x ∧ y ≤ b ∧ b < y + len)) := by
  induction n with
  | zero =>
    intro m _
    rfl
  | succ k ih =>
    intro m hWFm
    rw [List.range_succ, List.foldl_append, List.countP_append, List.countP_append]
    have hWFF : matWF ((List.range k).foldl (fun m2 x =>
        applyCandidateV shots (hitCellsOf shots d) d len
          (applyCandidateH shots (hitCellsOf shots d) d len m2 x y) x y) m) d :=
      matWF_foldl (fun m2 x h =>
        matWF_applyCandidateV (matWF_applyCandidateH h shots _ len x y) shots _ len x y)
        _ hWFm
    rw [show ([k].foldl (fun m2 x =>
        applyCandidateV shots (hitCellsOf shots d) d len
          (applyCandidateH shots (hitCellsOf shots d) d len m2 x y) x y)
        ((List.range k).foldl (fun m2 x =>
          applyCandidateV shots (hitCellsOf shots d) d len
            (applyCandidateH shots (hitCellsOf shots d) d len m2 x y) x y) m))
      = applyCandidateV shots (hitCellsOf shots d) d len
          (applyCandidateH shots (hitCellsOf shots d) d len
            ((List.range k).foldl (fun m2 x =>
              applyCandidateV shots (hitCellsOf shots d) d len
                (applyCandidateH shots (hitCellsOf shots d) d len m2 x y) x y) m) k y) k y
      from rfl]
    rw [getM_applyCandidateV shots d len _ k y a b
      (matWF_applyCandidateH hWFF shots _ len k y) (by omega) ha hb]
    rw [getM_applyCandidateH shots d len _ k y a b hWFF hy ha hb]
    rw [ih (by omega) m hWFm]
    have hckH : (List.countP (fun x =>
        canShipBePlaced shots len x y true d && decide (b = y ∧ x ≤ a ∧ a < x + len)) [k])
        = (if canShipBePlaced shots len k y true d = true ∧ b = y ∧ k ≤ a ∧ a < k + len
           then 1 else 0) := by
      by_cases hq : canShipBePlaced shots len k y true d = true ∧ b = y ∧ k ≤ a ∧ a < k + len
      · rw [if_pos hq]
        simp [List.countP_cons, hq.1, hq.2.1, hq.2.2.1, hq.2.2.2]
      · rw [if_neg hq]
        simp only [List.countP_cons, List.countP_nil]
        by_cases hcs : canShipBePlaced shots len k y true d = true
        · have hnc : ¬(b = y ∧ k ≤ a ∧ a < k + len) := fun hc => hq ⟨hcs, hc⟩
          simp [hnc]
        · simp [hcs]
    have hckV : (List.countP (fun x =>
        canShipBePlaced shots len x y false d && decide (a = x ∧ y ≤ b ∧ b < y + len)) [k])
        = (if canShipBePlaced shots len k y false d = true ∧ a = k ∧ y ≤ b ∧ b < y + len
           then 1 else 0) := by
      by_cases hq : canShipBePlaced shots len k y false d = true ∧ a = k ∧ y ≤ b ∧ b < y + len
      · rw [if_pos hq]
        simp [List.countP_cons, hq.1, hq.2.1, hq.2.2.1, hq.2.2.2]
      · rw [if_neg hq]
        simp only [List.countP_cons, List.countP_nil]
        by_cases hcs : canShipBePlaced shots len k y false d = true
        · have hnc : ¬(a = k ∧ y ≤ b ∧ b < y + len) := fun hc => hq ⟨hcs, hc⟩
          simp [hnc]
        · simp [hcs]
    rw [hckH, hckV]
    omega

theorem getM_replicate (d : Dims) (z w : α) (a b : Nat) (ha : a < d.cols)
    (hb : b < d.rows) :
    getM (List.replicate d.rows (List.replicate d.cols z) : Mat α) a b w = z := by
  simp only [getM, List.getD_eq_getElem?_getD, List.getElem?_replicate]
  simp [hb, ha]

theorem getM_cellPass (shots : Grid) (d : Dims) (len a b : Nat) (n : Nat)
    (hn : n ≤ d.rows) (ha : a < d.cols) (hb : b < d.rows) :
    ∀ (m : PMap), matWF m d →
    getM ((List.range n).foldl (fun m2 y =>
        (List.range d.cols).foldl (fun m3 x =>
          applyCandidateV shots (hitCellsOf shots d) d len
            (applyCandidateH shots (hitCellsOf shots d) d len m3 x y) x y) m2) m) a b 0
      = getM m a b 0
        + ((List.range n).map (fun y =>
            (List.range d.cols).countP (fun x =>
              canShipBePlaced shots len x y true d &&
                decide (b = y ∧ x ≤ a ∧ a < x + len))
            + (List.range d.cols).countP (fun x =>
              canShipBePlaced shots len x y false d &&
                decide (a = x ∧ y ≤ b ∧ b < y + len)))).sum := by
  induction n with
  | zero =>
    intro m _
    simp
  | succ k ih =>
    intro m hWFm
    rw [List.range_succ, List.foldl_append, List.map_append, List.sum_append]
    have hWFF : matWF ((List.range k).foldl (fun m2 y =>
        (List.range d.cols).foldl (fun m3 x =>
          applyCandidateV shots (hitCellsOf shots d) d len
            (applyCandidateH shots (hitCellsOf shots d) d len m3 x y) x y) m2) m) d :=
      matWF_foldl (fun m2 y h =>
        matWF_foldl (fun m3 x h2 =>
          matWF_applyCandidateV (matWF_applyCandidateH h2 shots _ len x y) shots _ len x y)
          _ h) _ hWFm
    rw [show ([k].foldl (fun m2 y =>
        (List.range d.cols).foldl (fun m3 x =>
          applyCandidateV shots (hitCellsOf shots d) d len
            (applyCandidateH shots (hitCellsOf shots d) d len m3 x y) x y) m2)
        ((List.range k).foldl (fun m2 y =>
          (List.range d.cols).foldl (fun m3 x =>
            applyCandidateV shots (hitCellsOf shots d) d len
              (applyCandidateH shots (hitCellsOf shots d) d len m3 x y) x y) m2) m))
      = (List.range d.cols).foldl (fun m3 x =>
          applyCandidateV shots (hitCellsOf shots d) d len
            (applyCandidateH shots (hitCellsOf shots d) d len m3 x k) x k)
          ((List.range k).foldl (fun m2 y =>
            (List.range d.cols).foldl (fun m3 x =>
              applyCandidateV shots (hitCellsOf shots d) d len
                (applyCandidateH shots (hitCellsOf shots d) d len m3 x y) x y) m2) m)
      from rfl]
    rw [getM_cellPassRow shots d len k a b d.cols (by omega) (by omega) ha hb _ hWFF]
    rw [ih (by omega) m hWFm]
    simp
    omega

theorem getM_rawProbabilityMap (opp : Player) (shots : Grid) (d : Dims) (a b : Nat)
    (ha : a < d.cols) (hb : b < d.rows) :
    getM (rawProbabilityMap opp shots d) a b 0
      = ((opp.ships.filter (fun s => !s.isSunk)).map
          (fun s => shipPlacementCount shots d s.length a b)).sum := by
  unfold rawProbabilityMap
  dsimp only
  have hfold : ∀ (l : List Ship) (m : PMap), matWF m d →
      getM (l.foldl (fun m2 ship =>
        (List.range d.rows).foldl (fun m3 y =>
          (List.range d.cols).foldl (fun m4 x =>
            applyCandidateV shots (hitCellsOf shots d) d ship.length
              (applyCandidateH shots (hitCellsOf shots d) d ship.length m4 x y) x y)
            m3) m2) m) a b 0
        = getM m a b 0
          + (l.map (fun s => shipPlacementCount shots d s.length a b)).sum := by
    intro l
    induction l with
    | nil =>
      intro m _
      simp
    | cons s t iht =>
      intro m hWFm
      rw [List.foldl_cons, List.map_cons, List.sum_cons]
      have hWFs : matWF ((List.range d.rows).foldl (fun m3 y =>
          (List.range d.cols).foldl (fun m4 x =>
            applyCandidateV shots (hitCellsOf shots d) d s.length
              (applyCandidateH shots (hitCellsOf shots d) d s.length m4 x y) x y)
            m3) m) d :=
        matWF_foldl (fun m2 y h =>
          matWF_foldl (fun m3 x h2 =>
            matWF_applyCandidateV (matWF_applyCandidateH h2 shots _ s.length x y)
              shots _ s.length x y) _ h) _ hWFm
      rw [iht _ hWFs]
      rw [getM_cellPass shots d s.length a b d.rows (by omega) ha hb m hWFm]
      unfold shipPlacementCount
      omega
  rw [hfold _ _ (matWF_replicate d 0)]
  rw [getM_replicate d 0 0 a b ha hb]
  omega

/-- The fold step of `findBestTargets`. -/
def targetStep (m : PMap) (shots : Grid) (acc : Int × List Pos) (c : Pos) :
    Int × List Pos :=
  let s := getCell shots c.x c.y
  if s = CellState.EMPTY ∨ s = CellState.RADAR_CONTACT then
    if Int.ofNat (getM m c.x c.y 0) > acc.1 then (Int.ofNat (getM m c.x c.y 0), [c])
    else if Int.ofNat (getM m c.x c.y 0) = acc.1 then (acc.1, acc.2 ++ [c])
    else acc
  else acc

/-- The scan-order cell enumeration of `findBestTargets`. -/
def targetCells (m : PMap) : List Pos :=
  (List.range m.length).flatMap (fun y =>
    (List.range (List.getD m y []).length).map (fun x => Pos.mk x y))

theorem findBestTargets_eq (m : PMap) (shots : Grid) :
    findBestTargets m shots
      = ((targetCells m).foldl (targetStep m shots) (-1, [])).2 := rfl

theorem targetStep_fst_le (m : PMap) (shots : Grid) (acc : Int × List Pos) (c : Pos) :
    acc.1 ≤ (targetStep m shots acc c).1 := by
  unfold targetStep
  dsimp only
  split
  · split
    · next h => exact le_of_lt h
    · split
      · exact le_refl _
      · exact le_refl _
  · exact le_refl _

theorem targetFold_fst_le (m : PMap) (shots : Grid) (l : List Pos) :
    ∀ acc : Int × List Pos, acc.1 ≤ (l.foldl (targetStep m shots) acc).1 := by
  induction l with
  | nil => intro acc; exact le_refl _
  | cons a t ih =>
    intro acc
    exact le_trans (targetStep_fst_le m shots acc a) (ih (targetStep m shots acc a))

theorem targetFold_fst_ge (m : PMap) (shots : Grid) (l : List Pos) :
    ∀ (acc : Int × List Pos) (c : Pos), c ∈ l →
    (getCell shots c.x c.y = CellState.EMPTY ∨
      getCell shots c.x c.y = CellState.RADAR_CONTACT) →
    Int.ofNat (getM m c.x c.y 0) ≤ (l.foldl (targetStep m shots) acc).1 := by
  induction l with
  | nil =>
    intro acc c hc
    cases hc
  | cons a t ih =>
    intro acc c hc helig
    rcases List.mem_cons.mp hc with rfl | hct
    · refine le_trans ?_ (targetFold_fst_le m shots t (targetStep m shots acc c))
      unfold targetStep
      dsimp only
      rw [if_pos helig]
      split
      · exact le_refl _
      · split
        · next h => exact le_of_eq h
        · next h1 h2 => omega
    · exact ih (targetStep m shots acc a) c hct helig

theorem targetFold_inv (m : PMap) (shots : Grid) (l : List Pos) :
    ∀ acc : Int × List Pos,
    ((∀ c ∈ acc.2, (getCell shots c.x c.y = CellState.EMPTY ∨
        getCell shots c.x c.y = CellState.RADAR_CONTACT) ∧
      Int.ofNat (getM m c.x c.y 0) = acc.1) ∧ (acc.2 = [] → acc.1 = -1)) →
    ((∀ c ∈ (l.foldl (targetStep m shots) acc).2,
        (getCell shots c.x c.y = CellState.EMPTY ∨
          getCell shots c.x c.y = CellState.RADAR_CONTACT) ∧
        Int.ofNat (getM m c.x c.y 0) = (l.foldl (targetStep m shots) acc).1) ∧
      ((l.foldl (targetStep m shots) acc).2 = [] →
        (l.foldl (targetStep m shots) acc).1 = -1)) := by
  induction l with
  | nil =>
    intro acc h
    exact h
  | cons a t ih =>
    intro acc h
    refine ih (targetStep m shots acc a) ?_
    unfold targetStep
    dsimp only
    by_cases helig : getCell shots a.x a.y = CellState.EMPTY ∨
        getCell shots a.x a.y = CellState.RADAR_CONTACT
    · rw [if_pos helig]
      split
      · constructor
        · intro c hc
          rw [List.mem_singleton] at hc
          subst hc
          exact ⟨helig, rfl⟩
        · intro hnil
          cases hnil
      · split
        · next heq =>
          constructor
          · intro c hc
            rcases List.mem_append.mp hc with hc1 | hc2
            · exact (h.1 c hc1)
            · rw [List.mem_singleton] at hc2
              subst hc2
              exact ⟨helig, heq⟩
          · intro hnil
            rcases List.append_eq_nil.mp hnil with ⟨_, h2⟩
            cases h2
        · exact h
    · rw [if_neg helig]
      exact h

theorem findBestTargets_spec (m : PMap) (shots : Grid) (c0 : Pos)
    (hmem : c0 ∈ targetCells m)
    (helig : getCell shots c0.x c0.y = CellState.EMPTY ∨
      getCell shots c0.x c0.y = CellState.RADAR_CONTACT) :
    findBestTargets m shots ≠ [] ∧
    ∀ c ∈ findBestTargets m shots,
      (getCell shots c.x c.y = CellState.EMPTY ∨
        getCell shots c.x c.y = CellState.RADAR_CONTACT) ∧
      getM m c0.x c0.y 0 ≤ getM m c.x c.y 0 := by
  rw [findBestTargets_eq]
  have hP := targetFold_inv m shots (targetCells m) (-1, [])
    ⟨fun c hc => absurd hc (List.not_mem_nil c), fun _ => rfl⟩
  have hge := targetFold_fst_ge m shots (targetCells m) (-1, []) c0 hmem helig
  constructor
  · intro hnil
    have h1 := hP.2 hnil
    rw [h1] at hge
    have h2 : (0 : Int) ≤ Int.ofNat (getM m c0.x c0.y 0) := Int.ofNat_nonneg _
    omega
  · intro c hc
    obtain ⟨he, hv⟩ := hP.1 c hc
    refine ⟨he, ?_⟩
    rw [← hv] at hge
    exact Int.ofNat_le.mp hge

theorem chooseFrom_mem {l : List α} (hl : l ≠ []) (rnd : Nat) :
    ∃ a, chooseFrom l rnd = some a ∧ a ∈ l := by
  unfold chooseFrom
  rw [if_neg (fun h => hl (List.length_eq_zero.mp h))]
  have hlt : rnd % l.length < l.length := Nat.mod_lt _ (List.length_pos.mpr hl)
  rcases h : l.get? (rnd % l.length) with _ | a
  · rw [List.get?_eq_none] at h
    omega
  · exact ⟨a, rfl, List.get?_mem h⟩

theorem matWF_buildProbabilityMap (opp : Player) (g : Grid) (d : Dims) :
    matWF (buildProbabilityMap opp g d) d := by
  unfold buildProbabilityMap
  dsimp only
  split
  · exact matWF_foldl (fun m h hm => matWF_boostOne hm g h) _
      (matWF_rawProbabilityMap opp g d)
  · exact matWF_rawProbabilityMap opp g d

theorem mem_targetCells (m : PMap) (d : Dims) (hm : matWF m d) (a b : Nat)
    (ha : a < d.cols) (hb : b < d.rows) : Pos.mk a b ∈ targetCells m := by
  unfold targetCells
  rw [List.mem_flatMap]
  refine ⟨b, ?_, ?_⟩
  · rw [List.mem_range, hm.1]
    exact hb
  · rw [List.mem_map]
    refine ⟨a, ?_, rfl⟩
    rw [List.mem_range, matWF_row hm hb]
    exact ha

/-- C9: on the standard 12x12 tactical first move -- no damaged ships on
either side, no shots recorded against the opponent, all cooldowns zero,
the opponent's unsunk fleet the standard [5,4,3,3,3,2] -- the AI's
decision tree falls through the urgent, lethal-blow, jam, relocation and
repair branches and returns a plain attack (in particular never a
Repairship, Commandship or Mothership action): the fresh probability map
peaks at 12 > 10, so the best-target branch fires. -/
theorem getAITacticalMove_first_spec (aiPlayer opponent : Player) (gs : GameState)
    (rnd : Nat)
    (hdim : gs.gridDimensions = ⟨12, 12⟩)
    (hshots : lookupA aiPlayer.shots opponent.id = none)
    (hai : ∀ s ∈ aiPlayer.ships, s.isDamaged = false)
    (hoppd : ∀ s ∈ opponent.ships, s.isDamaged = false)
    (hcool : ∀ t, lookupD aiPlayer.skillCooldowns t 0 = 0)
    (hlens : (opponent.ships.filter (fun s => !s.isSunk)).map (fun s => s.length)
      = [5, 4, 3, 3, 3, 2]) :
    ∃ c, getAITacticalMove aiPlayer opponent gs rnd = AIMove.attack c := by
  have hval0 : getM (buildProbabilityMap opponent (createEmptyGrid 12 12) ⟨12, 12⟩) 0 0 0
      = 12 := by
    rw [getM_buildProbabilityMap opponent (createEmptyGrid 12 12) ⟨12, 12⟩ 0 0
      (by decide) (by decide)]
    rw [if_pos (getCell_createEmptyGrid 12 12 0 0)]
    rw [getM_rawProbabilityMap opponent (createEmptyGrid 12 12) ⟨12, 12⟩ 0 0
      (by decide) (by decide)]
    rw [show hitCellsOf (createEmptyGrid 12 12) ⟨12, 12⟩ = [] from by decide]
    have hmm : (opponent.ships.filter (fun s => !s.isSunk)).map
        (fun s => shipPlacementCount (createEmptyGrid 12 12) ⟨12, 12⟩ s.length 0 0)
        = ((opponent.ships.filter (fun s => !s.isSunk)).map (fun s => s.length)).map
          (fun L => shipPlacementCount (createEmptyGrid 12 12) ⟨12, 12⟩ L 0 0) := by
      rw [List.map_map]
      rfl
    rw [hmm, hlens]
    decide
  have hpmWF : matWF (buildProbabilityMap opponent (createEmptyGrid 12 12) ⟨12, 12⟩)
      ⟨12, 12⟩ := matWF_buildProbabilityMap opponent (createEmptyGrid 12 12) ⟨12, 12⟩
  have hbT := findBestTargets_spec
    (buildProbabilityMap opponent (createEmptyGrid 12 12) ⟨12, 12⟩)
    (createEmptyGrid 12 12) ⟨0, 0⟩
    (mem_targetCells _ ⟨12, 12⟩ hpmWF 0 0 (by decide) (by decide))
    (Or.inl (getCell_createEmptyGrid 12 12 0 0))
  obtain ⟨bt, hbt, hbtmem⟩ := chooseFrom_mem hbT.1 rnd
  have hbtval : getM (buildProbabilityMap opponent (createEmptyGrid 12 12) ⟨12, 12⟩)
      bt.x bt.y 0 > 10 := by
    have h := (hbT.2 bt hbtmem).2
    rw [hval0] at h
    omega
  unfold getAITacticalMove
  rw [hdim]
  dsimp only
  rw [hshots]
  simp only [Option.getD_none]
  rcases hms : aiPlayer.ships.find? (fun s => s.type == ShipType.Mothership) with _ | ms
  · try rw [hms]
    dsimp only
    rcases hom : opponent.ships.find? (fun s => s.type == ShipType.Mothership) with _ | om
    · try rw [hom]
      dsimp only
      rw [hbt]
      dsimp only
      rw [show decide (getM (buildProbabilityMap opponent (createEmptyGrid 12 12)
          ⟨12, 12⟩) bt.x bt.y 0 > 10) = true from decide_eq_true hbtval]
      exact ⟨bt, rfl⟩
    · try rw [hom]
      dsimp only
      have hod : om.isDamaged = false := hoppd om (List.mem_of_find?_eq_some hom)
      rw [if_neg (fun hc => by simp [hod] at hc)]
      dsimp only
      rw [hbt]
      dsimp only
      rw [show decide (getM (buildProbabilityMap opponent (createEmptyGrid 12 12)
          ⟨12, 12⟩) bt.x bt.y 0 > 10) = true from decide_eq_true hbtval]
      exact ⟨bt, rfl⟩
  · try rw [hms]
    dsimp only
    have hmd : ms.isDamaged = false := hai ms (List.mem_of_find?_eq_some hms)
    rw [if_neg (fun hc => by simp [hmd] at hc)]
    rw [if_neg (fun hc => by simp [hmd] at hc)]
    dsimp only
    rcases hom : opponent.ships.find? (fun s => s.type == ShipType.Mothership) with _ | om
    · try rw [hom]
      dsimp only
      rw [hbt]
      dsimp only
      rw [show decide (getM (buildProbabilityMap opponent (createEmptyGrid 12 12)
          ⟨12, 12⟩) bt.x bt.y 0 > 10) = true from decide_eq_true hbtval]
      exact ⟨bt, rfl⟩
    · try rw [hom]
      dsimp only
      have hod : om.isDamaged = false := hoppd om (List.mem_of_find?_eq_some hom)
      rw [if_neg (fun hc => by simp [hod] at hc)]
      dsimp only
      rw [hbt]
      dsimp only
      rw [show decide (getM (buildProbabilityMap opponent (createEmptyGrid 12 12)
          ⟨12, 12⟩) bt.x bt.y 0 > 10) = true from decide_eq_true hbtval]
      exact ⟨bt, rfl⟩

def c9Fleet : List Ship :=
  [{ name := "Commandship", type := ShipType.Commandship, length := 5, positions := [],
     isSunk := false, isDamaged := false, hasBeenRepaired := false,
     hasBeenRelocated := false },
   { name := "Decoyship", type := ShipType.Decoyship, length := 4, positions := [],
     isSunk := false, isDamaged := false, hasBeenRepaired := false,
     hasBeenRelocated := false },
   { name := "Radarship", type := ShipType.Radarship, length := 3, positions := [],
     isSunk := false, isDamaged := false, hasBeenRepaired := false,
     hasBeenRelocated := false },
   { name := "Repairship", type := ShipType.Repairship, length := 3, positions := [],
     isSunk := false, isDamaged := false, hasBeenRepaired := false,
     hasBeenRelocated := false },
   { name := "Jamship", type := ShipType.Jamship, length := 3, positions := [],
     isSunk := false, isDamaged := false, hasBeenRepaired := false,
     hasBeenRelocated := false },
   { name := "Mothership", type := ShipType.Mothership, length := 2, positions := [],
     isSunk := false, isDamaged := false, hasBeenRepaired := false,
     hasBeenRelocated := false }]

def c9AI : Player :=
  { basePlayer with isAI := true, ships := c9Fleet }

def c9Opp : Player :=
  { basePlayer with id := 1, name := "P2", ships := c9Fleet }

def c9State : GameState :=
  { baseState [c9AI, c9Opp] GameMode.TACTICAL with gridDimensions := ⟨12, 12⟩ }

/-- Witness for C9: the concrete standard first-move configuration yields
an attack. -/
theorem getAITacticalMove_first_spec_witness :
    c9State.gridDimensions = ⟨12, 12⟩ ∧
    ∃ c, getAITacticalMove c9AI c9Opp c9State 0 = AIMove.attack c :=
  ⟨rfl, getAITacticalMove_first_spec c9AI c9Opp c9State 0 rfl rfl (by decide) (by decide)
    (fun t => rfl) (by decide)⟩

/-! ## The sink invariant (C1) -/

/-- The per-ship dichotomy maintained by every shot: an unsunk ship reads
`SHIP` or `HIT` on each cell and is not yet fully hit; a sunk ship reads
`SUNK` everywhere. -/
def shipInv (g : Grid) (s : Ship) : Prop :=
  (s.isSunk = false ∧ s.positions ≠ [] ∧
    (∀ p ∈ s.positions, getCell g p.x p.y = CellState.SHIP ∨
      getCell g p.x p.y = CellState.HIT) ∧
    ¬(∀ p ∈ s.positions, getCell g p.x p.y = CellState.HIT)) ∨
  (s.isSunk = true ∧ ∀ p ∈ s.positions, getCell g p.x p.y = CellState.SUNK)

/-- Distinct ships occupy disjoint cells. -/
def disjointShips (l : List Ship) : Prop :=
  List.Pairwise (fun s1 s2 => ∀ p ∈ s1.positions, p ∉ s2.positions) l

instance (l : List Ship) : Decidable (disjointShips l) := by
  unfold disjointShips
  infer_instance

/-- The player invariant over raw components. -/
def partsInv (d : Dims) (g : Grid) (ships : List Ship)
    (shots : List (Nat × Grid)) : Prop :=
  matWF g d ∧
  (∀ e ∈ shots, matWF e.2 d) ∧
  (∀ s ∈ ships, shipInv g s ∧
    ∀ p ∈ s.positions, p.x < d.cols ∧ p.y < d.rows) ∧
  disjointShips ships

def playerInv (d : Dims) (P : Player) : Prop :=
  partsInv d P.grid P.ships P.shots

/-- Any resolved cell of `T`'s grid is recorded on `A`'s tracking grid for
`T`: the guard therefore blocks re-firing at it. -/
def syncRaw (d : Dims) (S g : Grid) : Prop :=
  ∀ a, a < d.cols → ∀ b, b < d.rows →
    (getCell g a b = CellState.HIT ∨ getCell g a b = CellState.SUNK ∨
      getCell g a b = CellState.MISS) →
    getCell S a b ≠ CellState.EMPTY ∧ getCell S a b ≠ CellState.RADAR_CONTACT

def shotsSync (d : Dims) (A T : Player) : Prop :=
  syncRaw d ((lookupA A.shots T.id).getD (createEmptyGrid d.rows d.cols)) T.grid

def Inv2 (d : Dims) (P Q : Player) : Prop :=
  P.id ≠ Q.id ∧ playerInv d P ∧ playerInv d Q ∧ shotsSync d P Q ∧ shotsSync d Q P

def GlobalInv (d : Dims) (gs : GameState) : Prop :=
  gs.gridDimensions = d ∧ ∃ P1 P2, gs.players = [P1, P2] ∧ Inv2 d P1 P2

/-- A fresh board: every cell empty, ship or decoy, every placed ship
unsunk with a nonempty in-bounds footprint all marked `SHIP`, footprints
disjoint. -/
def initPlayer (d : Dims) (P : Player) : Prop :=
  matWF P.grid d ∧
  (∀ e ∈ P.shots, matWF e.2 d) ∧
  (∀ x, x < d.cols → ∀ y, y < d.rows →
    (getCell P.grid x y = CellState.EMPTY ∨ getCell P.grid x y = CellState.SHIP ∨
     getCell P.grid x y = CellState.DECOY)) ∧
  (∀ s ∈ P.ships, s.isSunk = false ∧ s.positions ≠ [] ∧
    (∀ p ∈ s.positions, p.x < d.cols ∧ p.y < d.rows ∧
      getCell P.grid p.x p.y = CellState.SHIP)) ∧
  disjointShips P.ships

instance (d : Dims) (P : Player) : Decidable (initPlayer d P) := by
  unfold initPlayer
  infer_instance

/-- The claim's starting condition: a two-player state of fresh boards. -/
def initStateInv (d : Dims) (gs : GameState) : Prop :=
  gs.gridDimensions = d ∧ gs.players.length = 2 ∧
  (gs.players.map (fun p => p.id)).Nodup ∧
  ∀ P ∈ gs.players, initPlayer d P

instance (d : Dims) (gs : GameState) : Decidable (initStateInv d gs) := by
  unfold initStateInv
  infer_instance

/-- One engine step of a play sequence: a shot at an in-bounds cell of
another player, or a turn hand-off. -/
inductive GameStep : GameState → GameState → Prop
  | shot (gs : GameState) (tid x y : Nat) (A : Player)
      (hA : currentPlayer gs = some A) (hne : tid ≠ A.id)
      (hx : x < gs.gridDimensions.cols) (hy : y < gs.gridDimensions.rows) :
      GameStep gs (processShot gs (some tid) x y)
  | turn (gs : GameState) : GameStep gs (advanceTurn gs)

/-- Reachability by shots and turn hand-offs. -/
inductive Reach : GameState → GameState → Prop
  | refl (gs : GameState) : Reach gs gs
  | tail {a b c : GameState} : Reach a b → GameStep b c → Reach a c

theorem initStateInv_globalInv (d : Dims) (gs : GameState)
    (h : initStateInv d gs) : GlobalInv d gs := by
  obtain ⟨hd, hlen, hnodup, hall⟩ := h
  rcases hps : gs.players with _ | ⟨P1, t⟩
  · rw [hps] at hlen
    cases hlen
  · rcases t with _ | ⟨P2, t2⟩
    · rw [hps] at hlen
      cases hlen
    · rcases t2 with _ | ⟨P3, t3⟩
      · refine ⟨hd, P1, P2, hps, ?_⟩
        rw [hps] at hnodup hall
        have h1 := hall P1 (by simp)
        have h2 := hall P2 (by simp)
        have hne : P1.id ≠ P2.id := by
          simp only [List.map_cons, List.map_nil, List.nodup_cons] at hnodup
          intro hc
          exact hnodup.1 (by simp [hc])
        have hplayer : ∀ P, initPlayer d P → playerInv d P := by
          intro P hP
          obtain ⟨hWF, hsh, hrange, hships, hdisj⟩ := hP
          refine ⟨hWF, hsh, ?_, hdisj⟩
          intro s hs
          obtain ⟨hsunk, hnil, hcells⟩ := hships s hs
          refine ⟨?_, fun p hp => ⟨(hcells p hp).1, (hcells p hp).2.1⟩⟩
          left
          refine ⟨hsunk, hnil, fun p hp => Or.inl (hcells p hp).2.2, ?_⟩
          intro hallhit
          rcases List.exists_mem_of_ne_nil _ hnil with ⟨p0, hp0⟩
          have := (hcells p0 hp0).2.2
          have := hallhit p0 hp0
          simp_all
        have hsync : ∀ P Q : Player, initPlayer d Q → shotsSync d P Q := by
          intro P Q hQ x hx y hy hcell
          obtain ⟨_, _, hrange, _, _⟩ := hQ
          rcases hrange x hx y hy with h | h | h <;>
            rcases hcell with hc | hc | hc <;> simp_all
        exact ⟨hne, hplayer P1 h1, hplayer P2 h2, hsync P1 P2 h2, hsync P2 P1 h1⟩
      · rw [hps] at hlen
        simp at hlen

theorem globalInv_sink_iff (d : Dims) (gs : GameState) (h : GlobalInv d gs) :
    ∀ P ∈ gs.players, ∀ s ∈ P.ships,
      (s.isSunk = true ↔ ∀ p ∈ s.positions,
        getCell P.grid p.x p.y = CellState.HIT ∨
        getCell P.grid p.x p.y = CellState.SUNK) := by
  obtain ⟨hd, P1, P2, hps, hne, hp1, hp2, _, _⟩ := h
  have hone : ∀ P : Player, playerInv d P → ∀ s ∈ P.ships,
      (s.isSunk = true ↔ ∀ p ∈ s.positions,
        getCell P.grid p.x p.y = CellState.HIT ∨
        getCell P.grid p.x p.y = CellState.SUNK) := by
    intro P hP s hs
    obtain ⟨_, _, hships, _⟩ := hP
    rcases (hships s hs).1 with ⟨hsk, hnil, hcells, hnall⟩ | ⟨hsk, hcells⟩
    · rw [hsk]
      constructor
      · intro hc
        cases hc
      · intro hall
        exfalso
        apply hnall
        intro p hp
        rcases hall p hp with h | h
        · exact h
        · rcases hcells p hp with h2 | h2 <;> simp_all
    · rw [hsk]
      constructor
      · intro _ p hp
        exact Or.inr (hcells p hp)
      · intro _
        rfl
  intro P hP
  rw [hps] at hP
  rcases List.mem_cons.mp hP with rfl | hP2
  · exact hone P hp1
  · rw [List.mem_singleton] at hP2
    subst hP2
    exact hone P hp2

theorem getCell_markCells_not_mem (g : Grid) (ps : List Pos) (c : CellState)
    (a b : Nat) (hp : (Pos.mk a b) ∉ ps) :
    getCell (markCells g ps c) a b = getCell g a b := by
  rcases getCell_markCells_mem g ps c a b with h | h
  · exact h
  · exact absurd h hp

theorem getCell_markCells_self_mem (d : Dims) (c : CellState) :
    ∀ (ps : List Pos) (g : Grid), matWF g d →
    (∀ q ∈ ps, q.x < d.cols ∧ q.y < d.rows) →
    ∀ p ∈ ps, getCell (markCells g ps c) p.x p.y = c := by
  intro ps
  induction ps with
  | nil =>
    intro g _ _ p hp
    cases hp
  | cons q t ih =>
    intro g hWF hb p hp
    rw [show markCells g (q :: t) c = markCells (setCell g q.x q.y c) t c from rfl]
    by_cases hpt : p ∈ t
    · exact ih (setCell g q.x q.y c) (matWF_setM hWF) (fun r hr => hb r (by simp [hr]))
        p hpt
    · have hpq : p = q := by
        rcases List.mem_cons.mp hp with h | h
        · exact h
        · exact absurd h hpt
      subst hpq
      rw [getCell_markCells_not_mem _ _ _ _ _ hpt]
      exact getCell_setCell_self d hWF (hb p (by simp)).1 (hb p (by simp)).2

theorem updateFirst_decomp {p : α → Bool} {f : α → α} {l : List α} {a : α}
    (h : l.find? p = some a) :
    ∃ l1 l2, l = l1 ++ a :: l2 ∧ updateFirst p f l = l1 ++ f a :: l2 ∧
      ∀ b ∈ l1, p b = false := by
  induction l with
  | nil => cases h
  | cons c t ih =>
    by_cases hc : p c = true
    · rw [List.find?_cons_of_pos _ hc] at h
      cases h
      exact ⟨[], t, rfl, by simp [updateFirst, hc], fun b hb => absurd hb (List.not_mem_nil b)⟩
    · rw [List.find?_cons_of_neg _ (by simpa using hc)] at h
      obtain ⟨l1, l2, he, hu, hn⟩ := ih h
      refine ⟨c :: l1, l2, by rw [he]; rfl, ?_, ?_⟩
      · rw [show updateFirst p f (c :: t) = c :: updateFirst p f t from by
          simp [updateFirst, hc]]
        rw [hu]
        rfl
      · intro b hb
        rcases List.mem_cons.mp hb with rfl | hb2
        · simpa using hc
        · exact hn b hb2

theorem updateFirst_id (p : α → Bool) (l : List α) :
    updateFirst p (fun b => b) l = l := by
  induction l with
  | nil => rfl
  | cons a t ih =>
    by_cases ha : p a = true <;> simp [updateFirst, ha, ih]

theorem playerInv_congr {d : Dims} {P Q : Player} (hg : Q.grid = P.grid)
    (hs : Q.ships = P.ships) (hsh : Q.shots = P.shots) (h : playerInv d P) :
    playerInv d Q := by
  unfold playerInv at *
  rw [hg, hs, hsh]
  exact h

theorem shotsSync_congr {d : Dims} {A T Q R : Player} (hA : Q.shots = A.shots)
    (hTg : R.grid = T.grid) (hTid : R.id = T.id) (h : shotsSync d A T) :
    shotsSync d Q R := by
  unfold shotsSync at *
  rw [hA, hTg, hTid]
  exact h

theorem globalInv_congr (d : Dims) (gs gs' : GameState)
    (h : GlobalInv d gs)
    (hdim : gs'.gridDimensions = gs.gridDimensions)
    (pred : Player → Bool) (f : Player → Player)
    (hp : gs'.players = updateFirst pred f gs.players)
    (hf : ∀ b, (f b).id = b.id ∧ (f b).grid = b.grid ∧ (f b).ships = b.ships ∧
      (f b).shots = b.shots) :
    GlobalInv d gs' := by
  obtain ⟨hd, P1, P2, hps, hne, hi1, hi2, hs12, hs21⟩ := h
  rw [hps] at hp
  by_cases h1 : pred P1 = true
  · rw [show updateFirst pred f [P1, P2] = [f P1, P2] from by simp [updateFirst, h1]] at hp
    refine ⟨hdim.trans hd, f P1, P2, hp, ?_, ?_, hi2, ?_, ?_⟩
    · rw [(hf P1).1]; exact hne
    · exact playerInv_congr (hf P1).2.1 (hf P1).2.2.1 (hf P1).2.2.2 hi1
    · exact shotsSync_congr (hf P1).2.2.2 rfl rfl hs12
    · exact shotsSync_congr rfl (hf P1).2.1 (hf P1).1 hs21
  · by_cases h2 : pred P2 = true
    · rw [show updateFirst pred f [P1, P2] = [P1, f P2] from by
        simp [updateFirst, h1, h2]] at hp
      refine ⟨hdim.trans hd, P1, f P2, hp, ?_, hi1, ?_, ?_, ?_⟩
      · rw [(hf P2).1]; exact hne
      · exact playerInv_congr (hf P2).2.1 (hf P2).2.2.1 (hf P2).2.2.2 hi2
      · exact shotsSync_congr rfl (hf P2).2.1 (hf P2).1 hs12
      · exact shotsSync_congr (hf P2).2.2.2 rfl rfl hs21
    · rw [show updateFirst pred f [P1, P2] = [P1, P2] from by
        simp [updateFirst, h1, h2]] at hp
      exact ⟨hdim.trans hd, P1, P2, hp, hne, hi1, hi2, hs12, hs21⟩

theorem advanceTurn_players_shape (gs : GameState) :
    ((advanceTurn gs).players = gs.players ∧
      (advanceTurn gs).gridDimensions = gs.gridDimensions) ∨
    (∃ ctp, (advanceTurn gs).players
        = updateFirst (fun p => decide (p.id = ctp.id))
            (endTurnPlayerUpdate gs.gameMode ctp) gs.players ∧
      (advanceTurn gs).gridDimensions = gs.gridDimensions) := by
  unfold advanceTurn
  dsimp only
  rcases hc : currentPlayer gs with _ | ctp
  · left
    try rw [hc]
    exact ⟨rfl, rfl⟩
  · right
    refine ⟨ctp, ?_, ?_⟩
    · try rw [hc]
      dsimp only
      split <;> rfl
    · try rw [hc]
      dsimp only
      split <;> rfl

theorem advanceTurn_globalInv (d : Dims) (gs : GameState) (h : GlobalInv d gs) :
    GlobalInv d (advanceTurn gs) := by
  rcases advanceTurn_players_shape gs with ⟨hp, hdim⟩ | ⟨ctp, hp, hdim⟩
  · exact globalInv_congr d gs _ h hdim (fun _ => false) (fun b => b)
      (by rw [hp, updateFirst_id]) (fun b => ⟨rfl, rfl, rfl, rfl⟩)
  · exact globalInv_congr d gs _ h hdim _ _ hp (fun b => ⟨rfl, rfl, rfl, rfl⟩)

theorem lookupA_mem [DecidableEq κ] {l : List (κ × α)} {k : κ} {v : α}
    (h : lookupA l k = some v) : (k, v) ∈ l := by
  induction l with
  | nil => cases h
  | cons e t ih =>
    unfold lookupA at h
    rw [List.find?_cons] at h
    split at h
    · next he =>
      simp only [decide_eq_true_eq] at he
      have h2 : e.2 = v := by simpa using h
      exact List.mem_cons.mpr (Or.inl (by rw [← h2, ← he]))
    · exact List.mem_cons.mpr (Or.inr (ih h))

theorem mem_setA [DecidableEq κ] {l : List (κ × α)} {k : κ} {v : α} {e : κ × α}
    (h : e ∈ setA l k v) : e ∈ l ∨ e = (k, v) := by
  unfold setA at h
  split at h
  · rcases List.mem_map.mp h with ⟨e0, he0, rfl⟩
    split
    · right; rfl
    · left; exact he0
  · rcases List.mem_append.mp h with h1 | h1
    · left; exact h1
    · right; simpa using h1

theorem shipInv_congr {g g' : Grid} {s : Ship}
    (hc : ∀ p ∈ s.positions, getCell g' p.x p.y = getCell g p.x p.y)
    (h : shipInv g s) : shipInv g' s := by
  rcases h with ⟨h1, h2, h3, h4⟩ | ⟨h1, h2⟩
  · left
    refine ⟨h1, h2, fun p hp => by rw [hc p hp]; exact h3 p hp, ?_⟩
    intro hall
    exact h4 (fun p hp => by rw [← hc p hp]; exact hall p hp)
  · right
    exact ⟨h1, fun p hp => by rw [hc p hp]; exact h2 p hp⟩

theorem globalInv_update (d : Dims) (gs gs' : GameState)
    (h : GlobalInv d gs) (A T : Player) (fA gT : Player → Player)
    (hAmem : A ∈ gs.players) (hTmem : T ∈ gs.players) (hne : A.id ≠ T.id)
    (hdim : gs'.gridDimensions = gs.gridDimensions)
    (hp : gs'.players = updateFirst (fun p => decide (p.id = T.id)) gT
      (updateFirst (fun p => decide (p.id = A.id)) fA gs.players))
    (hfA : (fA A).id = A.id ∧ (fA A).grid = A.grid ∧ (fA A).ships = A.ships)
    (hfAwf : ∀ e ∈ (fA A).shots, matWF e.2 d)
    (hgT : (gT T).id = T.id ∧ (gT T).shots = T.shots)
    (hTinv : playerInv d (gT T))
    (hsyncAT : shotsSync d (fA A) (gT T)) :
    GlobalInv d gs' := by
  obtain ⟨hd, P1, P2, hps, hne12, hi1, hi2, hs12, hs21⟩ := h
  rw [hps] at hp hAmem hTmem
  have hAinv : playerInv d (fA A) := by
    have hAbase : playerInv d A := by
      rcases List.mem_cons.mp hAmem with rfl | hA2
      · exact hi1
      · rw [List.mem_singleton] at hA2
        subst hA2
        exact hi2
    obtain ⟨hg, _, hsh, hdj⟩ := hAbase
    rw [← hfA.2.1] at hg hsh
    rw [← hfA.2.2] at hsh hdj
    exact ⟨hg, hfAwf, hsh, hdj⟩
  have hsyncTA : shotsSync d (gT T) (fA A) := by
    have hbase : shotsSync d T A := by
      rcases List.mem_cons.mp hAmem with rfl | hA2
      · rcases List.mem_cons.mp hTmem with rfl | hT2
        · exact absurd rfl hne
        · rw [List.mem_singleton] at hT2
          subst hT2
          exact hs21
      · rw [List.mem_singleton] at hA2
        subst hA2
        rcases List.mem_cons.mp hTmem with rfl | hT2
        · exact hs12
        · rw [List.mem_singleton] at hT2
          subst hT2
          exact absurd rfl hne
    exact shotsSync_congr hgT.2 hfA.2.1 hfA.1 hbase
  rcases List.mem_cons.mp hAmem with rfl | hA2
  · rcases List.mem_cons.mp hTmem with rfl | hT2
    · exact absurd rfl hne
    · rw [List.mem_singleton] at hT2
      subst hT2
      rw [show updateFirst (fun p => decide (p.id = A.id)) fA [A, T] = [fA A, T]
          from by simp [updateFirst]] at hp
      rw [show updateFirst (fun p => decide (p.id = T.id)) gT [fA A, T] = [fA A, gT T]
          from by
        have h1 : (decide ((fA A).id = T.id)) = false := by
          rw [hfA.1]
          simpa using hne
        simp [updateFirst, h1]] at hp
      refine ⟨hdim.trans hd, fA A, gT T, hp, ?_, hAinv, hTinv, hsyncAT, hsyncTA⟩
      rw [hfA.1, hgT.1]
      exact hne
  · rw [List.mem_singleton] at hA2
    subst hA2
    rcases List.mem_cons.mp hTmem with rfl | hT2
    · rw [show updateFirst (fun p => decide (p.id = A.id)) fA [T, A] = [T, fA A]
          from by
        have h1 : (decide (T.id = A.id)) = false := by
          simpa using (Ne.symm hne)
        simp [updateFirst, h1]] at hp
      rw [show updateFirst (fun p => decide (p.id = T.id)) gT [T, fA A] = [gT T, fA A]
          from by simp [updateFirst]] at hp
      refine ⟨hdim.trans hd, gT T, fA A, hp, ?_, hTinv, hAinv, hsyncTA, hsyncAT⟩
      rw [hfA.1, hgT.1]
      exact Ne.symm hne
    · rw [List.mem_singleton] at hT2
      subst hT2
      exact absurd rfl hne

theorem syncRaw_pointwise (d : Dims) (S g S' g' : Grid)
    (h : syncRaw d S g)
    (hpt : ∀ a, a < d.cols → ∀ b, b < d.rows →
      (getCell g' a b = getCell g a b ∧ getCell S' a b = getCell S a b) ∨
      (getCell S' a b ≠ CellState.EMPTY ∧ getCell S' a b ≠ CellState.RADAR_CONTACT) ∨
      (getCell g' a b ≠ CellState.HIT ∧ getCell g' a b ≠ CellState.SUNK ∧
        getCell g' a b ≠ CellState.MISS)) :
    syncRaw d S' g' := by
  intro a ha b hb hcell
  rcases hpt a ha b hb with ⟨hg, hS⟩ | hok | hno
  · rw [hS]
    rw [hg] at hcell
    exact h a ha b hb hcell
  · exact hok
  · rcases hcell with hc | hc | hc
    · exact absurd hc hno.1
    · exact absurd hc hno.2.1
    · exact absurd hc hno.2.2

theorem shotsSync_intro (d : Dims) (X R : Player) (S' : Grid)
    (hlk : lookupA X.shots R.id = some S')
    (h : syncRaw d S' R.grid) : shotsSync d X R := by
  unfold shotsSync
  rw [hlk]
  exact h

/-- A ship-cell read is never `DECOY`, `EMPTY` or `RADAR_CONTACT`. -/
theorem shipInv_cell_range {g : Grid} {s : Ship} (h : shipInv g s) {p : Pos}
    (hp : p ∈ s.positions) :
    getCell g p.x p.y = CellState.SHIP ∨ getCell g p.x p.y = CellState.HIT ∨
    getCell g p.x p.y = CellState.SUNK := by
  rcases h with ⟨_, _, hc, _⟩ | ⟨_, hc⟩
  · rcases hc p hp with h1 | h1
    · exact Or.inl h1
    · exact Or.inr (Or.inl h1)
  · exact Or.inr (Or.inr (hc p hp))

theorem partsInv_decoy (d : Dims) (g : Grid) (ships : List Ship)
    (shots : List (Nat × Grid)) (x y : Nat)
    (h : partsInv d g ships shots) :
    partsInv d (if getCell g x y = CellState.DECOY then
      setCell g x y CellState.EMPTY else g) ships shots := by
  split
  · next hdc =>
    obtain ⟨hWF, hsh, hships, hdj⟩ := h
    refine ⟨matWF_setM hWF, hsh, ?_, hdj⟩
    intro s hs
    refine ⟨shipInv_congr ?_ (hships s hs).1, (hships s hs).2⟩
    intro p hp
    apply getM_setM_ne
    intro hc
    have hrange := shipInv_cell_range (hships s hs).1 hp
    rw [← hc.1, ← hc.2] at hrange
    rw [hdc] at hrange
    rcases hrange with h1 | h1 | h1 <;> cases h1
  · exact h

theorem partsInv_offship (d : Dims) (g : Grid) (ships : List Ship)
    (shots : List (Nat × Grid)) (x y : Nat) (c : CellState)
    (h : partsInv d g ships shots)
    (hns : ∀ s ∈ ships, (Pos.mk x y) ∉ s.positions) :
    partsInv d (setCell g x y c) ships shots := by
  obtain ⟨hWF, hsh, hships, hdj⟩ := h
  refine ⟨matWF_setM hWF, hsh, ?_, hdj⟩
  intro s hs
  refine ⟨shipInv_congr ?_ (hships s hs).1, (hships s hs).2⟩
  intro p hp
  apply getM_setM_ne
  intro hc
  apply hns s hs
  rw [show Pos.mk x y = p from by
    cases p
    simp_all]
  exact hp

theorem find?_ship_pos {ships : List Ship} {x y : Nat} {hs : Ship}
    (h : ships.find? (fun s =>
      s.positions.any (fun pos => decide (pos.x = x ∧ pos.y = y))) = some hs) :
    (Pos.mk x y) ∈ hs.positions := by
  have h2 := List.find?_some h
  simp only [List.any_eq_true, decide_eq_true_eq] at h2
  obtain ⟨p, hp, hpx, hpy⟩ := h2
  rw [show Pos.mk x y = p from by
    cases p
    simp_all]
  exact hp

theorem disjoint_decomp {ships l1 l2 : List Ship} {hs : Ship}
    (hdj : disjointShips ships) (he : ships = l1 ++ hs :: l2) :
    ∀ s, s ∈ l1 ∨ s ∈ l2 → ∀ p ∈ hs.positions, p ∉ s.positions := by
  rw [he] at hdj
  unfold disjointShips at hdj
  rw [List.pairwise_append] at hdj
  obtain ⟨pw1, pw2, hrel⟩ := hdj
  rw [List.pairwise_cons] at pw2
  intro s hmem p hp hps
  rcases hmem with h1 | h1
  · exact hrel s h1 hs (by simp) p hps hp
  · exact pw2.1 s h1 p hp hps

theorem disjointShips_replace {l1 l2 : List Ship} {hs hs' : Ship}
    (hpos : hs'.positions = hs.positions)
    (hdj : disjointShips (l1 ++ hs :: l2)) :
    disjointShips (l1 ++ hs' :: l2) := by
  unfold disjointShips at *
  rw [List.pairwise_append] at hdj ⊢
  obtain ⟨pw1, pw2, hrel⟩ := hdj
  rw [List.pairwise_cons] at pw2 ⊢
  refine ⟨pw1, ⟨?_, pw2.2⟩, ?_⟩
  · intro s hsm
    rw [hpos]
    exact pw2.1 s hsm
  · intro a ha b hb
    rcases List.mem_cons.mp hb with rfl | hb2
    · intro p hp
      rw [hpos]
      exact hrel a ha hs (by simp) p hp
    · exact hrel a ha b (by simp [hb2])

theorem partsInv_sink (d : Dims) (g : Grid) (ships : List Ship)
    (shots : List (Nat × Grid)) (x y : Nat) (hs : Ship) (f2 : Ship → Ship)
    (h : partsInv d g ships shots)
    (hfind : ships.find? (fun s =>
      s.positions.any (fun pos => decide (pos.x = x ∧ pos.y = y))) = some hs)
    (hf2 : (f2 hs).positions = hs.positions ∧ (f2 hs).isSunk = true) :
    partsInv d (markCells (setCell g x y CellState.HIT) hs.positions CellState.SUNK)
      (updateFirst (fun s =>
        s.positions.any (fun pos => decide (pos.x = x ∧ pos.y = y))) f2 ships)
      shots := by
  obtain ⟨hWF, hsh, hships, hdj⟩ := h
  have hxy : (Pos.mk x y) ∈ hs.positions := find?_ship_pos hfind
  have hsmem : hs ∈ ships := List.mem_of_find?_eq_some hfind
  have hbounds : ∀ p ∈ hs.positions, p.x < d.cols ∧ p.y < d.rows :=
    (hships hs hsmem).2
  obtain ⟨l1, l2, he, hu, _⟩ := updateFirst_decomp (f := f2) hfind
  have hdisj2 := disjoint_decomp hdj he
  have hWF1 : matWF (setCell g x y CellState.HIT) d := matWF_setM hWF
  have hother : ∀ s, s ∈ l1 ∨ s ∈ l2 → ∀ p ∈ s.positions,
      getCell (markCells (setCell g x y CellState.HIT) hs.positions CellState.SUNK)
        p.x p.y = getCell g p.x p.y := by
    intro s hsm p hp
    have hnot : p ∉ hs.positions := by
      intro hpin
      exact hdisj2 s hsm p hpin hp
    rw [getCell_markCells_not_mem _ _ _ _ _ (by
      intro hc
      apply hnot
      rw [show p = Pos.mk p.x p.y from by cases p; rfl]
      exact hc)]
    apply getM_setM_ne
    intro hc
    apply hnot
    rw [show p = Pos.mk p.x p.y from by cases p; rfl, ← hc.1, ← hc.2]
    exact hxy
  have hmemold : ∀ s, s ∈ l1 ∨ s ∈ l2 → s ∈ ships := by
    intro s hsm
    rw [he]
    rcases hsm with h1 | h1
    · exact List.mem_append.mpr (Or.inl h1)
    · exact List.mem_append.mpr (Or.inr (by simp [h1]))
  refine ⟨matWF_markCells hWF1 _ _, hsh, ?_, ?_⟩
  · intro s hsmem2
    rw [hu] at hsmem2
    rcases List.mem_append.mp hsmem2 with h1 | h1
    · exact ⟨shipInv_congr (hother s (Or.inl h1)) (hships s (hmemold s (Or.inl h1))).1,
        (hships s (hmemold s (Or.inl h1))).2⟩
    · rcases List.mem_cons.mp h1 with rfl | h2
      · constructor
        · right
          refine ⟨hf2.2, ?_⟩
          intro p hp
          rw [hf2.1] at hp
          exact getCell_markCells_self_mem d CellState.SUNK hs.positions
            (setCell g x y CellState.HIT) hWF1 hbounds p hp
        · intro p hp
          rw [hf2.1] at hp
          exact hbounds p hp
      · exact ⟨shipInv_congr (hother s (Or.inr h2)) (hships s (hmemold s (Or.inr h2))).1,
          (hships s (hmemold s (Or.inr h2))).2⟩
  · rw [hu]
    rw [he] at hdj
    exact disjointShips_replace hf2.1 hdj

theorem partsInv_damage (d : Dims) (g : Grid) (ships : List Ship)
    (shots : List (Nat × Grid)) (x y : Nat) (hs : Ship) (f2 : Ship → Ship)
    (h : partsInv d g ships shots)
    (hfind : ships.find? (fun s =>
      s.positions.any (fun pos => decide (pos.x = x ∧ pos.y = y))) = some hs)
    (hcell : getCell g x y = CellState.SHIP)
    (hnot : ¬(∀ p ∈ hs.positions,
      getCell (setCell g x y CellState.HIT) p.x p.y = CellState.HIT))
    (hf2 : (f2 hs).positions = hs.positions ∧ (f2 hs).isSunk = hs.isSunk) :
    partsInv d (setCell g x y CellState.HIT)
      (updateFirst (fun s =>
        s.positions.any (fun pos => decide (pos.x = x ∧ pos.y = y))) f2 ships)
      shots := by
  obtain ⟨hWF, hsh, hships, hdj⟩ := h
  have hxy : (Pos.mk x y) ∈ hs.positions := find?_ship_pos hfind
  have hsmem : hs ∈ ships := List.mem_of_find?_eq_some hfind
  have hbounds : ∀ p ∈ hs.positions, p.x < d.cols ∧ p.y < d.rows :=
    (hships hs hsmem).2
  have hnotsunk : hs.isSunk = false := by
    rcases (hships hs hsmem).1 with ⟨h1, _, _, _⟩ | ⟨_, hc⟩
    · exact h1
    · have := hc _ hxy
      rw [hcell] at this
      cases this
  obtain ⟨l1, l2, he, hu, _⟩ := updateFirst_decomp (f := f2) hfind
  have hdisj2 := disjoint_decomp hdj he
  have hother : ∀ s, s ∈ l1 ∨ s ∈ l2 → ∀ p ∈ s.positions,
      getCell (setCell g x y CellState.HIT) p.x p.y = getCell g p.x p.y := by
    intro s hsm p hp
    apply getM_setM_ne
    intro hc
    apply hdisj2 s hsm p ?_ hp
    rw [show p = Pos.mk p.x p.y from by cases p; rfl, ← hc.1, ← hc.2]
    exact hxy
  have hmemold : ∀ s, s ∈ l1 ∨ s ∈ l2 → s ∈ ships := by
    intro s hsm
    rw [he]
    rcases hsm with h1 | h1
    · exact List.mem_append.mpr (Or.inl h1)
    · exact List.mem_append.mpr (Or.inr (by simp [h1]))
  have hselfcells : ∀ p ∈ hs.positions,
      getCell (setCell g x y CellState.HIT) p.x p.y = CellState.SHIP ∨
      getCell (setCell g x y CellState.HIT) p.x p.y = CellState.HIT := by
    intro p hp
    by_cases hpc : x = p.x ∧ y = p.y
    · right
      rw [← hpc.1, ← hpc.2]
      exact getCell_setCell_self d hWF (by rw [hpc.1]; exact (hbounds p hp).1)
        (by rw [hpc.2]; exact (hbounds p hp).2)
    · rw [show getCell (setCell g x y CellState.HIT) p.x p.y = getCell g p.x p.y
          from getM_setM_ne hpc]
      rcases (hships hs hsmem).1 with ⟨_, _, hc, _⟩ | ⟨hsk, _⟩
      · exact hc p hp
      · rw [hsk] at hnotsunk
        cases hnotsunk
  refine ⟨matWF_setM hWF, hsh, ?_, ?_⟩
  · intro s hsmem2
    rw [hu] at hsmem2
    rcases List.mem_append.mp hsmem2 with h1 | h1
    · exact ⟨shipInv_congr (hother s (Or.inl h1)) (hships s (hmemold s (Or.inl h1))).1,
        (hships s (hmemold s (Or.inl h1))).2⟩
    · rcases List.mem_cons.mp h1 with rfl | h2
      · constructor
        · left
          refine ⟨by rw [hf2.2]; exact hnotsunk, ?_, ?_, ?_⟩
          · rw [hf2.1]
            intro hc
            rw [hc] at hxy
            cases hxy
          · intro p hp
            rw [hf2.1] at hp
            exact hselfcells p hp
          · intro hall
            apply hnot
            intro p hp
            exact hall p (by rw [hf2.1]; exact hp)
        · intro p hp
          rw [hf2.1] at hp
          exact hbounds p hp
      · exact ⟨shipInv_congr (hother s (Or.inr h2)) (hships s (hmemold s (Or.inr h2))).1,
          (hships s (hmemold s (Or.inr h2))).2⟩
  · rw [hu]
    rw [he] at hdj
    exact disjointShips_replace hf2.1 hdj

theorem syncRaw_decoy (d : Dims) (S g : Grid) (x y : Nat) (hWFS : matWF S d)
    (hx : x < d.cols) (hy : y < d.rows) (h : syncRaw d S g) :
    syncRaw d (setCell S x y CellState.HIT)
      (if getCell g x y = CellState.DECOY then
        setCell g x y CellState.EMPTY else g) := by
  apply syncRaw_pointwise d S g _ _ h
  intro a ha b hb
  by_cases hc : a = x ∧ b = y
  · right
    left
    obtain ⟨rfl, rfl⟩ := hc
    rw [getCell_setCell_self d hWFS ha hb]
    exact ⟨by simp, by simp⟩
  · left
    constructor
    · split
      · exact getM_setM_ne (fun h2 => hc ⟨h2.1.symm, h2.2.symm⟩)
      · rfl
    · exact getM_setM_ne (fun h2 => hc ⟨h2.1.symm, h2.2.symm⟩)

theorem syncRaw_write (d : Dims) (S g : Grid) (x y : Nat) (v w : CellState)
    (hv1 : v ≠ CellState.EMPTY) (hv2 : v ≠ CellState.RADAR_CONTACT)
    (hWFS : matWF S d) (hx : x < d.cols) (hy : y < d.rows) (h : syncRaw d S g) :
    syncRaw d (setCell S x y v) (setCell g x y w) := by
  apply syncRaw_pointwise d S g _ _ h
  intro a ha b hb
  by_cases hc : a = x ∧ b = y
  · right
    left
    obtain ⟨rfl, rfl⟩ := hc
    rw [getCell_setCell_self d hWFS ha hb]
    exact ⟨hv1, hv2⟩
  · left
    exact ⟨getM_setM_ne (fun h2 => hc ⟨h2.1.symm, h2.2.symm⟩),
      getM_setM_ne (fun h2 => hc ⟨h2.1.symm, h2.2.symm⟩)⟩

theorem syncRaw_write_keep (d : Dims) (S g : Grid) (x y : Nat) (v : CellState)
    (hv1 : v ≠ CellState.EMPTY) (hv2 : v ≠ CellState.RADAR_CONTACT)
    (hWFS : matWF S d) (hx : x < d.cols) (hy : y < d.rows) (h : syncRaw d S g) :
    syncRaw d (setCell S x y v) g := by
  apply syncRaw_pointwise d S g _ _ h
  intro a ha b hb
  by_cases hc : a = x ∧ b = y
  · right
    left
    obtain ⟨rfl, rfl⟩ := hc
    rw [getCell_setCell_self d hWFS ha hb]
    exact ⟨hv1, hv2⟩
  · left
    exact ⟨rfl, getM_setM_ne (fun h2 => hc ⟨h2.1.symm, h2.2.symm⟩)⟩

theorem syncRaw_sink (d : Dims) (S g : Grid) (x y : Nat) (ps : List Pos)
    (hWFS : matWF S d) (hxy : (Pos.mk x y) ∈ ps)
    (hbounds : ∀ p ∈ ps, p.x < d.cols ∧ p.y < d.rows) (h : syncRaw d S g) :
    syncRaw d (markCells (setCell S x y CellState.HIT) ps CellState.SUNK)
      (markCells (setCell g x y CellState.HIT) ps CellState.SUNK) := by
  apply syncRaw_pointwise d S g _ _ h
  intro a ha b hb
  by_cases hm : (Pos.mk a b) ∈ ps
  · right
    left
    rw [getCell_markCells_self_mem d CellState.SUNK ps (setCell S x y CellState.HIT)
      (matWF_setM hWFS) hbounds ⟨a, b⟩ hm]
    exact ⟨by simp, by simp⟩
  · left
    have hne : ¬(x = a ∧ y = b) := by
      intro hc
      apply hm
      rw [← hc.1, ← hc.2]
      exact hxy
    constructor
    · rw [getCell_markCells_not_mem _ _ _ _ _ hm]
      exact getM_setM_ne hne
    · rw [getCell_markCells_not_mem _ _ _ _ _ hm]
      exact getM_setM_ne hne

theorem find?_none_not_mem {ships : List Ship} {x y : Nat}
    (h : ships.find? (fun s =>
      s.positions.any (fun pos => decide (pos.x = x ∧ pos.y = y))) = none) :
    ∀ s ∈ ships, (Pos.mk x y) ∉ s.positions := by
  intro s hs hp
  have h2 := List.find?_eq_none.mp h s hs
  simp only [List.any_eq_true, decide_eq_true_eq, not_exists, not_and] at h2
  exact h2 ⟨x, y⟩ hp rfl rfl

theorem classicShotStep_invariants (d : Dims) (base : GameLogEntry) (shots0 : Grid)
    (T : Player) (tid x y : Nat)
    (hWFs0 : matWF shots0 d) (hx : x < d.cols) (hy : y < d.rows)
    (hTinv : partsInv d T.grid T.ships T.shots)
    (hsync0 : syncRaw d shots0 T.grid)
    (hnH : getCell T.grid x y ≠ CellState.HIT)
    (hnS : getCell T.grid x y ≠ CellState.SUNK)
    (hnM : getCell T.grid x y ≠ CellState.MISS) :
    partsInv d (classicShotStep base shots0 T tid x y).2.1
      (classicShotStep base shots0 T tid x y).2.2.1 T.shots ∧
    syncRaw d (classicShotStep base shots0 T tid x y).1
      (classicShotStep base shots0 T tid x y).2.1 ∧
    matWF (classicShotStep base shots0 T tid x y).1 d := by
  unfold classicShotStep
  dsimp only
  split
  · next hisHit =>
    have hship : getCell T.grid x y = CellState.SHIP := by
      rcases hisHit with h1 | h1 | h1
      · exact h1
      · exact absurd h1 hnH
      · exact absurd h1 hnS
    split
    · next hfnone =>
      dsimp only
      have hns : ∀ s ∈ T.ships, (Pos.mk x y) ∉ s.positions := find?_none_not_mem hfnone
      exact ⟨partsInv_offship d T.grid T.ships T.shots x y CellState.HIT hTinv hns,
        syncRaw_write d shots0 T.grid x y CellState.HIT CellState.HIT
          (by simp) (by simp) hWFs0 hx hy hsync0,
        matWF_setM hWFs0⟩
    · next hs hfind =>
      have hbounds : ∀ p ∈ hs.positions, p.x < d.cols ∧ p.y < d.rows :=
        (hTinv.2.2.1 hs (List.mem_of_find?_eq_some hfind)).2
      split
      · refine ⟨partsInv_sink d T.grid T.ships T.shots x y hs
            (fun sh => { sh with isSunk := true }) hTinv hfind ⟨rfl, rfl⟩,
          syncRaw_sink d shots0 T.grid x y hs.positions hWFs0
            (find?_ship_pos hfind) hbounds hsync0,
          matWF_markCells (matWF_setM hWFs0) _ _⟩
      · next hsunk =>
        have hnot : ¬(∀ p ∈ hs.positions,
            getCell (setCell T.grid x y CellState.HIT) p.x p.y = CellState.HIT) := by
          intro hc
          apply hsunk
          simp only [List.all_eq_true, beq_iff_eq]
          exact hc
        have h2 := partsInv_damage d T.grid T.ships T.shots x y hs (fun s => s)
          hTinv hfind hship hnot ⟨rfl, rfl⟩
        rw [updateFirst_id] at h2
        exact ⟨h2,
          syncRaw_write d shots0 T.grid x y CellState.HIT CellState.HIT
            (by simp) (by simp) hWFs0 hx hy hsync0,
          matWF_setM hWFs0⟩
  · next hisHit =>
    have hns : ∀ s ∈ T.ships, (Pos.mk x y) ∉ s.positions := by
      intro s hsm hp
      rcases shipInv_cell_range (hTinv.2.2.1 s hsm).1 hp with h1 | h1 | h1
      · exact hisHit (Or.inl h1)
      · exact hisHit (Or.inr (Or.inl h1))
      · exact hisHit (Or.inr (Or.inr h1))
    exact ⟨partsInv_offship d T.grid T.ships T.shots x y CellState.MISS hTinv hns,
      syncRaw_write d shots0 T.grid x y CellState.MISS CellState.MISS
        (by simp) (by simp) hWFs0 hx hy hsync0,
      matWF_setM hWFs0⟩

theorem globalInv_parts (d : Dims) (gs : GameState) (h : GlobalInv d gs)
    {A T : Player} (hAmem : A ∈ gs.players) (hTmem : T ∈ gs.players)
    (hne : A.id ≠ T.id) :
    playerInv d A ∧ playerInv d T ∧ shotsSync d A T := by
  obtain ⟨hd, P1, P2, hps, hne12, hi1, hi2, hs12, hs21⟩ := h
  rw [hps] at hAmem hTmem
  rcases List.mem_cons.mp hAmem with rfl | hA2
  · rcases List.mem_cons.mp hTmem with rfl | hT2
    · exact absurd rfl hne
    · rw [List.mem_singleton] at hT2
      subst hT2
      exact ⟨hi1, hi2, hs12⟩
  · rw [List.mem_singleton] at hA2
    subst hA2
    rcases List.mem_cons.mp hTmem with rfl | hT2
    · exact ⟨hi2, hi1, hs21⟩
    · rw [List.mem_singleton] at hT2
      subst hT2
      exact absurd rfl hne

theorem processShot_globalInv (d : Dims) (gs : GameState) (tid x y : Nat) (A : Player)
    (hA : currentPlayer gs = some A) (hne : tid ≠ A.id)
    (hx : x < gs.gridDimensions.cols) (hy : y < gs.gridDimensions.rows)
    (h : GlobalInv d gs) : GlobalInv d (processShot gs (some tid) x y) := by
  have hd : gs.gridDimensions = d := h.1
  rw [hd] at hx hy
  rcases hT : gs.players.find? (fun p => decide (p.id = tid)) with _ | T
  · have heq : processShot gs (some tid) x y = gs := by
      unfold processShot
      rw [hA]
      dsimp only
      rw [hT]
    rw [heq]
    exact h
  · have hTid : T.id = tid := by
      have h2 := List.find?_some hT
      simpa using h2
    subst hTid
    have hAmem : A ∈ gs.players := by
      have hA2 : gs.players.find? (fun p => gs.currentPlayerId == some p.id) = some A := hA
      exact List.mem_of_find?_eq_some hA2
    have hTmem : T ∈ gs.players := List.mem_of_find?_eq_some hT
    have hne' : A.id ≠ T.id := Ne.symm hne
    obtain ⟨hApinv, hTpinv, hsyncbase⟩ := globalInv_parts d gs h hAmem hTmem hne'
    obtain ⟨hAg, hAsh, hAships, hAdj⟩ := hApinv
    unfold processShot
    rw [hA]
    dsimp only
    rw [hT]
    dsimp only
    rw [hd]
    set shots0 := (lookupA A.shots T.id).getD (createEmptyGrid d.rows d.cols) with hshots0
    have hWFs0 : matWF shots0 d := by
      rw [hshots0]
      rcases hlk : lookupA A.shots T.id with _ | g0
      · simp only [Option.getD_none]
        exact matWF_createEmptyGrid
      · simp only [Option.getD_some]
        exact hAsh (T.id, g0) (lookupA_mem hlk)
    have hsync0 : syncRaw d shots0 T.grid := by
      rw [hshots0]
      exact hsyncbase
    by_cases hmode : gs.gameMode = GameMode.TACTICAL
    · rw [if_pos hmode]
      by_cases hguard : getCell shots0 x y = CellState.EMPTY ∨
          getCell shots0 x y = CellState.RADAR_CONTACT
      · rw [if_neg (by rcases hguard with hg | hg <;> simp [hg])]
        have hblock : ¬(getCell T.grid x y = CellState.HIT ∨
            getCell T.grid x y = CellState.SUNK ∨
            getCell T.grid x y = CellState.MISS) := by
          intro hres
          have h2 := hsync0 x hx y hy hres
          rcases hguard with hg | hg
          · exact h2.1 hg
          · exact h2.2 hg
        have hnH : getCell T.grid x y ≠ CellState.HIT :=
          fun hc => hblock (Or.inl hc)
        have hnS : getCell T.grid x y ≠ CellState.SUNK :=
          fun hc => hblock (Or.inr (Or.inl hc))
        have hnM : getCell T.grid x y ≠ CellState.MISS :=
          fun hc => hblock (Or.inr (Or.inr hc))
        by_cases hdecoy : T.decoyPositions.any
            (fun p => decide (p.x = x ∧ p.y = y)) = true
        · rw [if_pos hdecoy]
          refine globalInv_update d gs _ h A T _ _ hAmem hTmem hne' rfl rfl
            ⟨rfl, rfl, rfl⟩ ?_ ⟨rfl, rfl⟩ ?_ ?_
          · intro e he
            have he2 : e ∈ setA A.shots T.id (setCell shots0 x y CellState.HIT) := he
            rcases mem_setA he2 with h1 | h1
            · exact hAsh e h1
            · rw [h1]
              exact matWF_setM hWFs0
          · exact partsInv_decoy d T.grid T.ships T.shots x y hTpinv
          · refine shotsSync_intro d _ _ (setCell shots0 x y CellState.HIT) ?_ ?_
            · exact lookupA_setA_self _ _ _
            · exact syncRaw_decoy d shots0 T.grid x y hWFs0 hx hy hsync0
        · rw [if_neg hdecoy]
          by_cases hship : getCell T.grid x y = CellState.SHIP
          · rw [hship, if_pos rfl]
            rcases hfind : T.ships.find? (fun sh =>
                sh.positions.any (fun pos => decide (pos.x = x ∧ pos.y = y))) with _ | hs
            · rw [hfind]
              exact h
            · rw [hfind]
              dsimp only
              have hbounds : ∀ p ∈ hs.positions, p.x < d.cols ∧ p.y < d.rows :=
                (hTpinv.2.2.1 hs (List.mem_of_find?_eq_some hfind)).2
              by_cases hsunk : (hs.positions.all (fun pos =>
                  getCell (setCell T.grid x y CellState.HIT) pos.x pos.y
                    == CellState.HIT)) = true
              · rw [if_pos hsunk]
                refine globalInv_update d gs _ h A T _ _ hAmem hTmem hne' rfl rfl
                  ⟨rfl, rfl, rfl⟩ ?_ ⟨rfl, rfl⟩ ?_ ?_
                · intro e he
                  have he2 : e ∈ setA A.shots T.id (markCells
                      (setCell shots0 x y CellState.HIT) hs.positions CellState.SUNK) := he
                  rcases mem_setA he2 with h1 | h1
                  · exact hAsh e h1
                  · rw [h1]
                    exact matWF_markCells (matWF_setM hWFs0) _ _
                · exact partsInv_sink d T.grid T.ships T.shots x y hs
                    (fun sh => { sh with isDamaged := true, isSunk := true })
                    hTpinv hfind ⟨rfl, rfl⟩
                · refine shotsSync_intro d _ _ (markCells
                    (setCell shots0 x y CellState.HIT) hs.positions CellState.SUNK) ?_ ?_
                  · exact lookupA_setA_self _ _ _
                  · exact syncRaw_sink d shots0 T.grid x y hs.positions hWFs0
                      (find?_ship_pos hfind) hbounds hsync0
              · rw [if_neg hsunk]
                have hnot : ¬(∀ p ∈ hs.positions,
                    getCell (setCell T.grid x y CellState.HIT) p.x p.y
                      = CellState.HIT) := by
                  intro hc
                  apply hsunk
                  simp only [List.all_eq_true, beq_iff_eq]
                  exact hc
                refine globalInv_update d gs _ h A T _ _ hAmem hTmem hne' rfl rfl
                  ⟨rfl, rfl, rfl⟩ ?_ ⟨rfl, rfl⟩ ?_ ?_
                · intro e he
                  have he2 : e ∈ setA A.shots T.id (setCell shots0 x y CellState.HIT) := he
                  rcases mem_setA he2 with h1 | h1
                  · exact hAsh e h1
                  · rw [h1]
                    exact matWF_setM hWFs0
                · exact partsInv_damage d T.grid T.ships T.shots x y hs
                    (fun sh => { sh with isDamaged := true })
                    hTpinv hfind hship hnot ⟨rfl, rfl⟩
                · refine shotsSync_intro d _ _ (setCell shots0 x y CellState.HIT) ?_ ?_
                  · exact lookupA_setA_self _ _ _
                  · exact syncRaw_write d shots0 T.grid x y CellState.HIT CellState.HIT
                      (by simp) (by simp) hWFs0 hx hy hsync0
          · rw [if_neg hship]
            have hns : ∀ s ∈ T.ships, (Pos.mk x y) ∉ s.positions := by
              intro s hsm hp
              rcases shipInv_cell_range (hTpinv.2.2.1 s hsm).1 hp with h1 | h1 | h1
              · exact hship h1
              · exact hnH h1
              · exact hnS h1
            refine globalInv_update d gs _ h A T _ _ hAmem hTmem hne' rfl rfl
              ⟨rfl, rfl, rfl⟩ ?_ ⟨rfl, rfl⟩ ?_ ?_
            · intro e he
              have he2 : e ∈ setA A.shots T.id (setCell shots0 x y CellState.MISS) := he
              rcases mem_setA he2 with h1 | h1
              · exact hAsh e h1
              · rw [h1]
                exact matWF_setM hWFs0
            · show partsInv d (if getCell T.grid x y ≠ CellState.DECOY then
                  setCell T.grid x y CellState.MISS else T.grid) T.ships T.shots
              split
              · exact partsInv_offship d T.grid T.ships T.shots x y CellState.MISS
                  hTpinv hns
              · exact hTpinv
            · refine shotsSync_intro d _ _ (setCell shots0 x y CellState.MISS) ?_ ?_
              · exact lookupA_setA_self _ _ _
              · show syncRaw d (setCell shots0 x y CellState.MISS)
                  (if getCell T.grid x y ≠ CellState.DECOY then
                    setCell T.grid x y CellState.MISS else T.grid)
                split
                · exact syncRaw_write d shots0 T.grid x y CellState.MISS CellState.MISS
                    (by simp) (by simp) hWFs0 hx hy hsync0
                · exact syncRaw_write_keep d shots0 T.grid x y CellState.MISS
                    (by simp) (by simp) hWFs0 hx hy hsync0
      · rw [if_pos ⟨fun hc => hguard (Or.inl hc), fun hc => hguard (Or.inr hc)⟩]
        exact h
    · rw [if_neg hmode]
      by_cases hgc : getCell shots0 x y = CellState.EMPTY
      · rw [if_neg (by simp [hgc])]
        have hnH : getCell T.grid x y ≠ CellState.HIT :=
          fun hc => (hsync0 x hx y hy (Or.inl hc)).1 hgc
        have hnS : getCell T.grid x y ≠ CellState.SUNK :=
          fun hc => (hsync0 x hx y hy (Or.inr (Or.inl hc))).1 hgc
        have hnM : getCell T.grid x y ≠ CellState.MISS :=
          fun hc => (hsync0 x hx y hy (Or.inr (Or.inr hc))).1 hgc
        obtain ⟨hstinv, hstsync, hstwf⟩ := classicShotStep_invariants d
          (baseLogEntry gs A x y) shots0 T T.id x y hWFs0 hx hy hTpinv hsync0
          hnH hnS hnM
        refine globalInv_update d gs _ h A T _ _ hAmem hTmem hne' rfl rfl
          ⟨rfl, rfl, rfl⟩ ?_ ⟨rfl, rfl⟩ ?_ ?_
        · intro e he
          have he2 : e ∈ setA A.shots T.id
              (classicShotStep (baseLogEntry gs A x y) shots0 T T.id x y).1 := he
          rcases mem_setA he2 with h1 | h1
          · exact hAsh e h1
          · rw [h1]
            exact hstwf
        · exact hstinv
        · refine shotsSync_intro d _ _
            (classicShotStep (baseLogEntry gs A x y) shots0 T T.id x y).1 ?_ ?_
          · exact lookupA_setA_self _ _ _
          · exact hstsync
      · rw [if_pos hgc]
        exact h

theorem reach_globalInv (d : Dims) {a b : GameState} (hr : Reach a b)
    (h : GlobalInv d a) : GlobalInv d b := by
  induction hr with
  | refl => exact h
  | tail hr2 hs ih =>
    cases hs with
    | shot tid x y A hA hne hx hy =>
      exact processShot_globalInv d _ tid x y A hA hne hx hy ih
    | turn => exact advanceTurn_globalInv d _ ih

def c1Ship : Ship :=
  { name := "S1", type := ShipType.Radarship, length := 1,
    positions := [⟨0, 0⟩], isSunk := false, isDamaged := false,
    hasBeenRepaired := false, hasBeenRelocated := false }

def c1P1 : Player :=
  { basePlayer with
    grid := setCell (createEmptyGrid 2 2) 0 0 CellState.SHIP,
    ships := [c1Ship] }

def c1P2 : Player :=
  { c1P1 with id := 1, name := "P2" }

/-- A classic 2x2 game; each player owns one length-1 ship at (0,0). -/
def c1State : GameState :=
  baseState [c1P1, c1P2] GameMode.CLASSIC

/-- C1 (corrected): starting from a two-player state of fresh boards (every
placed ship marked `SHIP` on its owner's grid), after any sequence of
`processShot` calls and turn hand-offs, in both modes a ship's `isSunk` flag
is true iff every one of its recorded positions reads `HIT` **or `SUNK`** on
the owner's grid; decoy cells never contribute.  The claim's all-`HIT`
reading fails: the sinking shot rewrites the whole footprint to `SUNK`. -/
theorem sink_invariant_spec (d : Dims) (gs0 gs : GameState)
    (hinit : initStateInv d gs0) (hr : Reach gs0 gs) :
    ∀ P ∈ gs.players, ∀ s ∈ P.ships,
      (s.isSunk = true ↔ ∀ p ∈ s.positions,
        getCell P.grid p.x p.y = CellState.HIT ∨
        getCell P.grid p.x p.y = CellState.SUNK) :=
  globalInv_sink_iff d gs (reach_globalInv d hr (initStateInv_globalInv d gs0 hinit))

/-- C1 counterexample to the literal claim: from a fresh 2x2 classic state,
one sinking shot at (0,0) sets the target ship's `isSunk` while rewriting
its only cell to `SUNK`, so "every position reads `HIT`" is false. -/
theorem sink_invariant_counterexample :
    initStateInv ⟨2, 2⟩ c1State ∧
    Reach c1State (processShot c1State (some 1) 0 0) ∧
    ¬(∀ P ∈ (processShot c1State (some 1) 0 0).players, ∀ s ∈ P.ships,
      (s.isSunk = true ↔ ∀ p ∈ s.positions,
        getCell P.grid p.x p.y = CellState.HIT)) :=
  ⟨by decide,
   Reach.tail (Reach.refl c1State)
     (GameStep.shot c1State 1 0 0 c1P1 rfl (by decide) (by decide) (by decide)),
   by decide⟩

/-- Witness for C1 at the state reached by one sinking shot: the sunk ship's
cell reads `SUNK`, the other player's intact ship still reads `SHIP`. -/
theorem sink_invariant_spec_witness :
    initStateInv ⟨2, 2⟩ c1State ∧
    ∀ P ∈ (processShot c1State (some 1) 0 0).players, ∀ s ∈ P.ships,
      (s.isSunk = true ↔ ∀ p ∈ s.positions,
        getCell P.grid p.x p.y = CellState.HIT ∨
        getCell P.grid p.x p.y = CellState.SUNK) :=
  ⟨by decide,
   sink_invariant_spec ⟨2, 2⟩ c1State _ (by decide)
     (Reach.tail (Reach.refl c1State)
       (GameStep.shot c1State 1 0 0 c1P1 rfl (by decide) (by decide) (by decide)))⟩
